import Mathlib

/-!
# wiznet-library: a shallow embedding of `wiznet.c` / `wiznet.h`

The driver talks to the chip only through the STM32 HAL (`HAL_GPIO_WritePin`,
`HAL_SPI_Transmit`, `HAL_SPI_Receive`, `HAL_Delay`, `HAL_GetTick`).  The HAL is
kept abstract (`Hal σ`): every driver function is defined for an arbitrary
platform, and every HAL call is recorded in a history (`World.trace`).

Conventions
* machine integers are `Nat`/`Int` with explicit reduction (`% 256`, `% 65536`,
  `% 2^32`);
* the host is little-endian (Cortex-M): the object representation of a
  `uint16_t x` is `[x % 256, x / 256]`;
* pointers are `Option Nat` (`none` is `NULL`) into two heaps of `wiznet_t` and
  `socket_t` objects;
* undefined behaviour of the C program (out-of-range table index, `NULL`
  dereference, use of an uninitialised local) is `Fault.undefined`; loops that
  the code does not bound take a fuel argument and report `Fault.outOfFuel`;
* `printf` (diagnostics) is not modelled.

Layout: the embedding of the source; the vocabulary of the statements (frames of
HAL calls, the occupancy invariant); a simulated chip and concrete worlds on
which the driver is run; then the theorems.
-/

namespace Wiznet

/-! ## Constants of `wiznet.h` / `wiznet.c` -/

def IAWT : Nat := 31249
def MAX_TCP_SEGMENT_SIZE : Nat := 1460

def WIZNET_TIMEOUT_RESET : Nat := 8000
def SOCK_TIMEOUT_OPEN : Nat := 1000
def SOCK_TIMEOUT_CONNECT : Nat := 2000
def SOCK_TIMEOUT_CLOSE : Nat := 1000
def SOCK_TIMEOUT_DISCON : Nat := 2000

def NUM_OF_WIZNETS : Nat := 1
def NUM_OF_SOCKETS : Nat := 8

def RWB : Nat := 2

def COMMON_REGISTERS : Nat := 0b00000

def GAR : Nat := 0x0001
def SUBR : Nat := 0x0005
def SHAR : Nat := 0x0009
def SIPR : Nat := 0x000F
def INTLEVEL : Nat := 0x0013
def SIR : Nat := 0x0017
def SIMR : Nat := 0x0018
def PHYCFGR : Nat := 0x002E
def PHYCFGR_RST : Nat := 7
def LNK : Nat := 0
def VERSIONR : Nat := 0x0039

def Sn_MR : Nat := 0x0000
def SOCK_TYPE_CLOSED : Nat := 0b0000
def SOCK_TYPE_TCP : Nat := 0b0001
def SOCK_TYPE_UDP : Nat := 0b0010
def SOCK_TYPE_MACRAW : Nat := 0b0100

def Sn_CR : Nat := 0x0001
def SOCK_CMD_OPEN : Nat := 0x01
def SOCK_CMD_LISTEN : Nat := 0x02
def SOCK_CMD_CONNECT : Nat := 0x04
def SOCK_CMD_DISCON : Nat := 0x08
def SOCK_CMD_CLOSE : Nat := 0x10
def SOCK_CMD_SEND : Nat := 0x20
def SOCK_CMD_SEND_MAC : Nat := 0x21
def SOCK_CMD_SEND_KEEP : Nat := 0x22
def SOCK_CMD_RECV : Nat := 0x40

def Sn_IR : Nat := 0x0002
def SOCK_IR_CON : Nat := 0
def SOCK_IR_DISCON : Nat := 1
def SOCK_IR_RECV : Nat := 2
def SOCK_IR_TIMEOUT : Nat := 3
def SOCK_IR_SEND_OK : Nat := 4
def NUM_OF_SOCK_IRS : Nat := 5

def Sn_SR : Nat := 0x0003
def SOCK_STATUS_CLOSED : Int := 0x00
def SOCK_STATUS_INIT : Int := 0x13
def SOCK_STATUS_LISTEN : Int := 0x14
def SOCK_STATUS_ESTABLISHED : Int := 0x17
def SOCK_STATUS_CLOSE_WAIT : Int := 0x1C
def SOCK_STATUS_UDP : Int := 0x22
def SOCK_STATUS_MACRAW : Int := 0x42
def SOCK_STATUS_NUM_EXCEEDED : Int := -2
def SOCK_STATUS_MACRAW_TAKEN : Int := -3
def SOCK_STATUS_CANT_OPEN : Int := -4
def SOCK_STATUS_CANT_CLOSE : Int := -5

def Sn_PORT : Nat := 0x0004
def Sn_DHAR : Nat := 0x0006
def Sn_DIPR : Nat := 0x000C
def Sn_DPORT : Nat := 0x0010
def Sn_MSSR : Nat := 0x0012
def Sn_TX_FSR : Nat := 0x0020
def Sn_TX_RD : Nat := 0x0022
def Sn_TX_WR : Nat := 0x0024
def Sn_RX_RSR : Nat := 0x0026
def Sn_RX_RD : Nat := 0x0028
def Sn_RX_WR : Nat := 0x002A

/-- The table `sock_n_registers` (BSB bits of the socket register blocks). -/
def sock_n_registers : List Nat :=
  [0b00001, 0b00101, 0b01001, 0b01101, 0b10001, 0b10101, 0b11001, 0b11101]

/-- The table `sock_n_tx_buffers`. -/
def sock_n_tx_buffers : List Nat :=
  [0b00010, 0b00110, 0b01010, 0b01110, 0b10010, 0b10110, 0b11010, 0b11110]

/-- The table `sock_n_rx_buffers`. -/
def sock_n_rx_buffers : List Nat :=
  [0b00011, 0b00111, 0b01011, 0b01111, 0b10011, 0b10111, 0b11011, 0b11111]

/-- The macro `SWAP_TWO_BYTES(X)`. -/
def SWAP_TWO_BYTES (x : Nat) : Nat :=
  ((x &&& 0xFF00) >>> 8) ||| ((x &&& 0x00FF) <<< 8)

/-! ## Machine-level helpers -/

/-- Object representation of a `uint16_t` on the little-endian host. -/
def u16_bytes (x : Nat) : List Nat := [x % 256, x / 256 % 256]

/-- The `uint16_t` whose object representation is the given two bytes. -/
def u16_of_bytes (bs : List Nat) : Nat := bs.getD 0 0 % 256 + 256 * (bs.getD 1 0 % 256)

/-- Copy `data` into the buffer `buf` starting at offset `off` (a `memcpy` view
of what `HAL_SPI_Receive` does to the destination). -/
def blit (buf : List Nat) (off : Nat) (data : List Nat) : List Nat :=
  buf.take off ++ data ++ buf.drop (off + data.length)

/-- Ways in which a run of the C program does not produce a result. -/
inductive Fault where
  | undefined
  | outOfFuel
  deriving DecidableEq, Repr

/-- Read entry `i` of a constant table; an index outside the table is undefined
behaviour. -/
def index (tbl : List Nat) (i : Int) : Except Fault Nat :=
  if 0 ≤ i ∧ i.toNat < tbl.length then .ok (tbl.getD i.toNat 0) else .error Fault.undefined

/-- Dereference a pointer; `NULL` is undefined behaviour. -/
def deref (p : Option Nat) : Except Fault Nat :=
  match p with
  | some a => .ok a
  | none => .error Fault.undefined

/-! ## Data model (`struct Socket`, `struct Wiznet`, the globals) -/

/-- The C type `struct Socket`. -/
structure socket_t where
  _id : Int
  _host_wiznet : Option Nat
  type : Nat
  status : Int
  ip : List Nat
  port : Nat
  macraw_dst : List Nat

/-- The C type `struct Wiznet`. -/
structure wiznet_t where
  _id : Int
  _sockets_cnt : Nat
  _sockets_taken : Nat
  _sockets : Nat → Option Nat
  hspi : Nat
  RST_CS_Port : Nat
  RST_Pin : Nat
  CS_Pin : Nat
  mac_addr : List Nat
  ip_addr : List Nat
  ip_gateway_addr : List Nat
  subnet_mask : List Nat

/-- Driver memory: the file-scope and function-static variables and the two
heaps the pointers of the program point into. -/
structure Ram where
  wiznets_cnt : Nat
  wiznets : Nat → Option Nat
  is_first_wiznet : Bool
  need_to_fragment : Bool
  wiznet_heap : Nat → wiznet_t
  socket_heap : Nat → socket_t

/-- One call into the HAL, with its arguments and (for reads) its result. -/
inductive HalOp where
  | GPIO_WritePin (port pin : Nat) (state : Bool)
  | SPI_Transmit (hspi : Nat) (data : List Nat)
  | SPI_Receive (hspi : Nat) (data : List Nat)
  | Delay (ms : Nat)
  | GetTick (t : Nat)
  deriving DecidableEq, Repr

/-- The platform the driver runs on: what each HAL call does to the hardware
state `σ` and what it returns. -/
structure Hal (σ : Type) where
  GPIO_WritePin : σ → Nat → Nat → Bool → σ
  SPI_Transmit : σ → Nat → List Nat → σ
  SPI_Receive : σ → Nat → Nat → List Nat × σ
  Delay : σ → Nat → σ
  GetTick : σ → Nat × σ

/-- Everything a run of the driver can observe or change. -/
structure World (σ : Type) where
  hw : σ
  trace : List HalOp
  ram : Ram

variable {σ : Type}

/-- Overwrite one cell of a heap or array. -/
def upd {α : Type} (f : Nat → α) (i : Nat) (v : α) : Nat → α :=
  fun j => if j = i then v else f j

def setSock (w : World σ) (p : Nat) (s : socket_t) : World σ :=
  { w with ram := { w.ram with socket_heap := upd w.ram.socket_heap p s } }

def setWiz (w : World σ) (p : Nat) (z : wiznet_t) : World σ :=
  { w with ram := { w.ram with wiznet_heap := upd w.ram.wiznet_heap p z } }

/-! ## HAL wrappers -/

def HAL_GPIO_WritePin (hal : Hal σ) (port pin : Nat) (state : Bool) (w : World σ) : World σ :=
  { w with hw := hal.GPIO_WritePin w.hw port pin state,
           trace := w.trace ++ [HalOp.GPIO_WritePin port pin state] }

def HAL_SPI_Transmit (hal : Hal σ) (hspi : Nat) (data : List Nat) (w : World σ) : World σ :=
  { w with hw := hal.SPI_Transmit w.hw hspi data,
           trace := w.trace ++ [HalOp.SPI_Transmit hspi data] }

/-- The bytes `HAL_SPI_Receive` stores: exactly `len` of them, each a `uint8_t`. -/
def rxBytes (hal : Hal σ) (hspi len : Nat) (s : σ) : List Nat :=
  (List.range len).map (fun k => (hal.SPI_Receive s hspi len).1.getD k 0 % 256)

def HAL_SPI_Receive (hal : Hal σ) (hspi len : Nat) (w : World σ) : List Nat × World σ :=
  (rxBytes hal hspi len w.hw,
   { w with hw := (hal.SPI_Receive w.hw hspi len).2,
            trace := w.trace ++ [HalOp.SPI_Receive hspi (rxBytes hal hspi len w.hw)] })

def HAL_Delay (hal : Hal σ) (ms : Nat) (w : World σ) : World σ :=
  { w with hw := hal.Delay w.hw ms, trace := w.trace ++ [HalOp.Delay ms] }

def HAL_GetTick (hal : Hal σ) (w : World σ) : Nat × World σ :=
  ((hal.GetTick w.hw).1 % 2 ^ 32,
   { w with hw := (hal.GetTick w.hw).2,
            trace := w.trace ++ [HalOp.GetTick ((hal.GetTick w.hw).1 % 2 ^ 32)] })

/-! ## `wiznet.c` -/

/-- The C function `_millis`. -/
def _millis (hal : Hal σ) (w : World σ) : Nat × World σ :=
  HAL_GetTick hal w

/-- The C function `_write_spi`; `wiznet` is the (non-null) pointer argument,
`data`/`len` the buffer and the number of bytes sent from it. -/
def _write_spi (hal : Hal σ) (wiznet : Nat) (addr bank : Nat) (data : List Nat) (len : Nat)
    (w : World σ) : World σ :=
  let z := w.ram.wiznet_heap wiznet
  let ctrl_phase := (bank <<< 3) % 256
  let ctrl_phase := (ctrl_phase ||| (1 <<< RWB)) % 256
  let addr := SWAP_TWO_BYTES addr % 65536
  let w := HAL_GPIO_WritePin hal z.RST_CS_Port z.CS_Pin false w
  let w := HAL_SPI_Transmit hal z.hspi (u16_bytes addr) w
  let w := HAL_SPI_Transmit hal z.hspi [ctrl_phase] w
  let w := HAL_SPI_Transmit hal z.hspi (data.take len) w
  HAL_GPIO_WritePin hal z.RST_CS_Port z.CS_Pin true w

/-- The C function `_read_spi`; returns the `len` bytes stored through `buf`. -/
def _read_spi (hal : Hal σ) (wiznet : Nat) (addr bank : Nat) (len : Nat)
    (w : World σ) : List Nat × World σ :=
  let z := w.ram.wiznet_heap wiznet
  let ctrl_phase := (bank <<< 3) % 256
  let addr := SWAP_TWO_BYTES addr % 65536
  let w := HAL_GPIO_WritePin hal z.RST_CS_Port z.CS_Pin false w
  let w := HAL_SPI_Transmit hal z.hspi (u16_bytes addr) w
  let w := HAL_SPI_Transmit hal z.hspi [ctrl_phase] w
  let r := HAL_SPI_Receive hal z.hspi len w
  (r.1, HAL_GPIO_WritePin hal z.RST_CS_Port z.CS_Pin true r.2)

/-- Steps 3 and 4 of `recv` (lines 731-739): write the observed end pointer to
`Sn_RX_RD`, issue `RECV`, return the length. -/
def recv_ack (hal : Hal σ) (host sock_n_register rx_end_ptr : Nat) (res : Nat × List Nat)
    (w : World σ) : (Nat × List Nat) × World σ :=
  -- 3. update the pointer to the end of data in RX buffer
  let rx_end_ptr := SWAP_TWO_BYTES rx_end_ptr % 65536
  let w := _write_spi hal host Sn_RX_RD sock_n_register (u16_bytes rx_end_ptr) 2 w
  -- 4. send RECV command to notify Wiznet chip
  let w := _write_spi hal host Sn_CR sock_n_register [SOCK_CMD_RECV] 1 w
  (res, w)

/-- The C function `recv`.  `buf` is the contents of the destination before the
call; the result is the returned length and the contents after it. -/
def recv (hal : Hal σ) (sock : Nat) (buf : List Nat) (buf_size : Nat) (w : World σ) :
    Except Fault ((Nat × List Nat) × World σ) := do
  let s := w.ram.socket_heap sock
  let sock_n_register ← index sock_n_registers s._id
  let sock_n_rx_buffer ← index sock_n_rx_buffers s._id
  let host ← deref s._host_wiznet
  -- 1. read start and end pointers of RX buffer with our data
  let r1 := _read_spi hal host Sn_RX_RD sock_n_register 2 w
  let r2 := _read_spi hal host Sn_RX_WR sock_n_register 2 r1.2
  let rx_start_ptr := SWAP_TWO_BYTES (u16_of_bytes r1.1) % 65536
  let rx_end_ptr := SWAP_TWO_BYTES (u16_of_bytes r2.1) % 65536
  let w := r2.2
  -- 2. read the data (and handle different cases)
  if rx_end_ptr = rx_start_ptr then
    return ((0, buf), w)
  else if rx_end_ptr < rx_start_ptr then
    let len_of_received_data := ((0xFFFF - rx_start_ptr) + (rx_end_ptr - 0x0000)) % 65536
    if len_of_received_data > buf_size then
      return ((0, buf), w)
    else
      -- two steps: [from start to 0xFFFF] and [from 0x0000 to end]
      let a := _read_spi hal host rx_start_ptr sock_n_rx_buffer (0xFFFF - rx_start_ptr) w
      let b := _read_spi hal host 0x0000 sock_n_rx_buffer (rx_end_ptr - 0x0000) a.2
      return recv_ack hal host sock_n_register rx_end_ptr
        (len_of_received_data, blit (blit buf 0 a.1) (0xFFFF - rx_start_ptr) b.1) b.2
  else
    let len_of_received_data := (rx_end_ptr - rx_start_ptr) % 65536
    if len_of_received_data > buf_size then
      return ((0, buf), w)
    else
      let a := _read_spi hal host rx_start_ptr sock_n_rx_buffer len_of_received_data w
      return recv_ack hal host sock_n_register rx_end_ptr
        (len_of_received_data, blit buf 0 a.1) a.2

/-- The `switch` of step 4 of `sendto` (lines 671-679): the command byte for
the socket type; for any other type no case assigns `byte`. -/
def sendto_flush_cmd (type : Nat) : Except Fault Nat :=
  if type = SOCK_TYPE_TCP ∨ type = SOCK_TYPE_UDP then .ok SOCK_CMD_SEND
  else if type = SOCK_TYPE_MACRAW then .ok SOCK_CMD_SEND_MAC
  else .error Fault.undefined

/-- Assignment to the function-static flag `need_to_fragment` of `sendto`. -/
def setFrag (b : Bool) (w : World σ) : World σ :=
  { w with ram := { w.ram with need_to_fragment := b } }

/-- One execution of the body of `sendto` up to the flush (lines 634-680).
Returns the world after the `SEND` command together with
`ptr_to_next_fragment` and `len_of_next_fragment`. -/
def sendto_pass (hal : Hal σ) (sock : Nat) (data : List Nat) (len : Nat) (w : World σ) :
    Except Fault (World σ × List Nat × Nat) := do
  let s := w.ram.socket_heap sock
  -- choose appropriate socket register and TX buffer
  let sock_n_register ← index sock_n_registers s._id
  let sock_n_tx_buffer ← index sock_n_tx_buffers s._id
  let host ← deref s._host_wiznet
  -- 0. check free size
  let r := _read_spi hal host Sn_TX_FSR sock_n_register 2 w
  let tx_buf_free_size := SWAP_TWO_BYTES (u16_of_bytes r.1) % 65536
  -- fragment the data
  let w := setFrag (decide (tx_buf_free_size < len)) r.2
  let ptr_to_next_fragment := data.drop tx_buf_free_size
  let len_of_next_fragment := (len - tx_buf_free_size) % 65536
  let len := if tx_buf_free_size < len then tx_buf_free_size else len
  -- 1. read the pointer of TX buffer where we need to put a data for transmitting
  let r := _read_spi hal host Sn_TX_RD sock_n_register 2 w
  let tx_start_ptr := SWAP_TWO_BYTES (u16_of_bytes r.1) % 65536
  -- 2. write a data in TX buffer
  let w := _write_spi hal host tx_start_ptr sock_n_tx_buffer data len r.2
  -- 3. set the pointer to the end of a data to be transmitted
  let tx_end_ptr := (len + tx_start_ptr) % 65536
  let tx_end_ptr := SWAP_TWO_BYTES tx_end_ptr % 65536
  let w := _write_spi hal host Sn_TX_WR sock_n_register (u16_bytes tx_end_ptr) 2 w
  -- 4. flush
  let byte ← sendto_flush_cmd s.type
  let w := _write_spi hal host Sn_CR sock_n_register [byte] 1 w
  return (w, ptr_to_next_fragment, len_of_next_fragment)

/-- The C function `sendto`: the body, then the recursive call of line 682 when
`need_to_fragment` is set.  One unit of fuel is spent per call. -/
def sendto (hal : Hal σ) : Nat → Nat → List Nat → Nat → World σ → Except Fault (World σ)
  | 0, _, _, _, _ => .error Fault.outOfFuel
  | fuel + 1, sock, data, len, w =>
    match sendto_pass hal sock data len w with
    | .error e => .error e
    | .ok r =>
      if r.1.ram.need_to_fragment then sendto hal fuel sock r.2.1 r.2.2 r.1
      else .ok r.1

/-- The polling loop of `sock_open` (lines 571-586); one unit of fuel per
iteration.  `host` (`sock->_host_wiznet`) and the register block do not change
inside the loop and are passed in. -/
def sock_open_loop (hal : Hal σ) (sock host sock_n_register timeout_start : Nat) :
    Nat → World σ → Except Fault (World σ)
  | 0, _ => .error Fault.outOfFuel
  | fuel + 1, w =>
    -- read status
    let r := _read_spi hal host Sn_SR sock_n_register 1 w
    let status : Int := (r.1.getD 0 0 : Nat)
    let s := r.2.ram.socket_heap sock
    if (s.type = SOCK_TYPE_UDP ∧ status = SOCK_STATUS_UDP) ∨
       (s.type = SOCK_TYPE_TCP ∧ status = SOCK_STATUS_INIT) ∨
       (s.type = SOCK_TYPE_MACRAW ∧ status = SOCK_STATUS_MACRAW) then
      .ok (setSock r.2 sock { s with status := status })
    else
      -- handle timeout
      let t := _millis hal r.2
      if (t.1 + 2 ^ 32 - timeout_start) % 2 ^ 32 = SOCK_TIMEOUT_OPEN then
        .ok (setSock t.2 sock { t.2.ram.socket_heap sock with status := SOCK_STATUS_CANT_OPEN })
      else
        sock_open_loop hal sock host sock_n_register timeout_start fuel t.2

/-- The C function `sock_open`. -/
def sock_open (hal : Hal σ) (fuel : Nat) (sock : Nat) (w : World σ) :
    Except Fault (World σ) := do
  let s := w.ram.socket_heap sock
  let sock_n_register ← index sock_n_registers s._id
  let host ← deref s._host_wiznet
  -- send command
  let w := _write_spi hal host Sn_CR sock_n_register [SOCK_CMD_OPEN] 1 w
  -- wait for socket opening
  let t := _millis hal w
  sock_open_loop hal sock host sock_n_register t.1 fuel t.2

/-- The polling loop of `sock_connect` (lines 605-618). -/
def sock_connect_loop (hal : Hal σ) (sock host sock_n_register timeout_start : Nat) :
    Nat → World σ → Except Fault (World σ)
  | 0, _ => .error Fault.outOfFuel
  | fuel + 1, w =>
    let r := _read_spi hal host Sn_SR sock_n_register 1 w
    let status : Int := (r.1.getD 0 0 : Nat)
    if status = SOCK_STATUS_ESTABLISHED then
      .ok (setSock r.2 sock { r.2.ram.socket_heap sock with status := SOCK_STATUS_ESTABLISHED })
    else
      let t := _millis hal r.2
      if (t.1 + 2 ^ 32 - timeout_start) % 2 ^ 32 = SOCK_TIMEOUT_CONNECT then
        .ok (setSock t.2 sock { t.2.ram.socket_heap sock with status := status })
      else
        sock_connect_loop hal sock host sock_n_register timeout_start fuel t.2

/-- The C function `sock_connect`. -/
def sock_connect (hal : Hal σ) (fuel : Nat) (sock : Nat) (w : World σ) :
    Except Fault (World σ) := do
  let s := w.ram.socket_heap sock
  let sock_n_register ← index sock_n_registers s._id
  let host ← deref s._host_wiznet
  let w := _write_spi hal host Sn_CR sock_n_register [SOCK_CMD_CONNECT] 1 w
  let t := _millis hal w
  sock_connect_loop hal sock host sock_n_register t.1 fuel t.2

/-- The polling loop shared (textually) by `sock_discon` and `sock_close`:
wait for `SOCK_STATUS_CLOSED`, give up with `SOCK_STATUS_CANT_CLOSE` when the
elapsed time equals `timeout`. -/
def sock_closed_loop (hal : Hal σ) (sock host sock_n_register timeout_start timeout : Nat) :
    Nat → World σ → Except Fault (World σ)
  | 0, _ => .error Fault.outOfFuel
  | fuel + 1, w =>
    let r := _read_spi hal host Sn_SR sock_n_register 1 w
    let status : Int := (r.1.getD 0 0 : Nat)
    if status = SOCK_STATUS_CLOSED then
      .ok (setSock r.2 sock { r.2.ram.socket_heap sock with status := SOCK_STATUS_CLOSED })
    else
      let t := _millis hal r.2
      if (t.1 + 2 ^ 32 - timeout_start) % 2 ^ 32 = timeout then
        .ok (setSock t.2 sock { t.2.ram.socket_heap sock with status := SOCK_STATUS_CANT_CLOSE })
      else
        sock_closed_loop hal sock host sock_n_register timeout_start timeout fuel t.2

/-- The C function `sock_discon`. -/
def sock_discon (hal : Hal σ) (fuel : Nat) (sock : Nat) (w : World σ) :
    Except Fault (World σ) := do
  let s := w.ram.socket_heap sock
  let sock_n_register ← index sock_n_registers s._id
  let host ← deref s._host_wiznet
  let w := _write_spi hal host Sn_CR sock_n_register [SOCK_CMD_DISCON] 1 w
  let t := _millis hal w
  sock_closed_loop hal sock host sock_n_register t.1 SOCK_TIMEOUT_DISCON fuel t.2

/-- The C function `sock_close`. -/
def sock_close (hal : Hal σ) (fuel : Nat) (sock : Nat) (w : World σ) :
    Except Fault (World σ) := do
  let s := w.ram.socket_heap sock
  let sock_n_register ← index sock_n_registers s._id
  let host ← deref s._host_wiznet
  let w := _write_spi hal host Sn_CR sock_n_register [SOCK_CMD_CLOSE] 1 w
  let t := _millis hal w
  sock_closed_loop hal sock host sock_n_register t.1 SOCK_TIMEOUT_CLOSE fuel t.2

/-- The C function `wiznet_t_init` (members left out of the initialiser are
zero). -/
def wiznet_t_init : wiznet_t :=
  { _id := -1, _sockets_cnt := 0, _sockets_taken := 0b00000000, _sockets := fun _ => none,
    hspi := 0, RST_CS_Port := 0, RST_Pin := 0, CS_Pin := 0,
    mac_addr := [0, 0, 0, 0, 0, 0], ip_addr := [0, 0, 0, 0],
    ip_gateway_addr := [0, 0, 0, 0], subnet_mask := [0, 0, 0, 0] }

/-- The C function `socket_t_init`. -/
def socket_t_init : socket_t :=
  { _id := -1, _host_wiznet := none, type := SOCK_TYPE_CLOSED, status := SOCK_STATUS_CLOSED,
    ip := [0, 0, 0, 0], port := 0, macraw_dst := [0, 0, 0, 0, 0, 0] }

/-- The polling loop of `wiznet_hw_reset` (lines 270-283). -/
def wiznet_hw_reset_loop (hal : Hal σ) (wiznet timeout_start : Nat) :
    Nat → World σ → Except Fault (World σ)
  | 0, _ => .error Fault.outOfFuel
  | fuel + 1, w =>
    let r := _read_spi hal wiznet PHYCFGR COMMON_REGISTERS 1 w
    let byte := r.1.getD 0 0
    if byte &&& (1 <<< PHYCFGR_RST) ≠ 0 ∧ byte &&& (1 <<< LNK) ≠ 0 then
      .ok r.2
    else
      let t := _millis hal r.2
      if (t.1 + 2 ^ 32 - timeout_start) % 2 ^ 32 = WIZNET_TIMEOUT_RESET then
        .ok t.2
      else
        wiznet_hw_reset_loop hal wiznet timeout_start fuel t.2

/-- The C function `wiznet_hw_reset`. -/
def wiznet_hw_reset (hal : Hal σ) (fuel : Nat) (wiznet : Nat) (w : World σ) :
    Except Fault (World σ) :=
  let z := w.ram.wiznet_heap wiznet
  let w := HAL_GPIO_WritePin hal z.RST_CS_Port z.RST_Pin false w
  let w := HAL_Delay hal 1 w
  let w := HAL_GPIO_WritePin hal z.RST_CS_Port z.RST_Pin true w
  let w := HAL_Delay hal 1 w
  let t := _millis hal w
  wiznet_hw_reset_loop hal wiznet t.1 fuel t.2

/-- The C function `wiznet_get_version`. -/
def wiznet_get_version (hal : Hal σ) (wiznet : Nat) (w : World σ) : Nat × World σ :=
  let r := _read_spi hal wiznet VERSIONR COMMON_REGISTERS 1 w
  (r.1.getD 0 0, r.2)

/-- The registration loop of `wiznet_init` (lines 183-188): every empty slot
`i, i+1, ..` of `wiznets` receives the pointer (the loop has no `break`). -/
def wiznet_init_register (wiznet : Nat) : List Nat → World σ → World σ
  | [], w => w
  | i :: is, w =>
    if w.ram.wiznets i = none then
      let w : World σ := { w with ram := { w.ram with wiznets := upd w.ram.wiznets i (some wiznet) } }
      let w := setWiz w wiznet { w.ram.wiznet_heap wiznet with _id := (i : Int) }
      wiznet_init_register wiznet is w
    else
      wiznet_init_register wiznet is w

/-- Assignment to the file-scope counter `wiznets_cnt`. -/
def setWiznetsCnt (n : Nat) (w : World σ) : World σ :=
  { w with ram := { w.ram with wiznets_cnt := n } }

/-- Lines 170-174 of `wiznet_init`: on the first call, clear the `wiznets`
array and reset the function-static flag. -/
def wiznet_init_first (w : World σ) : World σ :=
  if w.ram.is_first_wiznet then
    { w with ram := { w.ram with
        is_first_wiznet := false,
        wiznets := fun i => if i < NUM_OF_WIZNETS then none else w.ram.wiznets i } }
  else w

/-- The C function `wiznet_init`; the fuel is that of the reset poll. -/
def wiznet_init (hal : Hal σ) (fuel : Nat) (wiznet : Nat) (w : World σ) :
    Except Fault (Int × World σ) :=
  -- initialize Wiznets array
  let w := wiznet_init_first w
  -- add this Wiznet to the array of Wiznets
  let w := setWiznetsCnt ((w.ram.wiznets_cnt + 1) % 2 ^ 32) w
  if w.ram.wiznets_cnt > NUM_OF_WIZNETS then
    .ok (-1, setWiznetsCnt ((w.ram.wiznets_cnt + 2 ^ 32 - 1) % 2 ^ 32) w)
  else
    let w := wiznet_init_register wiznet (List.range NUM_OF_WIZNETS) w
    match wiznet_hw_reset hal fuel wiznet w with
    | .error e => .error e
    | .ok w =>
      -- set Interrupt Assert Waiting Time
      let i_awt := SWAP_TWO_BYTES IAWT % 65536
      let w := _write_spi hal wiznet INTLEVEL COMMON_REGISTERS (u16_bytes i_awt) 2 w
      let z := w.ram.wiznet_heap wiznet
      let w := _write_spi hal wiznet SHAR COMMON_REGISTERS z.mac_addr 6 w
      let w := _write_spi hal wiznet SIPR COMMON_REGISTERS z.ip_addr 4 w
      let w := _write_spi hal wiznet GAR COMMON_REGISTERS z.ip_gateway_addr 4 w
      let w := _write_spi hal wiznet SUBR COMMON_REGISTERS z.subnet_mask 4 w
      -- DEBUG START
      let w := (_read_spi hal wiznet SHAR COMMON_REGISTERS 6 w).2
      let w := (_read_spi hal wiznet SIPR COMMON_REGISTERS 4 w).2
      let w := (_read_spi hal wiznet GAR COMMON_REGISTERS 4 w).2
      let w := (_read_spi hal wiznet SUBR COMMON_REGISTERS 4 w).2
      let w := (wiznet_get_version hal wiznet w).2
      -- DEBUG END
      let v := wiznet_get_version hal wiznet w
      .ok (if v.1 = 4 then 0 else -1, v.2)

/-- The C function `wiznet_deinit`.  The registry slot that is cleared is
`wiznets[wiznet->_id]`, read after `_id` has been overwritten. -/
def wiznet_deinit (hal : Hal σ) (fuel : Nat) (wiznet : Nat) (w : World σ) :
    Except Fault (World σ) :=
  match wiznet_hw_reset hal fuel wiznet w with
  | .error e => .error e
  | .ok w =>
    let w := setWiz w wiznet { w.ram.wiznet_heap wiznet with _id := -1 }
    let w :=
      if w.ram.wiznets_cnt ≠ 0 then setWiznetsCnt ((w.ram.wiznets_cnt + 2 ^ 32 - 1) % 2 ^ 32) w
      else w
    let i := (w.ram.wiznet_heap wiznet)._id
    if 0 ≤ i ∧ i.toNat < NUM_OF_WIZNETS then
      .ok { w with ram := { w.ram with wiznets := upd w.ram.wiznets i.toNat none } }
    else
      .error Fault.undefined

/-- Lines 404-426 of `socket`: the value of `sock->_id` after the block, or
`none` when the block leaves through `SOCK_STATUS_MACRAW_TAKEN`. -/
def socket_assign_id (z : wiznet_t) (s : socket_t) : Option Int :=
  -- for MACRAW socket, only Socket0 is suitable
  if s.type = SOCK_TYPE_MACRAW then
    if (1 <<< 0) &&& z._sockets_taken = 0 then some 0 else none
  -- if all 7 sockets are taken and we need another one then occupy #0
  else if z._sockets_taken = 0b11111110 then some 0
  -- start to create sockets from #1 and save #0 for MACRAW
  else
    match (List.range' 1 (NUM_OF_SOCKETS - 1)).find?
        (fun i => decide ((1 <<< i) &&& z._sockets_taken = 0)) with
    | some i => some (i : Int)
    | none => some s._id

/-- Lines 429-501 of `socket`: program the socket registers, open (and connect),
then register the socket or undo. -/
def socket_setup (hal : Hal σ) (fuel : Nat) (wiznet sock : Nat) (w : World σ) :
    Except Fault (Int × World σ) := do
  let s := w.ram.socket_heap sock
  -- choose appropriate register
  let sock_n_register ← index sock_n_registers s._id
  -- assign host Wiznet for opening (and connection) socket
  let w := setSock w sock { s with _host_wiznet := some wiznet }
  -- set mode
  let m ←
    if s.type = SOCK_TYPE_UDP then .ok (SOCK_TYPE_UDP, w)
    else if s.type = SOCK_TYPE_TCP then
      let max_sgmnt_size := SWAP_TWO_BYTES MAX_TCP_SEGMENT_SIZE % 65536
      .ok (SOCK_TYPE_TCP, _write_spi hal wiznet Sn_MSSR sock_n_register (u16_bytes max_sgmnt_size) 2 w)
    else if s.type = SOCK_TYPE_MACRAW then
      .ok (SOCK_TYPE_MACRAW, _write_spi hal wiznet Sn_DHAR sock_n_register s.macraw_dst 6 w)
    else .error Fault.undefined
  let w := _write_spi hal wiznet Sn_MR sock_n_register [m.1] 1 m.2
  let w :=
    if s.type ≠ SOCK_TYPE_MACRAW then
      -- set the same port for Source and Destination
      let port := SWAP_TWO_BYTES s.port % 65536
      let w := _write_spi hal wiznet Sn_PORT sock_n_register (u16_bytes port) 2 w
      let w := _write_spi hal wiznet Sn_DPORT sock_n_register (u16_bytes port) 2 w
      -- set destination IP
      _write_spi hal wiznet Sn_DIPR sock_n_register s.ip 4 w
    else w
  -- open[ and connect] socket
  let w ← sock_open hal fuel sock w
  let w ← if s.type = SOCK_TYPE_TCP then sock_connect hal fuel sock w else .ok w
  let s := w.ram.socket_heap sock
  let w ←
    -- successful opening[ and connection]
    if s.status > 0 then
      -- add socket to Wiznet
      let z := w.ram.wiznet_heap wiznet
      if 0 ≤ s._id ∧ s._id.toNat < NUM_OF_SOCKETS then
        .ok (setWiz w wiznet { z with
          _sockets_cnt := (z._sockets_cnt + 1) % 256,
          _sockets_taken := (z._sockets_taken ||| (1 <<< s._id.toNat)) % 256,
          _sockets := upd z._sockets s._id.toNat (some sock) })
      else .error Fault.undefined
    -- error during opening[ or connection] - undo all changes
    else
      .ok (setSock w sock { s with _id := -1, _host_wiznet := none })
  -- DEBUG START
  let w := (_read_spi hal wiznet Sn_DIPR sock_n_register 4 w).2
  let w := (_read_spi hal wiznet Sn_DPORT sock_n_register 2 w).2
  -- DEBUG END
  return ((w.ram.socket_heap sock).status, w)

/-- The C function `socket`; the fuel bounds each of the two polls. -/
def socket (hal : Hal σ) (fuel : Nat) (wiznet sock : Nat) (w : World σ) :
    Except Fault (Int × World σ) :=
  let z := w.ram.wiznet_heap wiznet
  let s := w.ram.socket_heap sock
  -- if there are no more free sockets, exit immediately
  if z._sockets_cnt ≥ NUM_OF_SOCKETS then
    .ok (SOCK_STATUS_NUM_EXCEEDED, setSock w sock { s with status := SOCK_STATUS_NUM_EXCEEDED })
  else
    match socket_assign_id z s with
    | none =>
      .ok (SOCK_STATUS_MACRAW_TAKEN, setSock w sock { s with status := SOCK_STATUS_MACRAW_TAKEN })
    | some id =>
      socket_setup hal fuel wiznet sock (setSock w sock { s with _id := id })

/-- The C function `sock_reset`. -/
def sock_reset (hal : Hal σ) (sock : Nat) (w : World σ) : Except Fault (World σ) := do
  let s := w.ram.socket_heap sock
  let sock_n_register ← index sock_n_registers s._id
  let host ← deref s._host_wiznet
  let w := _write_spi hal host Sn_MR sock_n_register [0] 1 w
  let w := _write_spi hal host Sn_PORT sock_n_register [0, 0] 2 w
  let w := _write_spi hal host Sn_DPORT sock_n_register [0, 0] 2 w
  let w := _write_spi hal host Sn_MSSR sock_n_register [0, 0] 2 w
  let w := _write_spi hal host Sn_DHAR sock_n_register [0, 0, 0, 0, 0, 0] 6 w
  let w := _write_spi hal host Sn_DIPR sock_n_register [0, 0, 0, 0] 4 w
  return w

/-- The C function `sock_deinit`. -/
def sock_deinit (hal : Hal σ) (sock : Nat) (w : World σ) : Except Fault (World σ) := do
  let w ← sock_reset hal sock w
  let s := w.ram.socket_heap sock
  let host ← deref s._host_wiznet
  if 0 ≤ s._id ∧ s._id.toNat < NUM_OF_SOCKETS then
    -- disable interrupt for this socket
    let r := _read_spi hal host SIMR COMMON_REGISTERS 1 w
    let byte := r.1.getD 0 0 &&& (0xFF ^^^ (1 <<< s._id.toNat))
    let w := _write_spi hal host SIMR COMMON_REGISTERS [byte] 1 r.2
    let z := w.ram.wiznet_heap host
    return setWiz w host { z with
      _sockets_cnt := if z._sockets_cnt ≠ 0 then z._sockets_cnt - 1 else z._sockets_cnt,
      _sockets_taken := z._sockets_taken &&& (0xFF ^^^ (1 <<< s._id.toNat)),
      _sockets := upd z._sockets s._id.toNat none }
  else
    .error Fault.undefined

/-- The socket search of `wiznet_isr_handler` (lines 315-320): the table entry
of the first index whose bit is set in `sock_int_reg`; `none` when no bit is set
(`sock` is then used uninitialised). -/
def isr_find_sock (z : wiznet_t) (sock_int_reg : Nat) : Option (Option Nat) :=
  ((List.range NUM_OF_SOCKETS).find? (fun idx => decide ((1 <<< idx) &&& sock_int_reg ≠ 0))).map
    z._sockets

/-- The C function `wiznet_isr_handler`.  The value returned is the list of
event types for which the `switch` body ran, in the order it ran. -/
def wiznet_isr_handler (hal : Hal σ) (wiznet : Nat) (w : World σ) :
    Except Fault (List Nat × World σ) := do
  -- read SIR register to find out what Socket trigger an interrupt
  let r := _read_spi hal wiznet SIR COMMON_REGISTERS 1 w
  let sock_int_reg := r.1.getD 0 0
  -- get socket with interrupt
  let sock ← match isr_find_sock (r.2.ram.wiznet_heap wiznet) sock_int_reg with
    | some p => deref p
    | none => .error Fault.undefined
  let sock_n_register ← index sock_n_registers (r.2.ram.socket_heap sock)._id
  -- identify interrupt type
  let r := _read_spi hal wiznet Sn_IR sock_n_register 1 r.2
  let ir_type := r.1.getD 0 0
  let events := (List.range NUM_OF_SOCK_IRS).filter (fun type => decide ((1 <<< type) &&& ir_type ≠ 0))
  -- clear interrupt
  let w := _write_spi hal wiznet Sn_IR sock_n_register [ir_type] 1 r.2
  let w := _write_spi hal wiznet SIR COMMON_REGISTERS [0] 1 w
  return (events, w)

/-! ## A simulated chip, for running the driver on concrete inputs

`Sim` is a register file addressed by block and offset, behind the SPI frame
format the driver uses (two address bytes, one control byte, data), with a
script for the status register and for the tick counter.  It is one instance of
`Hal`; the general theorems below do not depend on it. -/

/-- State of the simulated chip. -/
structure Sim where
  mem : Nat → Nat → Nat
  frame : List Nat
  sr : List Nat
  ticks : List Nat

/-- Store `data` at consecutive addresses (modulo 2^16) of one block. -/
def Sim.store (mem : Nat → Nat → Nat) (bsb addr : Nat) : List Nat → Nat → Nat → Nat
  | [] => mem
  | b :: bs => Sim.store (fun k a => if k = bsb ∧ a = addr % 65536 then b else mem k a) bsb (addr + 1) bs

/-- The simulated platform; `cs` is the chip-select pin. -/
def simHal (cs : Nat) : Hal Sim where
  GPIO_WritePin := fun s _ pin state =>
    if pin = cs then
      if state then
        match s.frame with
        | hi :: lo :: ctrl :: data =>
          if ctrl &&& 4 ≠ 0 then
            { s with mem := Sim.store s.mem (ctrl / 8) (hi * 256 + lo) data, frame := [] }
          else { s with frame := [] }
        | _ => { s with frame := [] }
      else { s with frame := [] }
    else s
  SPI_Transmit := fun s _ data => { s with frame := s.frame ++ data }
  SPI_Receive := fun s _ len =>
    match s.frame with
    | [hi, lo, ctrl] =>
      if hi * 256 + lo = Sn_SR ∧ ctrl % 32 = 8 ∧ s.sr ≠ [] then
        ([s.sr.headD 0], { s with sr := s.sr.tail })
      else
        ((List.range len).map (fun k => s.mem (ctrl / 8) ((hi * 256 + lo + k) % 65536)), s)
    | _ => ([], s)
  Delay := fun s _ => s
  GetTick := fun s => (s.ticks.headD 0, { s with ticks := s.ticks.tail })

/-! ## Vocabulary of the statements -/

/-- The HAL calls of one `_write_spi` transaction of device `z`: select, address
phase (big-endian), control phase (block in bits 7..3, write bit), data, deselect. -/
def writeFrame (z : wiznet_t) (addr bank : Nat) (data : List Nat) : List HalOp :=
  [HalOp.GPIO_WritePin z.RST_CS_Port z.CS_Pin false,
   HalOp.SPI_Transmit z.hspi [addr / 256, addr % 256],
   HalOp.SPI_Transmit z.hspi [bank * 8 + 4],
   HalOp.SPI_Transmit z.hspi data,
   HalOp.GPIO_WritePin z.RST_CS_Port z.CS_Pin true]

/-- The HAL calls of one `_read_spi` transaction that returned `data`. -/
def readFrame (z : wiznet_t) (addr bank : Nat) (data : List Nat) : List HalOp :=
  [HalOp.GPIO_WritePin z.RST_CS_Port z.CS_Pin false,
   HalOp.SPI_Transmit z.hspi [addr / 256, addr % 256],
   HalOp.SPI_Transmit z.hspi [bank * 8],
   HalOp.SPI_Receive z.hspi data,
   HalOp.GPIO_WritePin z.RST_CS_Port z.CS_Pin true]

/-- In world `w` the chip answers a two-byte read of register `addr` of block
`bank` with the (big-endian) value `v`. -/
def Reads16 (hal : Hal σ) (host addr bank v : Nat) (w : World σ) : Prop :=
  (_read_spi hal host addr bank 2 w).1 = [v / 256, v % 256]

/-- In world `w` the chip reports RX read pointer `r` and RX write pointer `wp`
to the two reads with which `recv` begins. -/
def RxPointers (hal : Hal σ) (host reg r wp : Nat) (w : World σ) : Prop :=
  Reads16 hal host Sn_RX_RD reg r w ∧
  Reads16 hal host Sn_RX_WR reg wp (_read_spi hal host Sn_RX_RD reg 2 w).2

/-- The world after those two reads. -/
def afterRxPointers (hal : Hal σ) (host reg : Nat) (w : World σ) : World σ :=
  (_read_spi hal host Sn_RX_WR reg 2 (_read_spi hal host Sn_RX_RD reg 2 w).2).2

/-- The bytes the chip returns, in world `w`, for a read of `len` bytes at
offset `start` of block `rxb`. -/
def rxBuffer (hal : Hal σ) (host rxb start len : Nat) (w : World σ) : List Nat :=
  (_read_spi hal host start rxb len w).1

/-- The command `sendto` flushes with (the `switch` of step 4). -/
def sendCmd (type : Nat) : Nat :=
  if type = SOCK_TYPE_MACRAW then SOCK_CMD_SEND_MAC else SOCK_CMD_SEND

/-- The HAL calls of one pass through the body of `sendto` in which the chip
reported free size `f` and start pointer `p` and the chunk `c` was written. -/
def sendRound (z : wiznet_t) (reg txb cmd f p : Nat) (c : List Nat) : List HalOp :=
  readFrame z Sn_TX_FSR reg [f / 256, f % 256]
  ++ readFrame z Sn_TX_RD reg [p / 256, p % 256]
  ++ writeFrame z p txb c
  ++ writeFrame z Sn_TX_WR reg [(c.length + p) % 65536 / 256, (c.length + p) % 65536 % 256]
  ++ writeFrame z Sn_CR reg [cmd]

/-- The HAL calls of successive passes, one per chunk, with their start pointers. -/
def sendRounds (z : wiznet_t) (reg txb cmd f : Nat) : List (List Nat) → List Nat → List HalOp
  | c :: cs, p :: ps => sendRound z reg txb cmd f p c ++ sendRounds z reg txb cmd f cs ps
  | _, _ => []

/-- Number of set bits among bits 0..7. -/
def popcount8 (x : Nat) : Nat :=
  ((List.range 8).filter (fun i => x.testBit i)).length

/-- The occupancy invariant of the device at address `wiznet`: the bitmap is a
byte, the count is the number of its set bits, and for each slot `i` of 0..7 the
bit is set iff the table entry is non-null, and a channel in the table carries
the identity `i`. -/
def OccInv (r : Ram) (wiznet : Nat) : Prop :=
  (r.wiznet_heap wiznet)._sockets_taken < 256 ∧
  (r.wiznet_heap wiznet)._sockets_cnt = popcount8 (r.wiznet_heap wiznet)._sockets_taken ∧
  ∀ i, i < 8 →
    (((r.wiznet_heap wiznet)._sockets_taken.testBit i = true ↔
        (r.wiznet_heap wiznet)._sockets i ≠ none) ∧
     ∀ p, (r.wiznet_heap wiznet)._sockets i = some p → (r.socket_heap p)._id = (i : Int))

/-- The command bytes written to the command register `Sn_CR` of register block
`reg`, in the order they appear in a history. -/
def commandsOf (reg : Nat) : List HalOp → List Nat
  | [] => []
  | HalOp.SPI_Transmit _ [0, 1] :: HalOp.SPI_Transmit _ [c] :: HalOp.SPI_Transmit _ [cmd] :: rest =>
    if c = reg * 8 + 4 then cmd :: commandsOf reg rest else commandsOf reg rest
  | _ :: rest => commandsOf reg rest

/-- Start pointers `ps` of successive chunks `cs` in which every pointer after
the first is the end pointer written to `Sn_TX_WR` in the round before. -/
def Linked : List (List Nat) → List Nat → Prop
  | c :: cs, p :: q :: ps => q = (c.length + p) % 65536 ∧ Linked cs (q :: ps)
  | _, _ => True

/-- The end pointer written to `Sn_TX_WR` in the last round. -/
def lastEnd : List (List Nat) → List Nat → Nat
  | [c], [p] => (c.length + p) % 65536
  | _ :: c :: cs, _ :: p :: ps => lastEnd (c :: cs) (p :: ps)
  | _, _ => 0

/-- The writes to block `txb` in a history, in order: start offset and data. -/
def bufferWrites (txb : Nat) : List HalOp → List (Nat × List Nat)
  | [] => []
  | HalOp.SPI_Transmit _ [hi, lo] :: HalOp.SPI_Transmit _ [c] :: HalOp.SPI_Transmit _ data :: rest =>
    if c = txb * 8 + 4 then (hi * 256 + lo, data) :: bufferWrites txb rest
    else bufferWrites txb rest
  | _ :: rest => bufferWrites txb rest

/-! ## Concrete worlds used to run the driver -/

/-- A device on reset pin 3 and chip-select pin 4, with the given occupancy. -/
def devWith (cnt taken : Nat) (tbl : Nat → Option Nat) : wiznet_t :=
  { wiznet_t_init with
    _id := 0, _sockets_cnt := cnt, _sockets_taken := taken, _sockets := tbl,
    RST_Pin := 3, CS_Pin := 4 }

/-- Driver memory with one registered device `z` (at every device address) and
the channel objects `heap`. -/
def ramWith (z : wiznet_t) (heap : Nat → socket_t) : Ram :=
  { wiznets_cnt := 1, wiznets := fun i => if i = 0 then some 0 else none,
    is_first_wiznet := false, need_to_fragment := false,
    wiznet_heap := fun _ => z, socket_heap := heap }

/-- A world on the simulated chip. -/
def simWorld (mem : Nat → Nat → Nat) (sr ticks : List Nat) (z : wiznet_t)
    (heap : Nat → socket_t) : World Sim :=
  { hw := { mem := mem, frame := [], sr := sr, ticks := ticks }, trace := [],
    ram := ramWith z heap }

/-- A register file given by a list of `((block, address), byte)` cells; every
other cell reads 0. -/
def memOf (cells : List ((Nat × Nat) × Nat)) : Nat → Nat → Nat :=
  fun b a => ((cells.find? (fun c => c.1 = (b, a))).map (fun c => c.2)).getD 0

/-- A UDP channel bound to slot 1 of the device at address 0. -/
def udpBound : socket_t :=
  { socket_t_init with
    _id := 1, _host_wiznet := some 0, type := SOCK_TYPE_UDP, status := SOCK_STATUS_UDP }

/-- A device whose only occupied slot is slot 1, held by the channel at address 0. -/
def dev1 : wiznet_t := devWith 1 0b10 (fun i => if i = 1 then some 0 else none)

/-- RX pointers of channel 1: read pointer 0xFFFE, write pointer 0x0001 (three
bytes pending, across the wrap); RX buffer holds 0xAA, 0xBB, 0xCC at 0xFFFE,
0xFFFF, 0x0000. -/
def rxWrapWorld : World Sim :=
  simWorld (memOf [((5, 0x28), 0xFF), ((5, 0x29), 0xFE), ((5, 0x2A), 0x00), ((5, 0x2B), 0x01),
                   ((7, 0xFFFE), 0xAA), ((7, 0xFFFF), 0xBB), ((7, 0x0000), 0xCC)])
    [] [] dev1 (fun _ => udpBound)

/-- RX pointers of channel 1: read pointer 0x0010, write pointer 0x0013; RX
buffer holds 1, 2, 3 at 0x0010..0x0012. -/
def rxPlainWorld : World Sim :=
  simWorld (memOf [((5, 0x29), 0x10), ((5, 0x2B), 0x13),
                   ((7, 0x10), 1), ((7, 0x11), 2), ((7, 0x12), 3)])
    [] [] dev1 (fun _ => udpBound)

/-- TX registers of channel 1: free size 0x0800, `Sn_TX_RD` = 0x0010,
`Sn_TX_WR` = 0x0500. -/
def txWorld : World Sim :=
  simWorld (memOf [((5, 0x20), 0x08), ((5, 0x21), 0x00), ((5, 0x22), 0x00), ((5, 0x23), 0x10),
                   ((5, 0x24), 0x05), ((5, 0x25), 0x00)])
    [] [] dev1 (fun _ => udpBound)

/-- An empty device and an unbound channel of the given type. -/
def emptyWorld (type : Nat) : World Sim :=
  simWorld (fun _ _ => 0) [] [] (devWith 0 0 (fun _ => none))
    (fun _ => { socket_t_init with type := type })

/-- A channel bound to slot `i` of the device at address 0. -/
def boundAt (i : Nat) (type : Nat) (status : Int) : socket_t :=
  { socket_t_init with _id := (i : Int), _host_wiznet := some 0, type := type, status := status }

/-- A device with all 8 slots occupied (slot `i` by the UDP channel at address
`i + 1`) and, at address 0, an unbound raw-frame request. -/
def fullWorld : World Sim :=
  simWorld (fun _ _ => 0) [] [] (devWith 8 0xFF (fun i => if i < 8 then some (i + 1) else none))
    (fun p => if 1 ≤ p ∧ p ≤ 8 then boundAt (p - 1) SOCK_TYPE_UDP SOCK_STATUS_UDP
              else { socket_t_init with type := SOCK_TYPE_MACRAW })

/-- A device with only slot 0 occupied (by the raw-frame channel at address 1)
and, at address 0, an unbound raw-frame request. -/
def slot0World : World Sim :=
  simWorld (fun _ _ => 0) [] [] (devWith 1 0x01 (fun i => if i = 0 then some 1 else none))
    (fun p => if p = 1 then boundAt 0 SOCK_TYPE_MACRAW SOCK_STATUS_MACRAW
              else { socket_t_init with type := SOCK_TYPE_MACRAW })

/-- An empty device and an unbound TCP request; the status register reads
`SOCK_STATUS_INIT` twice (once in the open poll, once in the connect poll), and
the tick counter reads 0, 5, 2005. -/
def tcpStuckWorld : World Sim :=
  simWorld (fun _ _ => 0) [0x13, 0x13] [0, 5, 2005] (devWith 0 0 (fun _ => none))
    (fun _ => { socket_t_init with type := SOCK_TYPE_TCP })

/-- An empty device and an unbound TCP request; the status register reads
`SOCK_STATUS_CLOSED` throughout, and the tick counter reads 0, 1000, 1000, 3000. -/
def tcpNoOpenWorld : World Sim :=
  simWorld (fun _ _ => 0) [0x00, 0x00] [0, 1000, 1000, 3000] (devWith 0 0 (fun _ => none))
    (fun _ => { socket_t_init with type := SOCK_TYPE_TCP })

/-- An empty device and an unbound TCP request; the status register reads
`SOCK_STATUS_CLOSED` during the open poll and `SOCK_STATUS_ESTABLISHED` at the
first connect poll; the tick counter reads 0, 1000, 1000. -/
def tcpLateWorld : World Sim :=
  simWorld (fun _ _ => 0) [0x00, 0x17] [0, 1000, 1000] (devWith 0 0 (fun _ => none))
    (fun _ => { socket_t_init with type := SOCK_TYPE_TCP })

/-- The same chip and clock as `tcpNoOpenWorld`, with an unbound UDP request. -/
def udpNoOpenWorld : World Sim :=
  simWorld (fun _ _ => 0) [0x00, 0x00] [0, 1000, 1000, 3000] (devWith 0 0 (fun _ => none))
    (fun _ => { socket_t_init with type := SOCK_TYPE_UDP })

/-- State of a chip model for the TX path: the bytes clocked in since chip
select, and the TX pointer. -/
structure TxChip where
  frame : List Nat
  ptr : Nat

/-- A platform for the TX path: every read of `Sn_TX_FSR` returns `f`, and
`Sn_TX_RD` reads back the value last written to `Sn_TX_WR` (each flush completes
before the next read). -/
def txHal (f : Nat) : Hal TxChip where
  GPIO_WritePin := fun s _ _ state =>
    if state then
      match s.frame with
      | [0x00, 0x24, _, hi, lo] => { frame := [], ptr := hi * 256 + lo }
      | _ => { s with frame := [] }
    else { s with frame := [] }
  SPI_Transmit := fun s _ data => { s with frame := s.frame ++ data }
  SPI_Receive := fun s _ _ =>
    match s.frame with
    | [0x00, 0x20, _] => ([f / 256, f % 256], s)
    | [0x00, 0x22, _] => ([s.ptr / 256, s.ptr % 256], s)
    | _ => ([], s)
  Delay := fun s _ => s
  GetTick := fun s => (0, s)

/-- A world on `txHal` with TX pointer 0xFFFC and the UDP channel of slot 1. -/
def txLinkedWorld : World TxChip :=
  { hw := { frame := [], ptr := 0xFFFC }, trace := [], ram := ramWith dev1 (fun _ => udpBound) }

/-- The fault with which a run ended, if it ended with one. -/
def faultOf {α : Type} (r : Except Fault α) : Option Fault :=
  match r with
  | .ok _ => none
  | .error e => some e

/-- The device with slot 1 held by the UDP channel at address 0; the
channel-interrupt register `SIR` reads 0b10000010 and the event register `Sn_IR`
of channel 1 reads 0b10010101. -/
def isrWorld : World Sim :=
  simWorld (memOf [((0, 0x17), 0b10000010), ((5, 0x02), 0b10010101)]) [] [] dev1
    (fun _ => udpBound)

/-- A platform whose chip answers every read with the byte 0x13 and whose
millisecond clock (the state) advances by 1024 at each reading and by `ms` at
each `Delay ms`. -/
def stuckHal : Hal Nat where
  GPIO_WritePin := fun s _ _ _ => s
  SPI_Transmit := fun s _ _ => s
  SPI_Receive := fun s _ len => (List.replicate len 0x13, s)
  Delay := fun s ms => s + ms
  GetTick := fun s => (s, s + 1024)

/-- A world on `stuckHal` at time 0: the device with slot 1 held by the channel
at address 0, of the given type. -/
def stuckWorld (type : Nat) : World Nat :=
  { hw := 0, trace := [], ram := ramWith dev1 (fun _ => boundAt 1 type SOCK_STATUS_CLOSED) }

/-- Two UDP channels, at addresses 1 and 2, bound to slots 1 and 2 of the device
at address 0. -/
def twoWorld : World Sim :=
  simWorld (fun _ _ => 0) [] []
    (devWith 2 0b110 (fun i => if i = 1 then some 1 else if i = 2 then some 2 else none))
    (fun p => if p = 1 then boundAt 1 SOCK_TYPE_UDP SOCK_STATUS_UDP
              else if p = 2 then boundAt 2 SOCK_TYPE_UDP SOCK_STATUS_UDP
              else socket_t_init)

/-- Driver memory before the first `wiznet_init`: empty registry, and at every
device address a device object as `wiznet_t_init` returns it, with reset pin 3
and chip-select pin 4.  The chip reports reset done and link up (`PHYCFGR` =
0x81) and version 4. -/
def freshWorld : World Sim :=
  { hw := { mem := memOf [((0, 0x2E), 0x81), ((0, 0x39), 4)], frame := [], sr := [], ticks := [] },
    trace := [],
    ram := { wiznets_cnt := 0, wiznets := fun _ => none, is_first_wiznet := true,
             need_to_fragment := false,
             wiznet_heap := fun _ => { wiznet_t_init with RST_Pin := 3, CS_Pin := 4 },
             socket_heap := fun _ => socket_t_init } }

/-- Lines 250-252 of `wiznet_deinit`: the statements before the final store
`wiznets[wiznet->_id] = NULL`. -/
def wiznet_deinit_head (hal : Hal σ) (fuel : Nat) (wiznet : Nat) (w : World σ) :
    Except Fault (World σ) :=
  match wiznet_hw_reset hal fuel wiznet w with
  | .error e => .error e
  | .ok w =>
    let w := setWiz w wiznet { w.ram.wiznet_heap wiznet with _id := -1 }
    let w :=
      if w.ram.wiznets_cnt ≠ 0 then setWiznetsCnt ((w.ram.wiznets_cnt + 2 ^ 32 - 1) % 2 ^ 32) w
      else w
    .ok w

/-- Driver memory after the assignment `sock->status = st`. -/
def ramStatus (r : Ram) (sock : Nat) (st : Int) : Ram :=
  { r with socket_heap := upd r.socket_heap sock ({ r.socket_heap sock with status := st }) }

/-- Driver memory after `socket` has bound channel `sock` to slot `i` of device
`wiznet` with status `st` (lines 405-476: identity, device reference, status,
and the three bookkeeping updates of the device). -/
def ramRegistered (r : Ram) (wiznet sock i : Nat) (st : Int) : Ram :=
  { r with
    socket_heap := upd r.socket_heap sock
      ({ r.socket_heap sock with _id := (i : Int), _host_wiznet := some wiznet, status := st }),
    wiznet_heap := upd r.wiznet_heap wiznet
      ({ r.wiznet_heap wiznet with
        _sockets_cnt := ((r.wiznet_heap wiznet)._sockets_cnt + 1) % 256,
        _sockets_taken := ((r.wiznet_heap wiznet)._sockets_taken ||| (1 <<< i)) % 256,
        _sockets := upd (r.wiznet_heap wiznet)._sockets i (some sock) }) }

/-- Driver memory after `socket` has undone a failed opening of channel `sock`
(lines 485-488) with status `st`. -/
def ramUndone (r : Ram) (sock : Nat) (st : Int) : Ram :=
  { r with
    socket_heap := upd r.socket_heap sock
      ({ r.socket_heap sock with _id := -1, _host_wiznet := none, status := st }) }

/-- Driver memory after `sock->_host_wiznet = wiznet` (line 430) and a status
assignment `sock->status = st` by the polls. -/
def ramOpened (r : Ram) (wiznet sock : Nat) (st : Int) : Ram :=
  { r with
    socket_heap := upd r.socket_heap sock
      ({ r.socket_heap sock with _host_wiznet := some wiznet, status := st }) }

/-- Lines 472-501 of `socket`: register the channel when its status is positive,
undo otherwise; then the two debug reads and the return value. -/
def socket_finish (hal : Hal σ) (wiznet sock sock_n_register : Nat) (w : World σ) :
    Except Fault (Int × World σ) := do
  let s := w.ram.socket_heap sock
  let w ←
    if s.status > 0 then
      let z := w.ram.wiznet_heap wiznet
      if 0 ≤ s._id ∧ s._id.toNat < NUM_OF_SOCKETS then
        .ok (setWiz w wiznet { z with
          _sockets_cnt := (z._sockets_cnt + 1) % 256,
          _sockets_taken := (z._sockets_taken ||| (1 <<< s._id.toNat)) % 256,
          _sockets := upd z._sockets s._id.toNat (some sock) })
      else .error Fault.undefined
    else
      .ok (setSock w sock { s with _id := -1, _host_wiznet := none })
  let w := (_read_spi hal wiznet Sn_DIPR sock_n_register 4 w).2
  let w := (_read_spi hal wiznet Sn_DPORT sock_n_register 2 w).2
  return ((w.ram.socket_heap sock).status, w)

/-- Driver memory after the three bookkeeping updates of `sock_deinit` (lines
549-551) for slot `i` of device `wiznet`. -/
def ramReleased (r : Ram) (wiznet i : Nat) : Ram :=
  { r with
    wiznet_heap := upd r.wiznet_heap wiznet
      ({ r.wiznet_heap wiznet with
        _sockets_cnt :=
          if (r.wiznet_heap wiznet)._sockets_cnt ≠ 0 then (r.wiznet_heap wiznet)._sockets_cnt - 1
          else (r.wiznet_heap wiznet)._sockets_cnt,
        _sockets_taken := (r.wiznet_heap wiznet)._sockets_taken &&& (0xFF ^^^ (1 <<< i)),
        _sockets := upd (r.wiznet_heap wiznet)._sockets i none }) }

/-- An empty device and an unbound UDP request; the status register reads
`SOCK_STATUS_UDP` at the first poll and `SOCK_STATUS_CLOSED` at the second. -/
def udpRoundTripWorld : World Sim :=
  simWorld (fun _ _ => 0) [0x22, 0x00] [] (devWith 0 0 (fun _ => none))
    (fun _ => { socket_t_init with type := SOCK_TYPE_UDP })

/-- The invariant that `socket` and `sock_deinit` maintain for the device at
address `wiznet`: the occupancy invariant, and every channel in the table refers
to this device and, when it is a raw-frame channel, sits in slot 0. -/
def DevInv (r : Ram) (wiznet : Nat) : Prop :=
  OccInv r wiznet ∧
  ∀ i, i < 8 → ∀ p, (r.wiznet_heap wiznet)._sockets i = some p →
    (r.socket_heap p)._host_wiznet = some wiznet ∧
    ((r.socket_heap p).type = SOCK_TYPE_MACRAW → i = 0)

/-- The worlds reached from one in which the device at address `wiznet` has the
occupancy fields `wiznet_t_init` gives it, by calls of `socket` for this device
on channels not in its table and calls of `sock_deinit` on channels in its
table, each call having returned. -/
inductive Reach (hal : Hal σ) (wiznet : Nat) : World σ → Prop
  | start (w : World σ) :
      (w.ram.wiznet_heap wiznet)._sockets_cnt = wiznet_t_init._sockets_cnt →
      (w.ram.wiznet_heap wiznet)._sockets_taken = wiznet_t_init._sockets_taken →
      (w.ram.wiznet_heap wiznet)._sockets = wiznet_t_init._sockets →
      Reach hal wiznet w
  | by_socket (fuel sock : Nat) (st : Int) (w w' : World σ) :
      Reach hal wiznet w →
      (∀ i, i < 8 → (w.ram.wiznet_heap wiznet)._sockets i ≠ some sock) →
      socket hal fuel wiznet sock w = .ok (st, w') →
      Reach hal wiznet w'
  | by_sock_deinit (sock : Nat) (w w' : World σ) :
      Reach hal wiznet w →
      (∃ i, i < 8 ∧ (w.ram.wiznet_heap wiznet)._sockets i = some sock) →
      sock_deinit hal sock w = .ok w' →
      Reach hal wiznet w'

/-! # Theorems -/

/-! ## Byte order -/

theorem swap_eq (x : Nat) (h : x < 65536) : SWAP_TWO_BYTES x = x % 256 * 256 + x / 256 := by
  unfold SWAP_TWO_BYTES
  have h1 : x &&& 0x00FF = x % 256 := Nat.and_pow_two_sub_one_eq_mod x 8
  have h2 : (x &&& 0xFF00) >>> 8 = x / 256 := by
    apply Nat.eq_of_testBit_eq
    intro j
    have e : x / 256 = x >>> 8 := by rw [Nat.shiftRight_eq_div_pow]
    rw [e]
    simp only [Nat.testBit_shiftRight, Nat.testBit_and]
    by_cases hj : j < 8
    · have : Nat.testBit 0xFF00 (8 + j) = true := by
        interval_cases j <;> rfl
      simp [this]
    · have : Nat.testBit x (8 + j) = false := by
        apply Nat.testBit_lt_two_pow
        calc x < 2 ^ 16 := h
          _ ≤ 2 ^ (8 + j) := Nat.pow_le_pow_right (by decide) (by omega)
      simp [this]
  rw [h1, h2, Nat.shiftLeft_eq, Nat.lor_comm]
  have h3 : x / 256 < 2 ^ 8 := by omega
  have h4 := Nat.mul_add_lt_is_or h3 (x % 256)
  rw [Nat.mul_comm (x % 256) (2 ^ 8), ← h4]

theorem swap_pair (hi lo : Nat) (h1 : hi < 256) (h2 : lo < 256) :
    SWAP_TWO_BYTES (hi * 256 + lo) = lo * 256 + hi := by
  rw [swap_eq _ (by omega)]
  have a : (hi * 256 + lo) % 256 = lo := by omega
  have b : (hi * 256 + lo) / 256 = hi := by omega
  rw [a, b]

theorem u16_bytes_swap (x : Nat) (h : x < 65536) :
    u16_bytes (SWAP_TWO_BYTES x % 65536) = [x / 256, x % 256] := by
  have hx : x = x / 256 * 256 + x % 256 := by omega
  have hh : x / 256 < 256 := by omega
  have hl : x % 256 < 256 := by omega
  generalize x / 256 = hi at hx hh
  generalize x % 256 = lo at hx hl
  subst hx
  rw [swap_pair hi lo hh hl]
  unfold u16_bytes
  have a : (lo * 256 + hi) % 65536 % 256 = hi := by omega
  have b : (lo * 256 + hi) % 65536 / 256 % 256 = lo := by omega
  rw [a, b]

theorem swap_u16_of_bytes (x : Nat) (h : x < 65536) :
    SWAP_TWO_BYTES (u16_of_bytes [x / 256, x % 256]) % 65536 = x := by
  have hx : x = x / 256 * 256 + x % 256 := by omega
  have hh : x / 256 < 256 := by omega
  have hl : x % 256 < 256 := by omega
  generalize x / 256 = hi at hx hh
  generalize x % 256 = lo at hx hl
  subst hx
  have e : u16_of_bytes [hi, lo] = lo * 256 + hi := by
    simp [u16_of_bytes]; omega
  rw [e, swap_pair lo hi hl hh]
  omega

theorem ctrl_write (bank : Nat) (h : bank < 32) :
    ((bank <<< 3) % 256 ||| (1 <<< RWB)) % 256 = bank * 8 + 4 := by
  interval_cases bank <;> rfl

theorem ctrl_read (bank : Nat) (h : bank < 32) : (bank <<< 3) % 256 = bank * 8 := by
  rw [Nat.shiftLeft_eq]; omega

/-! ## The two transport primitives -/

theorem write_spi_ram (hal : Hal σ) (p addr bank : Nat) (data : List Nat) (len : Nat)
    (w : World σ) : (_write_spi hal p addr bank data len w).ram = w.ram := rfl

theorem read_spi_ram (hal : Hal σ) (p addr bank len : Nat) (w : World σ) :
    (_read_spi hal p addr bank len w).2.ram = w.ram := rfl

theorem write_spi_trace (hal : Hal σ) (p addr bank : Nat) (data : List Nat) (len : Nat)
    (w : World σ) (ha : addr < 65536) (hb : bank < 32) :
    (_write_spi hal p addr bank data len w).trace
      = w.trace ++ writeFrame (w.ram.wiznet_heap p) addr bank (data.take len) := by
  simp only [_write_spi, HAL_GPIO_WritePin, HAL_SPI_Transmit, writeFrame,
    u16_bytes_swap addr ha, ctrl_write bank hb, List.append_assoc, List.singleton_append, List.cons_append, List.nil_append]

theorem read_spi_trace (hal : Hal σ) (p addr bank len : Nat) (w : World σ)
    (ha : addr < 65536) (hb : bank < 32) :
    (_read_spi hal p addr bank len w).2.trace
      = w.trace ++ readFrame (w.ram.wiznet_heap p) addr bank (_read_spi hal p addr bank len w).1 := by
  simp only [_read_spi, HAL_GPIO_WritePin, HAL_SPI_Transmit, HAL_SPI_Receive, readFrame,
    u16_bytes_swap addr ha, ctrl_read bank hb, List.append_assoc, List.singleton_append, List.cons_append, List.nil_append]

theorem read_spi_length (hal : Hal σ) (p addr bank len : Nat) (w : World σ) :
    (_read_spi hal p addr bank len w).1.length = len := by
  simp [_read_spi, HAL_SPI_Receive, rxBytes]

theorem index_lt (tbl : List Nat) (i : Int) (b : Nat) (h : index tbl i = .ok b)
    (ht : ∀ x ∈ tbl, x < 32) : b < 32 := by
  unfold index at h
  split at h
  · rename_i hi
    have e : tbl.getD i.toNat 0 = b := by injection h
    rw [← e, List.getD_eq_getElem _ _ hi.2]
    exact ht _ (List.getElem_mem _)
  · cases h

/-! ## `recv` -/

theorem regs_lt : ∀ x ∈ sock_n_registers, x < 32 := by decide
theorem txbufs_lt : ∀ x ∈ sock_n_tx_buffers, x < 32 := by decide
theorem rxbufs_lt : ∀ x ∈ sock_n_rx_buffers, x < 32 := by decide

theorem blit_zero (buf data : List Nat) : blit buf 0 data = data ++ buf.drop data.length := by
  simp [blit]

theorem afterRxPointers_ram (hal : Hal σ) (host reg : Nat) (w : World σ) :
    (afterRxPointers hal host reg w).ram = w.ram := rfl

theorem afterRxPointers_trace (hal : Hal σ) (host reg r wp : Nat) (w : World σ)
    (hreg : reg < 32) (h : RxPointers hal host reg r wp w) :
    (afterRxPointers hal host reg w).trace = w.trace
      ++ readFrame (w.ram.wiznet_heap host) Sn_RX_RD reg [r / 256, r % 256]
      ++ readFrame (w.ram.wiznet_heap host) Sn_RX_WR reg [wp / 256, wp % 256] := by
  unfold afterRxPointers
  rw [read_spi_trace _ _ _ _ _ _ (by decide) hreg, read_spi_trace _ _ _ _ _ _ (by decide) hreg,
    read_spi_ram]
  unfold RxPointers Reads16 at h
  rw [h.1, h.2]

theorem recv_ack_ram (hal : Hal σ) (host reg e : Nat) (res : Nat × List Nat) (w : World σ) :
    (recv_ack hal host reg e res w).2.ram = w.ram := rfl

theorem recv_ack_trace (hal : Hal σ) (host reg e : Nat) (res : Nat × List Nat) (w : World σ)
    (hreg : reg < 32) (he : e < 65536) :
    (recv_ack hal host reg e res w).2.trace = w.trace
      ++ writeFrame (w.ram.wiznet_heap host) Sn_RX_RD reg [e / 256, e % 256]
      ++ writeFrame (w.ram.wiznet_heap host) Sn_CR reg [SOCK_CMD_RECV] := by
  unfold recv_ack
  simp only
  rw [write_spi_trace _ _ _ _ _ _ _ (by decide) hreg, write_spi_trace _ _ _ _ _ _ _ (by decide) hreg,
    write_spi_ram, u16_bytes_swap e he]
  rfl

/-- C4. `recv`, non-wrap case: when the chip reports RX read pointer `r` and
write pointer `wp` with `r ≤ wp`, and the destination capacity is at least
`wp - r`, `recv` returns `wp - r` and the destination begins with the
`wp - r` bytes the chip returns for a read at offset `r` of the channel's RX
buffer block; when `r < wp` the history continues with that read, one write of
`wp` to `Sn_RX_RD` and one `RECV` command; when `r = wp` the call returns 0 and
makes no further HAL call after the two pointer reads (no write, no command). -/
theorem recv_nonwrap (hal : Hal σ) (w : World σ) (sock host reg rxb r wp : Nat)
    (buf : List Nat) (buf_size : Nat)
    (hreg : index sock_n_registers (w.ram.socket_heap sock)._id = .ok reg)
    (hrxb : index sock_n_rx_buffers (w.ram.socket_heap sock)._id = .ok rxb)
    (hhost : (w.ram.socket_heap sock)._host_wiznet = some host)
    (hr : r ≤ wp) (hwp : wp < 65536) (hcap : wp - r ≤ buf_size)
    (hptr : RxPointers hal host reg r wp w) :
    ∃ w' : World σ,
      recv hal sock buf buf_size w
        = .ok ((wp - r,
                rxBuffer hal host rxb r (wp - r) (afterRxPointers hal host reg w)
                  ++ buf.drop (wp - r)), w')
      ∧ (rxBuffer hal host rxb r (wp - r) (afterRxPointers hal host reg w)).length = wp - r
      ∧ w'.ram = w.ram
      ∧ w'.trace = w.trace
          ++ readFrame (w.ram.wiznet_heap host) Sn_RX_RD reg [r / 256, r % 256]
          ++ readFrame (w.ram.wiznet_heap host) Sn_RX_WR reg [wp / 256, wp % 256]
          ++ (if r < wp then
                readFrame (w.ram.wiznet_heap host) r rxb
                  (rxBuffer hal host rxb r (wp - r) (afterRxPointers hal host reg w))
                ++ writeFrame (w.ram.wiznet_heap host) Sn_RX_RD reg [wp / 256, wp % 256]
                ++ writeFrame (w.ram.wiznet_heap host) Sn_CR reg [SOCK_CMD_RECV]
              else []) := by
  have hreg32 := index_lt _ _ _ hreg regs_lt
  have hrxb32 := index_lt _ _ _ hrxb rxbufs_lt
  have hr16 : r < 65536 := by omega
  have htr := afterRxPointers_trace hal host reg r wp w hreg32 hptr
  obtain ⟨hrd, hwr⟩ := hptr
  unfold Reads16 at hrd hwr
  have e1 := swap_u16_of_bytes r hr16
  have e2 := swap_u16_of_bytes wp hwp
  unfold recv
  simp only [hreg, hrxb, hhost, deref, bind, Except.bind, hrd, hwr, e1, e2, pure, Except.pure]
  by_cases heq : wp = r
  · subst heq
    refine ⟨afterRxPointers hal host reg w, ?_, read_spi_length _ _ _ _ _ _, rfl, ?_⟩
    · simp [rxBuffer, afterRxPointers, read_spi_length, List.length_eq_zero.mp]
    · simp [htr]
  · have hlt : r < wp := by omega
    have hmod : (wp - r) % 65536 = wp - r := by omega
    simp only [heq, if_false, if_neg (Nat.not_lt.mpr hr), hmod, gt_iff_lt, if_neg (Nat.not_lt.mpr hcap), hlt, if_true]
    refine ⟨(recv_ack hal host reg wp (wp - r, blit buf 0
        (rxBuffer hal host rxb r (wp - r) (afterRxPointers hal host reg w)))
        (_read_spi hal host r rxb (wp - r) (afterRxPointers hal host reg w)).2).2, ?_,
        read_spi_length _ _ _ _ _ _, rfl, ?_⟩
    · rw [blit_zero]
      simp only [rxBuffer, read_spi_length]
      rfl
    · rw [recv_ack_trace _ _ _ _ _ _ hreg32 hwp, read_spi_trace _ _ _ _ _ _ hr16 hrxb32, htr]
      simp only [read_spi_ram, afterRxPointers_ram, rxBuffer, List.append_assoc]

theorem blit_blit (buf a b : List Nat) :
    blit (blit buf 0 a) a.length b = a ++ b ++ buf.drop (a.length + b.length) := by
  simp only [blit, List.take_zero, List.nil_append, Nat.zero_add]
  rw [List.take_left', List.drop_append, List.drop_drop]
  have : a.length + b.length - a.length = b.length := by omega
  simp [this, Nat.add_comm]

/-- What `recv` does in the wrap case (`wp < r`) when the destination is large
enough for the length it computes: it returns `(0xFFFF - r) + wp`, after a read
of `0xFFFF - r` bytes at offset `r` and a read of `wp` bytes at offset 0 of the
RX buffer block (offset 0xFFFF is not read), and then writes `wp` to `Sn_RX_RD`
and issues `RECV`. -/
theorem recv_wrap_run (hal : Hal σ) (w : World σ) (sock host reg rxb r wp : Nat)
    (buf : List Nat) (buf_size : Nat)
    (hreg : index sock_n_registers (w.ram.socket_heap sock)._id = .ok reg)
    (hrxb : index sock_n_rx_buffers (w.ram.socket_heap sock)._id = .ok rxb)
    (hhost : (w.ram.socket_heap sock)._host_wiznet = some host)
    (hlt : wp < r) (hr : r < 65536) (hcap : (0xFFFF - r) + wp ≤ buf_size)
    (hptr : RxPointers hal host reg r wp w) :
    ∃ w' : World σ,
      recv hal sock buf buf_size w
        = .ok (((0xFFFF - r) + wp,
                rxBuffer hal host rxb r (0xFFFF - r) (afterRxPointers hal host reg w)
                  ++ rxBuffer hal host rxb 0 wp
                       (_read_spi hal host r rxb (0xFFFF - r) (afterRxPointers hal host reg w)).2
                  ++ buf.drop ((0xFFFF - r) + wp)), w')
      ∧ w'.ram = w.ram
      ∧ w'.trace = w.trace
          ++ readFrame (w.ram.wiznet_heap host) Sn_RX_RD reg [r / 256, r % 256]
          ++ readFrame (w.ram.wiznet_heap host) Sn_RX_WR reg [wp / 256, wp % 256]
          ++ readFrame (w.ram.wiznet_heap host) r rxb
               (rxBuffer hal host rxb r (0xFFFF - r) (afterRxPointers hal host reg w))
          ++ readFrame (w.ram.wiznet_heap host) 0 rxb
               (rxBuffer hal host rxb 0 wp
                 (_read_spi hal host r rxb (0xFFFF - r) (afterRxPointers hal host reg w)).2)
          ++ writeFrame (w.ram.wiznet_heap host) Sn_RX_RD reg [wp / 256, wp % 256]
          ++ writeFrame (w.ram.wiznet_heap host) Sn_CR reg [SOCK_CMD_RECV] := by
  have hreg32 := index_lt _ _ _ hreg regs_lt
  have hrxb32 := index_lt _ _ _ hrxb rxbufs_lt
  have hwp : wp < 65536 := by omega
  have htr := afterRxPointers_trace hal host reg r wp w hreg32 hptr
  obtain ⟨hrd, hwr⟩ := hptr
  unfold Reads16 at hrd hwr
  have e1 := swap_u16_of_bytes r hr
  have e2 := swap_u16_of_bytes wp hwp
  have hne : ¬ wp = r := by omega
  have hmod : (0xFFFF - r + wp) % 65536 = 0xFFFF - r + wp := by omega
  unfold recv
  simp only [hreg, hrxb, hhost, deref, bind, Except.bind, hrd, hwr, e1, e2, pure, Except.pure,
    Nat.sub_zero, gt_iff_lt, hne, if_false, hlt, if_true, hmod, if_neg (Nat.not_lt.mpr hcap)]
  refine ⟨(recv_ack hal host reg wp (0xFFFF - r + wp, blit (blit buf 0
      (rxBuffer hal host rxb r (0xFFFF - r) (afterRxPointers hal host reg w))) (0xFFFF - r)
      (rxBuffer hal host rxb 0 wp
        (_read_spi hal host r rxb (0xFFFF - r) (afterRxPointers hal host reg w)).2))
      (_read_spi hal host 0 rxb wp
        (_read_spi hal host r rxb (0xFFFF - r) (afterRxPointers hal host reg w)).2).2).2,
    ?_, rfl, ?_⟩
  · have hl : (rxBuffer hal host rxb r (0xFFFF - r) (afterRxPointers hal host reg w)).length
        = 0xFFFF - r := read_spi_length _ _ _ _ _ _
    have hl2 : (rxBuffer hal host rxb 0 wp
        (_read_spi hal host r rxb (0xFFFF - r) (afterRxPointers hal host reg w)).2).length = wp :=
      read_spi_length _ _ _ _ _ _
    have := blit_blit buf (rxBuffer hal host rxb r (0xFFFF - r) (afterRxPointers hal host reg w))
      (rxBuffer hal host rxb 0 wp
        (_read_spi hal host r rxb (0xFFFF - r) (afterRxPointers hal host reg w)).2)
    rw [hl, hl2] at this
    rw [← this]
    rfl
  · rw [recv_ack_trace _ _ _ _ _ _ hreg32 hwp, read_spi_trace _ _ _ _ _ _ (by decide) hrxb32,
      read_spi_trace _ _ _ _ _ _ hr hrxb32, htr]
    simp only [read_spi_ram, afterRxPointers_ram, rxBuffer, List.append_assoc]

/-- What `recv` does when the length it computes exceeds the destination
capacity: it returns 0 and makes no HAL call after the two pointer reads. -/
theorem recv_insufficient_run (hal : Hal σ) (w : World σ) (sock host reg rxb r wp : Nat)
    (buf : List Nat) (buf_size : Nat)
    (hreg : index sock_n_registers (w.ram.socket_heap sock)._id = .ok reg)
    (hrxb : index sock_n_rx_buffers (w.ram.socket_heap sock)._id = .ok rxb)
    (hhost : (w.ram.socket_heap sock)._host_wiznet = some host)
    (hr : r < 65536) (hwp : wp < 65536)
    (hcap : buf_size < (if wp < r then (0xFFFF - r) + wp else wp - r))
    (hptr : RxPointers hal host reg r wp w) :
    recv hal sock buf buf_size w = .ok ((0, buf), afterRxPointers hal host reg w) := by
  obtain ⟨hrd, hwr⟩ := hptr
  unfold Reads16 at hrd hwr
  have e1 := swap_u16_of_bytes r hr
  have e2 := swap_u16_of_bytes wp hwp
  unfold recv
  simp only [hreg, hrxb, hhost, deref, bind, Except.bind, hrd, hwr, e1, e2, pure, Except.pure,
    Nat.sub_zero, gt_iff_lt]
  by_cases hlt : wp < r
  · rw [if_pos hlt] at hcap
    have hmod : (0xFFFF - r + wp) % 65536 = 0xFFFF - r + wp := by omega
    have hne : ¬ wp = r := by omega
    simp only [hne, if_false, hlt, if_true, hmod, hcap]
    rfl
  · rw [if_neg hlt] at hcap
    have hmod : (wp - r) % 65536 = wp - r := by omega
    have hne : ¬ wp = r := by omega
    simp only [hne, if_false, hlt, hmod, hcap, if_true]
    rfl

/-! ## `sendto` -/

theorem rxBytes_two (hal : Hal σ) (hspi : Nat) (s : σ) :
    rxBytes hal hspi 2 s
      = [(hal.SPI_Receive s hspi 2).1.getD 0 0 % 256, (hal.SPI_Receive s hspi 2).1.getD 1 0 % 256] :=
  rfl

theorem read16_decode (hal : Hal σ) (host addr bank : Nat) (w : World σ) :
    ∃ p, p < 65536 ∧ (_read_spi hal host addr bank 2 w).1 = [p / 256, p % 256] := by
  simp only [_read_spi, HAL_SPI_Receive, rxBytes_two]
  generalize (hal.SPI_Receive _ _ 2).1 = l
  have ha : l.getD 0 0 % 256 < 256 := Nat.mod_lt _ (by decide)
  have hb : l.getD 1 0 % 256 < 256 := Nat.mod_lt _ (by decide)
  generalize l.getD 0 0 % 256 = a at ha
  generalize l.getD 1 0 % 256 = b at hb
  refine ⟨a * 256 + b, by omega, ?_⟩
  congr 1
  · omega
  · congr 1; omega

theorem sendCmd_ok (t : Nat)
    (ht : t = SOCK_TYPE_TCP ∨ t = SOCK_TYPE_UDP ∨ t = SOCK_TYPE_MACRAW) :
    sendto_flush_cmd t = .ok (sendCmd t) := by
  rcases ht with h | h | h <;> subst h <;> rfl

theorem setFrag_trace (b : Bool) (w : World σ) : (setFrag b w).trace = w.trace := rfl

theorem setFrag_wiznet_heap (b : Bool) (w : World σ) :
    (setFrag b w).ram.wiznet_heap = w.ram.wiznet_heap := rfl

theorem setFrag_socket_heap (b : Bool) (w : World σ) :
    (setFrag b w).ram.socket_heap = w.ram.socket_heap := rfl

theorem sendto_pass_spec (hal : Hal σ) (sock host reg txb f len : Nat) (data : List Nat)
    (w : World σ)
    (hreg : index sock_n_registers (w.ram.socket_heap sock)._id = .ok reg)
    (htxb : index sock_n_tx_buffers (w.ram.socket_heap sock)._id = .ok txb)
    (hhost : (w.ram.socket_heap sock)._host_wiznet = some host)
    (htype : (w.ram.socket_heap sock).type = SOCK_TYPE_TCP ∨
             (w.ram.socket_heap sock).type = SOCK_TYPE_UDP ∨
             (w.ram.socket_heap sock).type = SOCK_TYPE_MACRAW)
    (hf : f < 65536) (hlen : len ≤ data.length)
    (hfsr : Reads16 hal host Sn_TX_FSR reg f w) :
    ∃ (w' : World σ) (p : Nat),
      sendto_pass hal sock data len w = .ok (w', data.drop f, (len - f) % 65536)
      ∧ p < 65536
      ∧ Reads16 hal host Sn_TX_RD reg p
          (setFrag (decide (f < len)) (_read_spi hal host Sn_TX_FSR reg 2 w).2)
      ∧ w'.ram = (setFrag (decide (f < len)) w).ram
      ∧ w'.trace = w.trace
          ++ sendRound (w.ram.wiznet_heap host) reg txb (sendCmd (w.ram.socket_heap sock).type) f p
               (data.take (if f < len then f else len)) := by
  have hreg32 := index_lt _ _ _ hreg regs_lt
  have htxb32 := index_lt _ _ _ htxb txbufs_lt
  unfold Reads16 at hfsr
  obtain ⟨p, hp, ep⟩ := read16_decode hal host Sn_TX_RD reg
    (setFrag (decide (f < len)) (_read_spi hal host Sn_TX_FSR reg 2 w).2)
  have e1 := swap_u16_of_bytes f hf
  have e2 := swap_u16_of_bytes p hp
  unfold sendto_pass
  simp only [hreg, htxb, hhost, deref, bind, Except.bind, hfsr, e1, ep, e2, sendCmd_ok _ htype,
    pure, Except.pure]
  refine ⟨_, p, rfl, hp, ep, rfl, ?_⟩
  rw [write_spi_trace _ _ _ _ _ _ _ (by decide) hreg32,
    write_spi_trace _ _ _ _ _ _ _ (by decide) hreg32,
    write_spi_trace _ _ _ _ _ _ _ hp htxb32,
    read_spi_trace _ _ _ _ _ _ (by decide) hreg32]
  have hl : (List.take (if f < len then f else len) data).length = if f < len then f else len := by
    rw [List.length_take]; split <;> omega
  have hw16 : ((if f < len then f else len) + p) % 65536 < 65536 := Nat.mod_lt _ (by decide)
  simp only [setFrag_trace, setFrag_wiznet_heap, read_spi_ram, write_spi_ram, ep,
    u16_bytes_swap _ hw16, sendRound, hl, List.append_assoc,
    read_spi_trace _ _ _ _ _ _ (show Sn_TX_FSR < 65536 by decide) hreg32, hfsr]
  rfl

theorem sendto_rounds (hal : Hal σ) (sock host reg txb f : Nat) (s : socket_t) (z : wiznet_t)
    (hreg : index sock_n_registers s._id = .ok reg)
    (htxb : index sock_n_tx_buffers s._id = .ok txb)
    (hhost : s._host_wiznet = some host)
    (htype : s.type = SOCK_TYPE_TCP ∨ s.type = SOCK_TYPE_UDP ∨ s.type = SOCK_TYPE_MACRAW)
    (hf : f < 65536)
    (hfsr : ∀ w : World σ, Reads16 hal host Sn_TX_FSR reg f w) :
    ∀ (n fuel : Nat) (data : List Nat) (w : World σ),
      n ≤ fuel → 0 < data.length → data.length < 65536 →
      n * f < data.length + f → data.length ≤ n * f →
      w.ram.socket_heap sock = s → w.ram.wiznet_heap host = z →
      ∃ (w' : World σ) (cs : List (List Nat)) (ps : List Nat),
        sendto hal fuel sock data data.length w = .ok w'
        ∧ w'.ram.socket_heap = w.ram.socket_heap
        ∧ w'.ram.wiznet_heap = w.ram.wiznet_heap
        ∧ w'.trace = w.trace ++ sendRounds z reg txb (sendCmd s.type) f cs ps
        ∧ cs.flatten = data
        ∧ cs.map List.length = List.replicate (n - 1) f ++ [data.length - (n - 1) * f]
        ∧ ps.length = n
        ∧ ∀ p ∈ ps, p < 65536 := by
  intro n
  induction n with
  | zero => intro fuel data w _ h0 _ _ h1; omega
  | succ n ih =>
    intro fuel data w hfuel hpos hlen hlo hhi hs hz
    obtain ⟨fuel, rfl⟩ : ∃ k, fuel = k + 1 := ⟨fuel - 1, by omega⟩
    obtain ⟨w1, p, hpass, hp, -, hram, htr⟩ :=
      sendto_pass_spec hal sock host reg txb f data.length data w
        (by rw [hs]; exact hreg) (by rw [hs]; exact htxb) (by rw [hs]; exact hhost)
        (by rw [hs]; exact htype) hf (Nat.le_refl _) (hfsr w)
    rw [hs, hz] at htr
    have hmul : (n + 1) * f = n * f + f := Nat.succ_mul n f
    rw [sendto, hpass]
    simp only [hram]
    by_cases hlt : f < data.length
    · have hflag : (setFrag (decide (f < data.length)) w).ram.need_to_fragment = true := by
        simp [setFrag, hlt]
      rw [if_pos hflag]
      have hmod : (data.length - f) % 65536 = (data.drop f).length := by
        rw [List.length_drop]; omega
      have hdl : (data.drop f).length = data.length - f := List.length_drop _ _
      obtain ⟨m, rfl⟩ : ∃ m, n = m + 1 := by
        refine ⟨n - 1, ?_⟩
        cases n with
        | zero => omega
        | succ k => rfl
      have hmul2 : (m + 1) * f = m * f + f := Nat.succ_mul m f
      obtain ⟨w2, cs, ps, hrun, hsh, hwh, htr2, hfl, hml, hpl, hpb⟩ :=
        ih fuel (data.drop f) w1 (by omega) (by omega) (by omega) (by omega) (by omega)
          (by rw [hram]; exact hs) (by rw [hram]; exact hz)
      rw [hmod, hrun]
      refine ⟨w2, data.take f :: cs, p :: ps, rfl, ?_, ?_, ?_, ?_, ?_, ?_, ?_⟩
      · rw [hsh, hram]; rfl
      · rw [hwh, hram]; rfl
      · rw [htr2, htr, if_pos hlt]
        simp only [sendRounds, List.append_assoc]
      · simp [hfl]
      · simp only [List.map_cons, hml, List.length_take, Nat.add_sub_cancel, hdl]
        rw [Nat.min_eq_left (Nat.le_of_lt hlt)]
        simp only [List.replicate_succ, List.cons_append]
        congr 2
        rw [hmul2]
        congr 1
        omega
      · simp [hpl]
      · intro q hq
        rcases List.mem_cons.mp hq with h | h
        · rw [h]; exact hp
        · exact hpb q h
    · have hflag : ¬ (setFrag (decide (f < data.length)) w).ram.need_to_fragment = true := by
        simp [setFrag, hlt]
      rw [if_neg hflag]
      have hn : n = 0 := by
        cases n with
        | zero => rfl
        | succ k =>
          have : (k + 1) * f = k * f + f := Nat.succ_mul k f
          omega
      subst hn
      refine ⟨w1, [data], [p], rfl, ?_, ?_, ?_, ?_, ?_, rfl, ?_⟩
      · rw [hram]; rfl
      · rw [hram]; rfl
      · rw [htr, if_neg hlt, List.take_length]
        simp only [sendRounds, List.append_nil]
      · simp
      · simp
      · intro q hq
        rw [List.mem_singleton.mp hq]; exact hp

theorem ceil_bounds (L f : Nat) (hL : 0 < L) (hf : 0 < f) :
    (L + f - 1) / f * f < L + f ∧ L ≤ (L + f - 1) / f * f := by
  have h1 := Nat.div_add_mod (L + f - 1) f
  have h2 := Nat.mod_lt (L + f - 1) hf
  rw [Nat.mul_comm] at h1
  constructor <;> omega

theorem lastEnd_linked : ∀ (cs : List (List Nat)) (ps : List Nat),
    cs ≠ [] → ps.length = cs.length → Linked cs ps →
    lastEnd cs ps = (ps.headD 0 + cs.flatten.length) % 65536 := by
  intro cs
  induction cs with
  | nil => intro ps h; exact absurd rfl h
  | cons c cs ih =>
    intro ps _ hlen hlink
    cases cs with
    | nil =>
      match ps, hlen with
      | [p], _ => simp [lastEnd, Nat.add_comm]
    | cons c' cs' =>
      match ps, hlen, hlink with
      | p :: q :: ps', hlen, hlink =>
        obtain ⟨hq, hl⟩ := hlink
        have := ih (q :: ps') (by simp) (by simpa using hlen) hl
        simp only [List.headD_cons, List.flatten_cons, List.length_append] at this ⊢
        rw [lastEnd, this, hq]
        omega

theorem starts_linked : ∀ (cs : List (List Nat)) (ps : List Nat),
    ps.length = cs.length → (∀ p ∈ ps, p < 65536) → Linked cs ps →
    ∀ k, k < cs.length →
      ps.getD k 0 = (ps.headD 0 + ((cs.take k).flatten).length) % 65536 := by
  intro cs
  induction cs with
  | nil => intro ps _ _ _ k hk; simp at hk
  | cons c cs ih =>
    intro ps hlen hb hlink k hk
    match ps, hlen, hb, hlink with
    | [p], hlen, hb, _ =>
      have hk0 : k = 0 := by
        simp only [List.length_cons, List.length_singleton, List.length_nil] at hlen hk
        omega
      subst hk0
      have := hb p (List.mem_singleton_self p)
      simp only [List.getD_cons_zero, List.headD_cons, List.take_zero, List.flatten_nil,
        List.length_nil, Nat.add_zero]
      omega
    | p :: q :: ps', hlen, hb, hlink =>
      cases k with
      | zero =>
        have := hb p (List.mem_cons_self _ _)
        simp only [List.getD_cons_zero, List.headD_cons, List.take_zero, List.flatten_nil,
          List.length_nil, Nat.add_zero]
        omega
      | succ k =>
        cases cs with
        | nil => simp at hlen
        | cons c' cs' =>
          obtain ⟨hq, hl⟩ := hlink
          have := ih (q :: ps') (by simpa using hlen)
            (fun x hx => hb x (List.mem_cons_of_mem _ hx)) hl k
            (by simp only [List.length_cons] at hk ⊢; omega)
          simp only [List.getD_cons_succ, List.headD_cons, List.take_succ_cons, List.flatten_cons,
            List.length_append] at this ⊢
          rw [this, hq]
          omega

/-- C2. `sendto` fragmentation: when every read of the TX free-size register
reports `f` (with `1 ≤ f`) and the payload `data` is longer than `f`, `sendto`
returns after exactly `ceil(L/f)` passes (`L = data.length`); pass `k` reads the
free size and the start pointer, writes chunk `k` to the TX buffer block, writes
the end pointer and issues one SEND command (`SEND_MAC` for a raw-frame
channel); the chunks have lengths `f, .., f` and a final remainder, and their
concatenation, in order, is the payload. -/
theorem sendto_fragmentation (hal : Hal σ) (w : World σ) (sock host reg txb f fuel : Nat)
    (data : List Nat)
    (hreg : index sock_n_registers (w.ram.socket_heap sock)._id = .ok reg)
    (htxb : index sock_n_tx_buffers (w.ram.socket_heap sock)._id = .ok txb)
    (hhost : (w.ram.socket_heap sock)._host_wiznet = some host)
    (htype : (w.ram.socket_heap sock).type = SOCK_TYPE_TCP ∨
             (w.ram.socket_heap sock).type = SOCK_TYPE_UDP ∨
             (w.ram.socket_heap sock).type = SOCK_TYPE_MACRAW)
    (hf1 : 1 ≤ f) (hfL : f < data.length) (hL : data.length < 65536)
    (hfsr : ∀ w' : World σ, Reads16 hal host Sn_TX_FSR reg f w')
    (hfuel : (data.length + f - 1) / f ≤ fuel) :
    ∃ (w' : World σ) (cs : List (List Nat)) (ps : List Nat),
      sendto hal fuel sock data data.length w = .ok w'
      ∧ w'.trace = w.trace
          ++ sendRounds (w.ram.wiznet_heap host) reg txb
               (sendCmd (w.ram.socket_heap sock).type) f cs ps
      ∧ cs.length = (data.length + f - 1) / f
      ∧ ps.length = cs.length
      ∧ cs.map List.length
          = List.replicate ((data.length + f - 1) / f - 1) f
              ++ [data.length - ((data.length + f - 1) / f - 1) * f]
      ∧ cs.flatten = data := by
  obtain ⟨hb1, hb2⟩ := ceil_bounds data.length f (by omega) (by omega)
  obtain ⟨w', cs, ps, hrun, -, -, htr, hfl, hml, hpl, -⟩ :=
    sendto_rounds hal sock host reg txb f (w.ram.socket_heap sock) (w.ram.wiznet_heap host)
      hreg htxb hhost htype (by omega) hfsr ((data.length + f - 1) / f) fuel data w
      hfuel (by omega) hL hb1 hb2 rfl rfl
  have hcl : cs.length = (data.length + f - 1) / f := by
    have := congrArg List.length hml
    simp only [List.length_map, List.length_append, List.length_replicate,
      List.length_singleton] at this
    have hn : 1 ≤ (data.length + f - 1) / f := by
      rcases Nat.eq_zero_or_pos ((data.length + f - 1) / f) with h | h
      · rw [h] at hb2; omega
      · exact h
    omega
  exact ⟨w', cs, ps, hrun, htr, hcl, by rw [hpl, hcl], hml, hfl⟩

/-- C3 (amended). `sendto` pointer handling, with the free size reading `f`
throughout: in each pass the chunk's start offset `p` is the value read from the
register `Sn_TX_RD` (0x0022), the chunk is written at offset `p` of the
channel's TX buffer block, and `(length + p) mod 2^16` is written to `Sn_TX_WR`
(this is the shape of `sendRound`).  Consequently, if every start pointer after
the first reads back the end pointer written in the pass before (`Linked`), then
chunk `k` starts at the first start offset plus the length of the chunks before
it, and the last value written to `Sn_TX_WR` is the first start offset plus the
payload length, both modulo 2^16. -/
theorem sendto_pointer_handling (hal : Hal σ) (w : World σ) (sock host reg txb f fuel : Nat)
    (data : List Nat)
    (hreg : index sock_n_registers (w.ram.socket_heap sock)._id = .ok reg)
    (htxb : index sock_n_tx_buffers (w.ram.socket_heap sock)._id = .ok txb)
    (hhost : (w.ram.socket_heap sock)._host_wiznet = some host)
    (htype : (w.ram.socket_heap sock).type = SOCK_TYPE_TCP ∨
             (w.ram.socket_heap sock).type = SOCK_TYPE_UDP ∨
             (w.ram.socket_heap sock).type = SOCK_TYPE_MACRAW)
    (hf1 : 1 ≤ f) (hf16 : f < 65536) (hL0 : 0 < data.length) (hL : data.length < 65536)
    (hfsr : ∀ w' : World σ, Reads16 hal host Sn_TX_FSR reg f w')
    (hfuel : (data.length + f - 1) / f ≤ fuel) :
    ∃ (w' : World σ) (cs : List (List Nat)) (ps : List Nat),
      sendto hal fuel sock data data.length w = .ok w'
      ∧ w'.trace = w.trace
          ++ sendRounds (w.ram.wiznet_heap host) reg txb
               (sendCmd (w.ram.socket_heap sock).type) f cs ps
      ∧ cs.flatten = data
      ∧ ps.length = cs.length
      ∧ (Linked cs ps →
          (∀ k, k < cs.length →
            ps.getD k 0 = (ps.headD 0 + ((cs.take k).flatten).length) % 65536)
          ∧ lastEnd cs ps = (ps.headD 0 + data.length) % 65536) := by
  obtain ⟨hb1, hb2⟩ := ceil_bounds data.length f hL0 (by omega)
  obtain ⟨w', cs, ps, hrun, -, -, htr, hfl, hml, hpl, hpb⟩ :=
    sendto_rounds hal sock host reg txb f (w.ram.socket_heap sock) (w.ram.wiznet_heap host)
      hreg htxb hhost htype hf16 hfsr ((data.length + f - 1) / f) fuel data w
      hfuel hL0 hL hb1 hb2 rfl rfl
  have hcl : ps.length = cs.length := by
    have := congrArg List.length hml
    simp only [List.length_map, List.length_append, List.length_replicate,
      List.length_singleton] at this
    have hn : 1 ≤ (data.length + f - 1) / f := by
      rcases Nat.eq_zero_or_pos ((data.length + f - 1) / f) with h | h
      · rw [h] at hb2; omega
      · exact h
    omega
  have hne : cs ≠ [] := by
    intro h
    rw [h] at hfl
    simp only [List.flatten_nil] at hfl
    rw [← hfl] at hL0
    simp at hL0
  refine ⟨w', cs, ps, hrun, htr, hfl, hcl, fun hlink => ⟨?_, ?_⟩⟩
  · exact starts_linked cs ps hcl hpb hlink
  · rw [lastEnd_linked cs ps hne hcl hlink, hfl]

/-! ## Slot assignment -/

theorem bit_free_iff (t i : Nat) : (1 <<< i) &&& t = 0 ↔ t.testBit i = false := by
  rw [Nat.one_shiftLeft]
  constructor
  · intro h
    have := congrArg (fun x => Nat.testBit x i) h
    simpa [Nat.testBit_and, Nat.testBit_two_pow_self] using this
  · intro h
    apply Nat.eq_of_testBit_eq
    intro j
    rw [Nat.testBit_and, Nat.testBit_two_pow, Nat.zero_testBit]
    by_cases e : i = j
    · subst e; simp [h]
    · simp [e]

theorem find_range' (p : Nat → Bool) (n : Nat) : ∀ a : Nat,
    match (List.range' a n).find? p with
    | some i => a ≤ i ∧ i < a + n ∧ p i = true ∧ ∀ j, a ≤ j → j < i → p j = false
    | none => ∀ j, a ≤ j → j < a + n → p j = false := by
  induction n with
  | zero => intro a; simp [List.range']; intro j h1 h2; omega
  | succ n ih =>
    intro a
    rw [List.range'_succ, List.find?_cons]
    cases hp : p a with
    | true =>
      simp only
      exact ⟨Nat.le_refl _, by omega, hp, fun j h1 h2 => by omega⟩
    | false =>
      simp only
      have := ih (a + 1)
      split at this
      · rename_i i hi
        rw [hi]
        obtain ⟨h1, h2, h3, h4⟩ := this
        refine ⟨by omega, by omega, h3, fun j hj1 hj2 => ?_⟩
        by_cases e : j = a
        · rw [e]; exact hp
        · exact h4 j (by omega) hj2
      · rename_i hi
        rw [hi]
        intro j hj1 hj2
        by_cases e : j = a
        · rw [e]; exact hp
        · exact this j (by omega) (by omega)

theorem byte_all_upper_set (t : Nat) (ht : t < 256)
    (h : ∀ j, 1 ≤ j → j < 8 → t.testBit j = true) : t = 0xFE ∨ t = 0xFF := by
  cases h0 : t.testBit 0 with
  | false =>
    left
    apply Nat.eq_of_testBit_eq
    intro j
    by_cases hj : j < 8
    · by_cases hj0 : j = 0
      · subst hj0; rw [h0]; rfl
      · rw [h j (by omega) hj]
        interval_cases j <;> first | rfl | exact absurd rfl hj0
    · rw [Nat.testBit_lt_two_pow (lt_of_lt_of_le ht (Nat.pow_le_pow_right (by decide : 2 > 0) (by omega : 8 ≤ j))),
        Nat.testBit_lt_two_pow (lt_of_lt_of_le (by decide : 0xFE < 2 ^ 8)
          (Nat.pow_le_pow_right (by decide : 2 > 0) (by omega : 8 ≤ j)))]
  | true =>
    right
    apply Nat.eq_of_testBit_eq
    intro j
    by_cases hj : j < 8
    · by_cases hj0 : j = 0
      · subst hj0; rw [h0]; rfl
      · rw [h j (by omega) hj]
        interval_cases j <;> rfl
    · rw [Nat.testBit_lt_two_pow (lt_of_lt_of_le ht (Nat.pow_le_pow_right (by decide : 2 > 0) (by omega : 8 ≤ j))),
        Nat.testBit_lt_two_pow (lt_of_lt_of_le (by decide : 0xFF < 2 ^ 8)
          (Nat.pow_le_pow_right (by decide : 2 > 0) (by omega : 8 ≤ j)))]

theorem popcount8_full : popcount8 0xFF = 8 := by decide

/-- C6. Slot assignment in `socket`: on a device that satisfies the occupancy
invariant and has fewer than 8 occupied channels, a request that is not
raw-frame, or a raw-frame request with slot 0 free, is given an identity `i` in
0..7 whose slot was free before the call (bit clear, table entry null), and
`socket` continues with
`sock->_id = i`; a raw-frame request gets 0; any other request gets the lowest
free slot among 1..7, or 0 when slots 1..7 are all occupied. -/
theorem socket_slot_assignment (hal : Hal σ) (fuel : Nat) (w : World σ) (wiznet sock : Nat)
    (hinv : OccInv w.ram wiznet)
    (hcnt : (w.ram.wiznet_heap wiznet)._sockets_cnt < 8)
    (hreq : (w.ram.socket_heap sock).type ≠ SOCK_TYPE_MACRAW ∨
            (w.ram.wiznet_heap wiznet)._sockets_taken.testBit 0 = false) :
    ∃ i : Nat,
      socket_assign_id (w.ram.wiznet_heap wiznet) (w.ram.socket_heap sock) = some (i : Int)
      ∧ i < 8
      ∧ (w.ram.wiznet_heap wiznet)._sockets_taken.testBit i = false
      ∧ (w.ram.wiznet_heap wiznet)._sockets i = none
      ∧ socket hal fuel wiznet sock w
          = socket_setup hal fuel wiznet sock
              (setSock w sock { w.ram.socket_heap sock with _id := (i : Int) })
      ∧ ((w.ram.socket_heap sock).type = SOCK_TYPE_MACRAW → i = 0)
      ∧ ((w.ram.socket_heap sock).type ≠ SOCK_TYPE_MACRAW →
          (∀ j, 1 ≤ j → j < 8 → (w.ram.wiznet_heap wiznet)._sockets_taken.testBit j = true) →
          i = 0)
      ∧ ((w.ram.socket_heap sock).type ≠ SOCK_TYPE_MACRAW →
          (∃ j, 1 ≤ j ∧ j < 8 ∧ (w.ram.wiznet_heap wiznet)._sockets_taken.testBit j = false) →
          1 ≤ i ∧ ∀ j, 1 ≤ j → j < i →
            (w.ram.wiznet_heap wiznet)._sockets_taken.testBit j = true) := by
  obtain ⟨ht, hpop, htbl⟩ := hinv
  have hnull : ∀ i, i < 8 → (w.ram.wiznet_heap wiznet)._sockets_taken.testBit i = false →
      (w.ram.wiznet_heap wiznet)._sockets i = none := by
    intro i hi hb
    by_contra hne
    have := ((htbl i hi).1).mpr hne
    rw [hb] at this
    cases this
  clear htbl
  generalize hz : w.ram.wiznet_heap wiznet = z at *
  generalize hs : w.ram.socket_heap sock = s at *
  have hsock : ∀ i : Nat, socket_assign_id z s = some (i : Int) →
      socket hal fuel wiznet sock w
        = socket_setup hal fuel wiznet sock (setSock w sock { s with _id := (i : Int) }) := by
    intro i hi
    unfold socket
    simp only [hz, hs, hi, ge_iff_le, NUM_OF_SOCKETS, if_neg (Nat.not_le.mpr hcnt)]
  by_cases hraw : s.type = SOCK_TYPE_MACRAW
  · have hfree : z._sockets_taken.testBit 0 = false := by
      rcases hreq with h | h
      · exact absurd hraw h
      · exact h
    have ha : socket_assign_id z s = some ((0 : Nat) : Int) := by
      unfold socket_assign_id
      rw [if_pos hraw, if_pos ((bit_free_iff _ 0).mpr hfree)]
      rfl
    exact ⟨0, ha, by decide, hfree, hnull 0 (by decide) hfree, hsock 0 ha, fun _ => rfl,
      fun h => absurd hraw h, fun h => absurd hraw h⟩
  · by_cases hfe : z._sockets_taken = 0b11111110
    · have ha : socket_assign_id z s = some ((0 : Nat) : Int) := by
        unfold socket_assign_id
        rw [if_neg hraw, if_pos hfe]
        rfl
      have hb0 : z._sockets_taken.testBit 0 = false := by rw [hfe]; rfl
      refine ⟨0, ha, by decide, hb0, hnull 0 (by decide) hb0, hsock 0 ha, fun _ => rfl,
        fun _ _ => rfl, ?_⟩
      intro _ ⟨j, hj1, hj8, hj⟩
      rw [hfe] at hj
      interval_cases j <;> exact absurd hj (by decide)
    · have hfind := find_range' (fun i => decide ((1 <<< i) &&& z._sockets_taken = 0)) 7 1
      have hex : ∃ j, 1 ≤ j ∧ j < 8 ∧ z._sockets_taken.testBit j = false := by
        by_contra hno
        have hall : ∀ j, 1 ≤ j → j < 8 → z._sockets_taken.testBit j = true := by
          intro j h1 h8
          by_contra hb
          exact hno ⟨j, h1, h8, by simpa using hb⟩
        rcases byte_all_upper_set _ ht hall with h | h
        · exact hfe h
        · rw [h, popcount8_full] at hpop
          omega
      cases hf : (List.range' 1 7).find? (fun i => decide ((1 <<< i) &&& z._sockets_taken = 0)) with
      | none =>
        rw [hf] at hfind
        obtain ⟨j, hj1, hj8, hj⟩ := hex
        have := hfind j hj1 (by omega)
        simp only [decide_eq_false_iff_not] at this
        exact absurd ((bit_free_iff _ j).mpr hj) this
      | some i =>
        rw [hf] at hfind
        obtain ⟨h1, h2, h3, h4⟩ := hfind
        simp only [decide_eq_true_eq] at h3
        have ha : socket_assign_id z s = some (i : Int) := by
          unfold socket_assign_id
          rw [if_neg hraw, if_neg hfe]
          simp only [NUM_OF_SOCKETS, Nat.add_one_sub_one]
          rw [hf]
        have hbit := (bit_free_iff _ i).mp h3
        refine ⟨i, ha, by omega, hbit, hnull i (by omega) hbit, hsock i ha,
          fun h => absurd h hraw, ?_, ?_⟩
        · intro _ hall
          have := hall i h1 (by omega)
          rw [hbit] at this
          cases this
        · intro _ _
          refine ⟨h1, fun j hj1 hji => ?_⟩
          have := h4 j hj1 hji
          simp only [decide_eq_false_iff_not] at this
          by_contra hb
          exact this ((bit_free_iff _ j).mpr (by simpa using hb))

/-! ## Capacity errors -/

theorem socket_assign_id_taken (z : wiznet_t) (s : socket_t)
    (htype : s.type = SOCK_TYPE_MACRAW) (hocc : z._sockets_taken.testBit 0 = true) :
    socket_assign_id z s = none := by
  unfold socket_assign_id
  rw [if_pos htype, if_neg]
  intro h
  rw [(bit_free_iff _ 0).mp h] at hocc
  cases hocc

/-- C7 (amended). On a device with fewer than 8 occupied channels whose slot 0 is
occupied, a raw-frame request to `socket` returns `SOCK_STATUS_MACRAW_TAKEN` and
leaves the device object (count, bitmap, channel table) unchanged. -/
theorem socket_macraw_taken (hal : Hal σ) (fuel : Nat) (w : World σ) (wiznet sock : Nat)
    (htype : (w.ram.socket_heap sock).type = SOCK_TYPE_MACRAW)
    (hocc : (w.ram.wiznet_heap wiznet)._sockets_taken.testBit 0 = true)
    (hcnt : (w.ram.wiznet_heap wiznet)._sockets_cnt < 8) :
    ∃ w' : World σ,
      socket hal fuel wiznet sock w = .ok (SOCK_STATUS_MACRAW_TAKEN, w')
      ∧ w'.ram.wiznet_heap = w.ram.wiznet_heap := by
  refine ⟨setSock w sock { w.ram.socket_heap sock with status := SOCK_STATUS_MACRAW_TAKEN }, ?_, rfl⟩
  unfold socket
  simp only [ge_iff_le, NUM_OF_SOCKETS, if_neg (Nat.not_le.mpr hcnt),
    socket_assign_id_taken _ _ htype hocc]

/-- C8. Capacity errors are atomic and precede all hardware access.
(a) With 8 (or more) channels counted, `socket` returns
`SOCK_STATUS_NUM_EXCEEDED` whatever the requested type; (b) with fewer than 8
and slot 0 occupied, a raw-frame request returns `SOCK_STATUS_MACRAW_TAKEN`;
(c) with the registry full, `wiznet_init` returns -1.  In each case no HAL call
is made (hardware state and history unchanged), the device objects, the
channel's identity and device reference, and the registry's count and slots are
as before the call. -/
theorem capacity_errors_atomic (hal : Hal σ) (fuel : Nat) (w : World σ) (wiznet sock : Nat) :
    (8 ≤ (w.ram.wiznet_heap wiznet)._sockets_cnt →
      ∃ w' : World σ, socket hal fuel wiznet sock w = .ok (SOCK_STATUS_NUM_EXCEEDED, w')
        ∧ w'.hw = w.hw ∧ w'.trace = w.trace
        ∧ w'.ram.wiznet_heap = w.ram.wiznet_heap
        ∧ (w'.ram.socket_heap sock)._id = (w.ram.socket_heap sock)._id
        ∧ (w'.ram.socket_heap sock)._host_wiznet = (w.ram.socket_heap sock)._host_wiznet
        ∧ w'.ram.wiznets_cnt = w.ram.wiznets_cnt ∧ w'.ram.wiznets = w.ram.wiznets)
    ∧ ((w.ram.wiznet_heap wiznet)._sockets_cnt < 8 →
       (w.ram.socket_heap sock).type = SOCK_TYPE_MACRAW →
       (w.ram.wiznet_heap wiznet)._sockets_taken.testBit 0 = true →
      ∃ w' : World σ, socket hal fuel wiznet sock w = .ok (SOCK_STATUS_MACRAW_TAKEN, w')
        ∧ w'.hw = w.hw ∧ w'.trace = w.trace
        ∧ w'.ram.wiznet_heap = w.ram.wiznet_heap
        ∧ (w'.ram.socket_heap sock)._id = (w.ram.socket_heap sock)._id
        ∧ (w'.ram.socket_heap sock)._host_wiznet = (w.ram.socket_heap sock)._host_wiznet
        ∧ w'.ram.wiznets_cnt = w.ram.wiznets_cnt ∧ w'.ram.wiznets = w.ram.wiznets)
    ∧ (NUM_OF_WIZNETS ≤ w.ram.wiznets_cnt → w.ram.wiznets_cnt + 1 < 2 ^ 32 →
       (w.ram.is_first_wiznet = true → ∀ i, i < NUM_OF_WIZNETS → w.ram.wiznets i = none) →
      ∃ w' : World σ, wiznet_init hal fuel wiznet w = .ok (-1, w')
        ∧ w'.hw = w.hw ∧ w'.trace = w.trace
        ∧ w'.ram.wiznet_heap = w.ram.wiznet_heap
        ∧ w'.ram.socket_heap = w.ram.socket_heap
        ∧ w'.ram.wiznets_cnt = w.ram.wiznets_cnt ∧ w'.ram.wiznets = w.ram.wiznets) := by
  refine ⟨?_, ?_, ?_⟩
  · intro hfull
    refine ⟨setSock w sock { w.ram.socket_heap sock with status := SOCK_STATUS_NUM_EXCEEDED },
      ?_, rfl, rfl, rfl, ?_, ?_, rfl, rfl⟩
    · unfold socket
      simp only [ge_iff_le, NUM_OF_SOCKETS, if_pos hfull]
    · simp [setSock, upd]
    · simp [setSock, upd]
  · intro hcnt htype hocc
    refine ⟨setSock w sock { w.ram.socket_heap sock with status := SOCK_STATUS_MACRAW_TAKEN },
      ?_, rfl, rfl, rfl, ?_, ?_, rfl, rfl⟩
    · unfold socket
      simp only [ge_iff_le, NUM_OF_SOCKETS, if_neg (Nat.not_le.mpr hcnt),
        socket_assign_id_taken _ _ htype hocc]
    · simp [setSock, upd]
    · simp [setSock, upd]
  · intro hfull hmax hslots
    have hmod : (w.ram.wiznets_cnt + 1) % 2 ^ 32 = w.ram.wiznets_cnt + 1 := Nat.mod_eq_of_lt hmax
    have hback : (w.ram.wiznets_cnt + 1 + 2 ^ 32 - 1) % 2 ^ 32 = w.ram.wiznets_cnt := by omega
    have hgt : w.ram.wiznets_cnt + 1 > NUM_OF_WIZNETS := by omega
    refine ⟨setWiznetsCnt w.ram.wiznets_cnt
      (setWiznetsCnt (w.ram.wiznets_cnt + 1) (wiznet_init_first w)), ?_, ?_, ?_, ?_, ?_, rfl, ?_⟩
    · have hc : (wiznet_init_first w).ram.wiznets_cnt = w.ram.wiznets_cnt := by
        unfold wiznet_init_first; split <;> rfl
      unfold wiznet_init
      simp only [hc, hmod, setWiznetsCnt, if_pos hgt, hback]
    · unfold wiznet_init_first setWiznetsCnt; split <;> rfl
    · unfold wiznet_init_first setWiznetsCnt; split <;> rfl
    · unfold wiznet_init_first setWiznetsCnt; split <;> rfl
    · unfold wiznet_init_first setWiznetsCnt; split <;> rfl
    · unfold wiznet_init_first setWiznetsCnt
      split
      · rename_i hfirst
        funext i
        simp only
        split
        · rename_i hi
          exact (hslots hfirst i hi).symm
        · rfl
      · rfl

/-! ## Runs on concrete inputs -/

/-- C1. `recv` in the wrap case on the input r = 0xFFFE, w = 0x0001, capacity 3:
three bytes are pending ((2^16 - r) + w = 3), but the call returns 2, copies
RX-buffer[0xFFFE] and RX-buffer[0x0000] only (the byte at 0xFFFF is skipped),
and still sets the RX read pointer register to w = 0x0001. -/
theorem recv_wrap_skips_last_byte :
    (recv (simHal 4) 0 [0, 0, 0] 3 rxWrapWorld).toOption.map
        (fun r => (r.1, r.2.hw.mem 5 0x28, r.2.hw.mem 5 0x29, commandsOf 5 r.2.trace))
      = some ((2, [0xAA, 0xCC, 0]), 0x00, 0x01, [SOCK_CMD_RECV]) := by
  decide

/-- C5. `recv` on the input r = 0xFFFE, w = 0x0001 (three bytes pending) with a
destination of capacity 2: the call does not return 0; it returns 2, writes the
RX read pointer register (0xFFFE becomes 0x0001) and issues `RECV`. -/
theorem recv_small_capacity_acknowledges :
    (recv (simHal 4) 0 [0, 0] 2 rxWrapWorld).toOption.map
        (fun r => (r.1.1, r.2.hw.mem 5 0x28, r.2.hw.mem 5 0x29, commandsOf 5 r.2.trace))
      = some (2, 0x00, 0x01, [SOCK_CMD_RECV]) := by
  decide

/-- C3 (counterexample). With `Sn_TX_RD` = 0x0010 and `Sn_TX_WR` = 0x0500,
`sendto` of three bytes writes them at offset 0x0010 of the TX buffer (not at
0x0500), and leaves 0x0013 (not 0x0503) in `Sn_TX_WR`. -/
theorem sendto_starts_at_tx_rd :
    (sendto (simHal 4) 1 0 [1, 2, 3] 3 txWorld).toOption.map
        (fun w => ([w.hw.mem 6 0x10, w.hw.mem 6 0x11, w.hw.mem 6 0x12],
                   [w.hw.mem 6 0x500, w.hw.mem 6 0x501, w.hw.mem 6 0x502],
                   w.hw.mem 5 0x24, w.hw.mem 5 0x25))
      = some ([1, 2, 3], [0, 0, 0], 0x00, 0x13) := by
  decide

/-- C7 (counterexample). Slot 0 is occupied (all 8 slots are), the request is
raw-frame, and `socket` returns `SOCK_STATUS_NUM_EXCEEDED`, not
`SOCK_STATUS_MACRAW_TAKEN`. -/
theorem socket_full_device_macraw :
    (fullWorld.ram.wiznet_heap 0)._sockets_taken.testBit 0 = true
    ∧ (fullWorld.ram.socket_heap 0).type = SOCK_TYPE_MACRAW
    ∧ (socket (simHal 4) 1 0 0 fullWorld).toOption.map (fun r => r.1)
        = some SOCK_STATUS_NUM_EXCEEDED
    ∧ SOCK_STATUS_NUM_EXCEEDED ≠ SOCK_STATUS_MACRAW_TAKEN := by
  decide

/-- C9. A TCP request whose connect poll times out while the status register
still reads `SOCK_STATUS_INIT`: `socket` returns 0x13 (not
`SOCK_STATUS_ESTABLISHED`) and the channel is registered all the same
(count 1, bit 1 set, table slot 1 pointing to it, identity 1, device reference
set). -/
theorem socket_tcp_connect_timeout_registers :
    (socket (simHal 4) 2 0 0 tcpStuckWorld).toOption.map
        (fun r => (r.1, (r.2.ram.wiznet_heap 0)._sockets_cnt,
                   (r.2.ram.wiznet_heap 0)._sockets_taken,
                   (r.2.ram.wiznet_heap 0)._sockets 1,
                   (r.2.ram.socket_heap 0)._id, (r.2.ram.socket_heap 0)._host_wiznet))
      = some (SOCK_STATUS_INIT, 1, 0b10, some 0, 1, some 0) := by
  decide

/-- C10. A TCP request whose open poll times out (status register reads
`SOCK_STATUS_CLOSED`, 1000 ms elapse): `socket` goes on to issue `CONNECT` on the
same channel, and returns the status left by the connect poll, not
`SOCK_STATUS_CANT_OPEN`: `SOCK_STATUS_CLOSED` when the connect poll times out
too, and `SOCK_STATUS_ESTABLISHED`, with the channel registered, when the
connect poll succeeds.  On the same chip and clock a UDP request returns
`SOCK_STATUS_CANT_OPEN` after the single `OPEN` command. -/
theorem socket_tcp_open_timeout_connects :
    (socket (simHal 4) 2 0 0 tcpNoOpenWorld).toOption.map
        (fun r => (r.1, commandsOf 5 r.2.trace))
      = some (SOCK_STATUS_CLOSED, [SOCK_CMD_OPEN, SOCK_CMD_CONNECT])
    ∧ (socket (simHal 4) 2 0 0 tcpLateWorld).toOption.map
        (fun r => (r.1, commandsOf 5 r.2.trace, (r.2.ram.wiznet_heap 0)._sockets_cnt))
      = some (SOCK_STATUS_ESTABLISHED, [SOCK_CMD_OPEN, SOCK_CMD_CONNECT], 1)
    ∧ (socket (simHal 4) 2 0 0 udpNoOpenWorld).toOption.map
        (fun r => (r.1, commandsOf 5 r.2.trace))
      = some (SOCK_STATUS_CANT_OPEN, [SOCK_CMD_OPEN]) := by
  decide

/-! ## Instances at concrete inputs -/

/-- C4 at r = 0x0010, w = 0x0013, capacity 4, on the simulated chip: `recv`
returns 3 and the destination `[9, 9, 9, 9]` becomes `[1, 2, 3, 9]`. -/
theorem recv_nonwrap_witness :
    (0x10 ≤ 0x13 ∧ 0x13 < 65536 ∧ 0x13 - 0x10 ≤ 4
      ∧ RxPointers (simHal 4) 0 5 0x10 0x13 rxPlainWorld)
    ∧ (recv (simHal 4) 0 [9, 9, 9, 9] 4 rxPlainWorld).toOption.map (fun r => r.1)
        = some (3, [1, 2, 3, 9]) := by
  refine ⟨⟨by decide, by decide, by decide, rfl, rfl⟩, ?_⟩
  obtain ⟨w', h, -⟩ := recv_nonwrap (simHal 4) rxPlainWorld 0 0 5 7 0x10 0x13 [9, 9, 9, 9] 4
    rfl rfl rfl (by decide) (by decide) (by decide) ⟨rfl, rfl⟩
  rw [h]
  rfl

theorem payload_length : (List.replicate 250 7).length = 250 := List.length_replicate _ _

/-- C2 at f = 100, L = 250: three passes, with chunks of lengths 100, 100, 50. -/
theorem sendto_fragmentation_witness :
    (1 ≤ 100 ∧ 100 < (List.replicate 250 7).length ∧ (List.replicate 250 7).length < 65536
      ∧ (∀ w' : World TxChip, Reads16 (txHal 100) 0 Sn_TX_FSR 5 100 w')
      ∧ ((List.replicate 250 7).length + 100 - 1) / 100 ≤ 3)
    ∧ ∃ (w' : World TxChip) (cs : List (List Nat)) (ps : List Nat),
        sendto (txHal 100) 3 0 (List.replicate 250 7) (List.replicate 250 7).length
            txLinkedWorld = .ok w'
        ∧ w'.trace = sendRounds dev1 5 6 SOCK_CMD_SEND 100 cs ps
        ∧ cs.map List.length = [100, 100, 50]
        ∧ cs.flatten = List.replicate 250 7 := by
  refine ⟨⟨by decide, (by rw [payload_length]; decide), (by rw [payload_length]; decide), fun _ => rfl, (by rw [payload_length])⟩, ?_⟩
  obtain ⟨w', cs, ps, h1, h2, -, -, h5, h6⟩ :=
    sendto_fragmentation (txHal 100) txLinkedWorld
      0 0 5 6 100 3 (List.replicate 250 7) rfl rfl rfl (Or.inr (Or.inl rfl))
      (by decide) (by rw [payload_length]; decide) (by rw [payload_length]; decide) (fun _ => rfl) (by rw [payload_length])
  refine ⟨w', cs, ps, h1, h2, ?_, h6⟩
  rw [h5, payload_length]
  rfl

/-- C3 (amended) at f = 4, L = 10, on a chip whose `Sn_TX_RD` reads back the last
`Sn_TX_WR`, starting at 0xFFFC: the three chunks are written at offsets 0xFFFC,
0x0000 and 0x0004 of the TX buffer block, and the pointer ends at 0x0006. -/
theorem sendto_pointer_handling_witness :
    (1 ≤ 4 ∧ 4 < 65536 ∧ 0 < [1, 2, 3, 4, 5, 6, 7, 8, 9, 10].length
      ∧ [1, 2, 3, 4, 5, 6, 7, 8, 9, 10].length < 65536
      ∧ (∀ w' : World TxChip, Reads16 (txHal 4) 0 Sn_TX_FSR 5 4 w')
      ∧ ([1, 2, 3, 4, 5, 6, 7, 8, 9, 10].length + 4 - 1) / 4 ≤ 3)
    ∧ (∃ (w' : World TxChip) (cs : List (List Nat)) (ps : List Nat),
        sendto (txHal 4) 3 0 [1, 2, 3, 4, 5, 6, 7, 8, 9, 10] 10 txLinkedWorld = .ok w'
        ∧ w'.trace = sendRounds dev1 5 6 SOCK_CMD_SEND 4 cs ps
        ∧ cs.flatten = [1, 2, 3, 4, 5, 6, 7, 8, 9, 10]
        ∧ ps.length = cs.length)
    ∧ (sendto (txHal 4) 3 0 [1, 2, 3, 4, 5, 6, 7, 8, 9, 10] 10 txLinkedWorld).toOption.map
          (fun w' => (bufferWrites 6 w'.trace, w'.hw.ptr))
        = some ([(0xFFFC, [1, 2, 3, 4]), (0x0000, [5, 6, 7, 8]), (0x0004, [9, 10])], 0x0006) := by
  refine ⟨⟨by decide, by decide, by decide, by decide, fun _ => rfl, by decide⟩,
    ?_, by decide⟩
  obtain ⟨w', cs, ps, h1, h2, h3, h4, -⟩ :=
    sendto_pointer_handling (txHal 4) txLinkedWorld
      0 0 5 6 4 3 [1, 2, 3, 4, 5, 6, 7, 8, 9, 10] rfl rfl rfl (Or.inr (Or.inl rfl))
      (by decide) (by decide) (by decide) (by decide) (fun _ => rfl) (by decide)
  exact ⟨w', cs, ps, h1, h2, h3, h4⟩

theorem emptyWorld_inv (type : Nat) : OccInv (emptyWorld type).ram 0 := by
  refine ⟨(by decide : (0 : Nat) < 256), (by decide : (0 : Nat) = popcount8 0),
    fun i _ => ⟨?_, ?_⟩⟩
  · have e : ((emptyWorld type).ram.wiznet_heap 0)._sockets_taken = 0 := rfl
    have e2 : ((emptyWorld type).ram.wiznet_heap 0)._sockets i = none := rfl
    rw [e, e2, Nat.zero_testBit]
    simp
  · intro p hp
    cases hp

/-- C6 on an empty device with a UDP request: the slot assigned is the lowest free
one among 1..7. -/
theorem socket_slot_assignment_witness :
    (OccInv (emptyWorld SOCK_TYPE_UDP).ram 0
      ∧ ((emptyWorld SOCK_TYPE_UDP).ram.wiznet_heap 0)._sockets_cnt < 8
      ∧ ((emptyWorld SOCK_TYPE_UDP).ram.socket_heap 0).type ≠ SOCK_TYPE_MACRAW)
    ∧ ∃ i : Nat,
        socket_assign_id ((emptyWorld SOCK_TYPE_UDP).ram.wiznet_heap 0)
          ((emptyWorld SOCK_TYPE_UDP).ram.socket_heap 0) = some (i : Int)
        ∧ i < 8
        ∧ ((emptyWorld SOCK_TYPE_UDP).ram.wiznet_heap 0)._sockets_taken.testBit i = false
        ∧ 1 ≤ i
        ∧ ∀ j, 1 ≤ j → j < i →
            ((emptyWorld SOCK_TYPE_UDP).ram.wiznet_heap 0)._sockets_taken.testBit j = true := by
  refine ⟨⟨emptyWorld_inv _, by decide, by decide⟩, ?_⟩
  obtain ⟨i, h1, h2, h3, -, -, -, -, h7⟩ :=
    socket_slot_assignment (simHal 4) 1 (emptyWorld SOCK_TYPE_UDP) 0 0 (emptyWorld_inv _)
      (by decide) (Or.inl (by decide))
  have h := h7 (by decide) ⟨1, by decide, by decide, by decide⟩
  exact ⟨i, h1, h2, h3, h.1, h.2⟩

/-- C7 (amended) on a device whose only occupied slot is slot 0. -/
theorem socket_macraw_taken_witness :
    ((slot0World.ram.socket_heap 0).type = SOCK_TYPE_MACRAW
      ∧ (slot0World.ram.wiznet_heap 0)._sockets_taken.testBit 0 = true
      ∧ (slot0World.ram.wiznet_heap 0)._sockets_cnt < 8)
    ∧ ∃ w' : World Sim,
        socket (simHal 4) 1 0 0 slot0World = .ok (SOCK_STATUS_MACRAW_TAKEN, w')
        ∧ w'.ram.wiznet_heap = slot0World.ram.wiznet_heap :=
  ⟨⟨rfl, by decide, by decide⟩,
   socket_macraw_taken (simHal 4) 1 slot0World 0 0 rfl (by decide) (by decide)⟩

/-- C8 on a full device (a), on a device with slot 0 occupied and a raw-frame
request (b), and with the one-entry registry full (c). -/
theorem capacity_errors_atomic_witness :
    (8 ≤ (fullWorld.ram.wiznet_heap 0)._sockets_cnt
      ∧ (slot0World.ram.wiznet_heap 0)._sockets_cnt < 8
      ∧ (slot0World.ram.socket_heap 0).type = SOCK_TYPE_MACRAW
      ∧ (slot0World.ram.wiznet_heap 0)._sockets_taken.testBit 0 = true
      ∧ NUM_OF_WIZNETS ≤ slot0World.ram.wiznets_cnt)
    ∧ (∃ w' : World Sim,
        socket (simHal 4) 1 0 0 fullWorld = .ok (SOCK_STATUS_NUM_EXCEEDED, w')
        ∧ w'.trace = fullWorld.trace)
    ∧ (∃ w' : World Sim,
        socket (simHal 4) 1 0 0 slot0World = .ok (SOCK_STATUS_MACRAW_TAKEN, w')
        ∧ w'.trace = slot0World.trace)
    ∧ (∃ w' : World Sim,
        wiznet_init (simHal 4) 1 1 slot0World = .ok (-1, w')
        ∧ w'.trace = slot0World.trace) := by
  refine ⟨⟨by decide, by decide, rfl, by decide, by decide⟩, ?_, ?_, ?_⟩
  · obtain ⟨w', h, -, ht, -⟩ :=
      (capacity_errors_atomic (simHal 4) 1 fullWorld 0 0).1 (by decide)
    exact ⟨w', h, ht⟩
  · obtain ⟨w', h, -, ht, -⟩ :=
      (capacity_errors_atomic (simHal 4) 1 slot0World 0 0).2.1 (by decide) rfl (by decide)
    exact ⟨w', h, ht⟩
  · obtain ⟨w', h, -, ht, -⟩ :=
      (capacity_errors_atomic (simHal 4) 1 slot0World 1 0).2.2 (by decide) (by decide)
        (fun h => absurd h (by decide))
    exact ⟨w', h, ht⟩

/-! ## Wire format -/

theorem swap_swap (a : Nat) (ha : a < 65536) : SWAP_TWO_BYTES (SWAP_TWO_BYTES a) = a := by
  have hx : a = a / 256 * 256 + a % 256 := by omega
  have hh : a / 256 < 256 := by omega
  have hl : a % 256 < 256 := by omega
  generalize a / 256 = hi at hx hh
  generalize a % 256 = lo at hx hl
  subst hx
  rw [swap_pair hi lo hh hl, swap_pair lo hi hl hh]

theorem ctrl_bits (sel : Nat) (h : sel < 32) :
    sel * 8 + 4 = (sel <<< 3) ||| 0x04 ∧ sel * 8 = sel <<< 3
    ∧ (sel <<< 3) ||| 0x04 < 256
    ∧ ((sel <<< 3) ||| 0x04) >>> 3 = sel ∧ (sel <<< 3) >>> 3 = sel
    ∧ ((sel <<< 3) ||| 0x04) &&& 0x04 = 0x04 ∧ (sel <<< 3) &&& 0x04 = 0
    ∧ ((sel <<< 3) ||| 0x04) &&& 0x03 = 0 ∧ (sel <<< 3) &&& 0x03 = 0 := by
  interval_cases sel <;> decide

/-- C16. Wire header encoding.  For a channel index `i` in 0..7 the selectors in
the tables `sock_n_registers`, `sock_n_tx_buffers`, `sock_n_rx_buffers` are
`4*i + 1`, `4*i + 2`, `4*i + 3` (and `COMMON_REGISTERS` is 0); for a 16-bit
address `a` and any selector `sel < 32`, `_write_spi` makes exactly the HAL
calls: select, transmit `[a >> 8, a & 0xFF]`, transmit `[(sel << 3) | 0x04]`,
transmit the payload, deselect; `_read_spi` the same with control byte
`[sel << 3]` and a receive; the control byte is a byte that holds the selector in
bits 7..3 (untruncated), the direction in bit 2 and zero in bits 1..0; and
`SWAP_TWO_BYTES` is an involution on 16-bit values. -/
theorem wire_header_encoding (hal : Hal σ) (w : World σ) (wiznet a i sel len : Nat)
    (data : List Nat) (ha : a < 65536) (hi : i < 8) (hsel : sel < 32) :
    (index sock_n_registers (i : Int) = .ok (4 * i + 1)
      ∧ index sock_n_tx_buffers (i : Int) = .ok (4 * i + 2)
      ∧ index sock_n_rx_buffers (i : Int) = .ok (4 * i + 3)
      ∧ COMMON_REGISTERS = 0 ∧ 4 * i + 3 < 32)
    ∧ (_write_spi hal wiznet a sel data len w).trace
        = w.trace ++
          [HalOp.GPIO_WritePin (w.ram.wiznet_heap wiznet).RST_CS_Port
             (w.ram.wiznet_heap wiznet).CS_Pin false,
           HalOp.SPI_Transmit (w.ram.wiznet_heap wiznet).hspi [a >>> 8, a &&& 0xFF],
           HalOp.SPI_Transmit (w.ram.wiznet_heap wiznet).hspi [(sel <<< 3) ||| 0x04],
           HalOp.SPI_Transmit (w.ram.wiznet_heap wiznet).hspi (data.take len),
           HalOp.GPIO_WritePin (w.ram.wiznet_heap wiznet).RST_CS_Port
             (w.ram.wiznet_heap wiznet).CS_Pin true]
    ∧ (_read_spi hal wiznet a sel len w).2.trace
        = w.trace ++
          [HalOp.GPIO_WritePin (w.ram.wiznet_heap wiznet).RST_CS_Port
             (w.ram.wiznet_heap wiznet).CS_Pin false,
           HalOp.SPI_Transmit (w.ram.wiznet_heap wiznet).hspi [a >>> 8, a &&& 0xFF],
           HalOp.SPI_Transmit (w.ram.wiznet_heap wiznet).hspi [sel <<< 3],
           HalOp.SPI_Receive (w.ram.wiznet_heap wiznet).hspi (_read_spi hal wiznet a sel len w).1,
           HalOp.GPIO_WritePin (w.ram.wiznet_heap wiznet).RST_CS_Port
             (w.ram.wiznet_heap wiznet).CS_Pin true]
    ∧ ((sel <<< 3) ||| 0x04 < 256
        ∧ ((sel <<< 3) ||| 0x04) >>> 3 = sel ∧ (sel <<< 3) >>> 3 = sel
        ∧ ((sel <<< 3) ||| 0x04) &&& 0x04 = 0x04 ∧ (sel <<< 3) &&& 0x04 = 0
        ∧ ((sel <<< 3) ||| 0x04) &&& 0x03 = 0 ∧ (sel <<< 3) &&& 0x03 = 0)
    ∧ SWAP_TWO_BYTES a < 65536
    ∧ SWAP_TWO_BYTES (SWAP_TWO_BYTES a) = a := by
  obtain ⟨c1, c2, c3, c4, c5, c6, c7, c8, c9⟩ := ctrl_bits sel hsel
  have ehi : a / 256 = a >>> 8 := by rw [Nat.shiftRight_eq_div_pow]
  have elo : a % 256 = a &&& 0xFF := (Nat.and_pow_two_sub_one_eq_mod a 8).symm
  refine ⟨⟨?_, ?_, ?_, rfl, by omega⟩, ?_, ?_, ⟨c3, c4, c5, c6, c7, c8, c9⟩, ?_, swap_swap a ha⟩
  · interval_cases i <;> rfl
  · interval_cases i <;> rfl
  · interval_cases i <;> rfl
  · rw [write_spi_trace hal wiznet a sel data len w ha hsel, writeFrame, ehi, elo, c1]
  · rw [read_spi_trace hal wiznet a sel len w ha hsel, readFrame, ehi, elo, c2]
  · rw [swap_eq a ha]; omega

/-- C16 at address 0x0123, channel 5 and its register block (selector 21). -/
theorem wire_header_encoding_witness :
    (0x0123 < 65536 ∧ 5 < 8 ∧ 21 < 32)
    ∧ index sock_n_registers ((5 : Nat) : Int) = .ok (4 * 5 + 1)
    ∧ (_write_spi (simHal 4) 0 0x0123 21 [7, 8] 2 (emptyWorld SOCK_TYPE_UDP)).trace
        = [HalOp.GPIO_WritePin 0 4 false, HalOp.SPI_Transmit 0 [0x01, 0x23],
           HalOp.SPI_Transmit 0 [0xAC], HalOp.SPI_Transmit 0 [7, 8],
           HalOp.GPIO_WritePin 0 4 true] := by
  have h := wire_header_encoding (simHal 4) (emptyWorld SOCK_TYPE_UDP) 0 0x0123 5 21 2 [7, 8]
    (by decide) (by decide) (by decide)
  exact ⟨⟨by decide, by decide, by decide⟩, h.1.1, h.2.1⟩

/-! ## Termination of `sendto` -/

theorem sendto_fuel_mono (hal : Hal σ) (sock : Nat) :
    ∀ (n : Nat) (data : List Nat) (len : Nat) (w w' : World σ),
      sendto hal n sock data len w = .ok w' →
      ∀ m, n ≤ m → sendto hal m sock data len w = .ok w' := by
  intro n
  induction n with
  | zero => intro data len w w' h; simp [sendto] at h
  | succ n ih =>
    intro data len w w' h m hm
    obtain ⟨m, rfl⟩ : ∃ k, m = k + 1 := ⟨m - 1, by omega⟩
    rw [sendto] at h ⊢
    cases hp : sendto_pass hal sock data len w with
    | error e => rw [hp] at h; simp at h
    | ok r =>
      rw [hp] at h
      simp only at h ⊢
      by_cases hflag : r.1.ram.need_to_fragment = true
      · rw [if_pos hflag] at h ⊢
        exact ih _ _ _ _ h m (by omega)
      · rw [if_neg hflag] at h ⊢
        exact h

theorem sendto_no_room (hal : Hal σ) (sock host reg txb : Nat) (s : socket_t)
    (hreg : index sock_n_registers s._id = .ok reg)
    (htxb : index sock_n_tx_buffers s._id = .ok txb)
    (hhost : s._host_wiznet = some host)
    (htype : s.type = SOCK_TYPE_TCP ∨ s.type = SOCK_TYPE_UDP ∨ s.type = SOCK_TYPE_MACRAW)
    (hfsr : ∀ w : World σ, Reads16 hal host Sn_TX_FSR reg 0 w)
    (data : List Nat) (hpos : 0 < data.length) (hlen : data.length < 65536) :
    ∀ (fuel : Nat) (w : World σ), w.ram.socket_heap sock = s →
      sendto hal fuel sock data data.length w = .error Fault.outOfFuel := by
  intro fuel
  induction fuel with
  | zero => intro w _; rfl
  | succ fuel ih =>
    intro w hs
    obtain ⟨w1, p, hpass, -, -, hram, -⟩ :=
      sendto_pass_spec hal sock host reg txb 0 data.length data w
        (by rw [hs]; exact hreg) (by rw [hs]; exact htxb) (by rw [hs]; exact hhost)
        (by rw [hs]; exact htype) (by decide) (Nat.le_refl _) (hfsr w)
    rw [sendto, hpass]
    simp only [hram]
    have hflag : (setFrag (decide (0 < data.length)) w).ram.need_to_fragment = true := by
      simp [setFrag, hpos]
    rw [if_pos hflag]
    have hmod : (data.length - 0) % 65536 = data.length := by omega
    rw [hmod, List.drop_zero]
    exact ih w1 (by rw [hram]; exact hs)

theorem sendto_returns (hal : Hal σ) (w : World σ) (sock host reg txb f : Nat)
    (data : List Nat)
    (hreg : index sock_n_registers (w.ram.socket_heap sock)._id = .ok reg)
    (htxb : index sock_n_tx_buffers (w.ram.socket_heap sock)._id = .ok txb)
    (hhost : (w.ram.socket_heap sock)._host_wiznet = some host)
    (htype : (w.ram.socket_heap sock).type = SOCK_TYPE_TCP ∨
             (w.ram.socket_heap sock).type = SOCK_TYPE_UDP ∨
             (w.ram.socket_heap sock).type = SOCK_TYPE_MACRAW)
    (hf : f < 65536) (hL : data.length < 65536)
    (hfsr : ∀ w' : World σ, Reads16 hal host Sn_TX_FSR reg f w')
    (hc : 1 ≤ f ∨ data.length = 0) :
    ∃ w', sendto hal (data.length + 1) sock data data.length w = .ok w' := by
  by_cases h0 : data.length = 0
  · obtain ⟨w1, p, hpass, -, -, hram, -⟩ :=
      sendto_pass_spec hal sock host reg txb f data.length data w hreg htxb hhost htype hf
        (Nat.le_refl _) (hfsr w)
    rw [sendto, hpass]
    simp only [hram]
    have hflag : ¬ (setFrag (decide (f < data.length)) w).ram.need_to_fragment = true := by
      simp [setFrag, h0]
    rw [if_neg hflag]
    exact ⟨w1, rfl⟩
  · have hf1 : 1 ≤ f := by
      rcases hc with h | h
      · exact h
      · exact absurd h h0
    obtain ⟨hb1, hb2⟩ := ceil_bounds data.length f (by omega) (by omega)
    have hn : (data.length + f - 1) / f ≤ data.length + 1 := by
      have h1 : (data.length + f - 1) / f ≤ (data.length + f - 1) / f * f :=
        Nat.le_mul_of_pos_right _ (by omega)
      have h2 : ((data.length + f - 1) / f - 1) * f + f = (data.length + f - 1) / f * f := by
        have hpos : 1 ≤ (data.length + f - 1) / f := by
          rcases Nat.eq_zero_or_pos ((data.length + f - 1) / f) with hz | hz
          · rw [hz] at hb2; omega
          · exact hz
        obtain ⟨m, hm⟩ : ∃ m, (data.length + f - 1) / f = m + 1 := ⟨_, (Nat.sub_add_cancel hpos).symm⟩
        rw [hm, Nat.add_sub_cancel, Nat.succ_mul]
      have h3 : (data.length + f - 1) / f - 1 ≤ ((data.length + f - 1) / f - 1) * f :=
        Nat.le_mul_of_pos_right _ (by omega)
      omega
    obtain ⟨w', cs, ps, hrun, -⟩ :=
      sendto_rounds hal sock host reg txb f (w.ram.socket_heap sock) (w.ram.wiznet_heap host)
        hreg htxb hhost htype hf hfsr ((data.length + f - 1) / f) (data.length + 1) data w
        hn (by omega) hL hb1 hb2 rfl rfl
    exact ⟨w', hrun⟩

/-- C19. Termination of `sendto`.  With the TX free-size register reading the
constant `f` on every access, `sendto` on a payload of length `L` returns (for
some amount of fuel, one unit per call) if and only if `1 ≤ f` or `L = 0`;
whenever it returns, it already returns with fuel `L + 1`, that is with at most
`L` recursive calls; and in the remaining case (`f = 0`, `0 < L`) every amount of
fuel is exhausted by the recursion. -/
theorem sendto_termination (hal : Hal σ) (w : World σ) (sock host reg txb f : Nat)
    (data : List Nat)
    (hreg : index sock_n_registers (w.ram.socket_heap sock)._id = .ok reg)
    (htxb : index sock_n_tx_buffers (w.ram.socket_heap sock)._id = .ok txb)
    (hhost : (w.ram.socket_heap sock)._host_wiznet = some host)
    (htype : (w.ram.socket_heap sock).type = SOCK_TYPE_TCP ∨
             (w.ram.socket_heap sock).type = SOCK_TYPE_UDP ∨
             (w.ram.socket_heap sock).type = SOCK_TYPE_MACRAW)
    (hf : f < 65536) (hL : data.length < 65536)
    (hfsr : ∀ w' : World σ, Reads16 hal host Sn_TX_FSR reg f w') :
    ((∃ fuel w', sendto hal fuel sock data data.length w = .ok w')
        ↔ (1 ≤ f ∨ data.length = 0))
    ∧ (∀ fuel w', sendto hal fuel sock data data.length w = .ok w' →
        sendto hal (data.length + 1) sock data data.length w = .ok w')
    ∧ (¬ (1 ≤ f ∨ data.length = 0) →
        ∀ fuel, sendto hal fuel sock data data.length w = .error Fault.outOfFuel) := by
  have hdiv : ¬ (1 ≤ f ∨ data.length = 0) →
      ∀ fuel, sendto hal fuel sock data data.length w = .error Fault.outOfFuel := by
    intro hc fuel
    have hf0 : f = 0 := by omega
    subst hf0
    exact sendto_no_room hal sock host reg txb (w.ram.socket_heap sock) hreg htxb hhost htype
      hfsr data (by omega) hL fuel w rfl
  have hiff : (∃ fuel w', sendto hal fuel sock data data.length w = .ok w')
      → (1 ≤ f ∨ data.length = 0) := by
    rintro ⟨fuel, w', h⟩
    by_contra hc
    rw [hdiv hc fuel] at h
    cases h
  refine ⟨⟨hiff, fun hc => ?_⟩, ?_, hdiv⟩
  · obtain ⟨w', h⟩ := sendto_returns hal w sock host reg txb f data hreg htxb hhost htype hf hL
      hfsr hc
    exact ⟨_, w', h⟩
  · intro fuel w' h
    obtain ⟨w'', h2⟩ := sendto_returns hal w sock host reg txb f data hreg htxb hhost htype hf hL
      hfsr (hiff ⟨fuel, w', h⟩)
    have e1 := sendto_fuel_mono hal sock _ _ _ _ _ h (max fuel (data.length + 1)) (Nat.le_max_left _ _)
    have e2 := sendto_fuel_mono hal sock _ _ _ _ _ h2 (max fuel (data.length + 1))
      (Nat.le_max_right _ _)
    rw [e1] at e2
    rw [h2]
    exact e2.symm

/-- C19 on the TX chip model with the UDP channel of slot 1: with free size 4 a
10-byte payload is sent and `sendto` returns; with free size 0 a 3-byte payload
exhausts every amount of fuel. -/
theorem sendto_termination_witness :
    (4 < 65536 ∧ [1, 2, 3, 4, 5, 6, 7, 8, 9, 10].length < 65536
      ∧ (∀ w' : World TxChip, Reads16 (txHal 4) 0 Sn_TX_FSR 5 4 w')
      ∧ (∀ w' : World TxChip, Reads16 (txHal 0) 0 Sn_TX_FSR 5 0 w'))
    ∧ (∃ fuel w', sendto (txHal 4) fuel 0 [1, 2, 3, 4, 5, 6, 7, 8, 9, 10]
          [1, 2, 3, 4, 5, 6, 7, 8, 9, 10].length txLinkedWorld = .ok w')
    ∧ (∀ fuel, sendto (txHal 0) fuel 0 [1, 2, 3] [1, 2, 3].length txLinkedWorld
          = .error Fault.outOfFuel) := by
  have h4 := sendto_termination (txHal 4) txLinkedWorld 0 0 5 6 4 [1, 2, 3, 4, 5, 6, 7, 8, 9, 10]
    rfl rfl rfl (Or.inr (Or.inl rfl)) (by decide) (by decide) (fun _ => rfl)
  have h0 := sendto_termination (txHal 0) txLinkedWorld 0 0 5 6 0 [1, 2, 3]
    rfl rfl rfl (Or.inr (Or.inl rfl)) (by decide) (by decide) (fun _ => rfl)
  exact ⟨⟨by decide, by decide, fun _ => rfl, fun _ => rfl⟩, h4.1.mpr (Or.inl (by decide)),
    h0.2.2 (by decide)⟩

/-! ## Interrupt demultiplexing -/

theorem bit_set_iff (t i : Nat) : decide ((1 <<< i) &&& t ≠ 0) = t.testBit i := by
  by_cases h : (1 <<< i) &&& t = 0
  · rw [(bit_free_iff t i).mp h]; simp [h]
  · have : t.testBit i = true := by
      cases hb : t.testBit i with
      | true => rfl
      | false => exact absurd ((bit_free_iff t i).mpr hb) h
    rw [this]; simp [h]

theorem isr_find_sock_lowest (z : wiznet_t) (b i : Nat) (hi : i < 8)
    (hset : b.testBit i = true) (hlow : ∀ j, j < i → b.testBit j = false) :
    isr_find_sock z b = some (z._sockets i) := by
  unfold isr_find_sock
  have hp : (fun idx => decide ((1 <<< idx) &&& b ≠ 0)) = fun idx => b.testBit idx :=
    funext fun idx => bit_set_iff b idx
  rw [hp, List.range_eq_range']
  have h := find_range' (fun idx => b.testBit idx) NUM_OF_SOCKETS 0
  cases hf : (List.range' 0 NUM_OF_SOCKETS).find? (fun idx => b.testBit idx) with
  | none =>
    rw [hf] at h
    have := h i (Nat.zero_le _) (by simpa [NUM_OF_SOCKETS] using hi)
    rw [hset] at this
    cases this
  | some k =>
    rw [hf] at h
    obtain ⟨-, -, hk, hmin⟩ := h
    have hki : k = i := by
      rcases Nat.lt_trichotomy k i with hlt | heq | hgt
      · have := hlow k hlt
        rw [this] at hk
        cases hk
      · exact heq
      · have := hmin i (Nat.zero_le _) hgt
        rw [hset] at this
        cases this
    rw [hki]
    rfl

/-- C18. Interrupt demultiplexing.  Let the read of the channel-interrupt
register `SIR` return the byte `b` whose lowest set bit is `i` (in 0..7), let slot
`i` of a device satisfying the occupancy invariant hold channel `p`, and let the
following read of the event register `Sn_IR` of register block `4*i + 1` return
`e`.  Then `wiznet_isr_handler` returns, dispatching the event types whose bit is
set in `e` among 0..4 in ascending order (0 connected, 1 disconnected, 2
data-received, 3 timeout, 4 send-complete), and it makes exactly four SPI
transactions, in this order: read `SIR`, read `Sn_IR` of block `4*i + 1`, write
`e` to that `Sn_IR`, write 0 to `SIR`.  The driver memory is unchanged. -/
theorem isr_demultiplexing (hal : Hal σ) (w : World σ) (wiznet b i p e : Nat)
    (hinv : OccInv w.ram wiznet)
    (hb : (_read_spi hal wiznet SIR COMMON_REGISTERS 1 w).1 = [b])
    (hi : i < 8) (hset : b.testBit i = true) (hlow : ∀ j, j < i → b.testBit j = false)
    (hslot : (w.ram.wiznet_heap wiznet)._sockets i = some p)
    (he : (_read_spi hal wiznet Sn_IR (4 * i + 1) 1
            (_read_spi hal wiznet SIR COMMON_REGISTERS 1 w).2).1 = [e]) :
    ∃ w' : World σ,
      wiznet_isr_handler hal wiznet w
        = .ok ((List.range 5).filter (fun type => e.testBit type), w')
      ∧ w'.trace = w.trace
          ++ readFrame (w.ram.wiznet_heap wiznet) SIR COMMON_REGISTERS [b]
          ++ readFrame (w.ram.wiznet_heap wiznet) Sn_IR (4 * i + 1) [e]
          ++ writeFrame (w.ram.wiznet_heap wiznet) Sn_IR (4 * i + 1) [e]
          ++ writeFrame (w.ram.wiznet_heap wiznet) SIR COMMON_REGISTERS [0]
      ∧ w'.ram = w.ram := by
  have hid : (w.ram.socket_heap p)._id = (i : Int) := (hinv.2.2 i hi).2 p hslot
  have hidx : index sock_n_registers ((i : Nat) : Int) = .ok (4 * i + 1) := by
    interval_cases i <;> rfl
  have hbank : 4 * i + 1 < 32 := by omega
  have hfind := isr_find_sock_lowest (w.ram.wiznet_heap wiznet) b i hi hset hlow
  have hev : (fun type => decide ((1 <<< type) &&& e ≠ 0)) = fun type => e.testBit type :=
    funext fun t => bit_set_iff e t
  unfold wiznet_isr_handler
  simp only [bind, Except.bind, pure, Except.pure, read_spi_ram, hb, List.getD_cons_zero, hfind,
    hslot, deref, hid, hidx, he, hev, NUM_OF_SOCK_IRS]
  refine ⟨_, rfl, ?_, rfl⟩
  rw [write_spi_trace _ _ _ _ _ _ _ (by decide) (by decide),
    write_spi_trace _ _ _ _ _ _ _ (by decide) hbank,
    read_spi_trace _ _ _ _ _ _ (by decide) hbank,
    read_spi_trace _ _ _ _ _ _ (by decide) (by decide)]
  simp only [write_spi_ram, read_spi_ram, hb, he, List.append_assoc]
  rfl

theorem dev1_inv (heap : Nat → socket_t) (h : heap 0 = udpBound) :
    OccInv (ramWith dev1 heap) 0 := by
  refine ⟨(by decide : (2 : Nat) < 256), (by decide : (1 : Nat) = popcount8 2), fun i hi => ?_⟩
  have e1 : ((ramWith dev1 heap).wiznet_heap 0)._sockets_taken = 2 := rfl
  have e2 : ((ramWith dev1 heap).wiznet_heap 0)._sockets i = if i = 1 then some 0 else none := rfl
  rw [e1, e2]
  constructor
  · interval_cases i <;> decide
  · intro p hp
    by_cases h1 : i = 1
    · rw [if_pos h1] at hp
      injection hp with hp
      subst hp
      subst h1
      show (heap 0)._id = ((1 : Nat) : Int)
      rw [h]
      rfl
    · rw [if_neg h1] at hp
      cases hp

/-- C18 on the simulated chip: `SIR` reads 0b10000010 (lowest set bit 1), slot 1
holds the channel at address 0, and `Sn_IR` of channel 1 reads 0b10010101; the
handler dispatches connected, data-received and send-complete. -/
theorem isr_demultiplexing_witness :
    (OccInv isrWorld.ram 0
      ∧ (_read_spi (simHal 4) 0 SIR COMMON_REGISTERS 1 isrWorld).1 = [0b10000010]
      ∧ 1 < 8 ∧ (0b10000010).testBit 1 = true
      ∧ (∀ j, j < 1 → (0b10000010).testBit j = false)
      ∧ (isrWorld.ram.wiznet_heap 0)._sockets 1 = some 0)
    ∧ ∃ w' : World Sim,
        wiznet_isr_handler (simHal 4) 0 isrWorld = .ok ([0, 2, 4], w')
        ∧ w'.trace = readFrame dev1 SIR 0 [0b10000010] ++ readFrame dev1 Sn_IR 5 [0b10010101]
            ++ writeFrame dev1 Sn_IR 5 [0b10010101] ++ writeFrame dev1 SIR 0 [0] := by
  have hlow : ∀ j, j < 1 → (0b10000010).testBit j = false := by
    intro j hj
    interval_cases j
    decide
  obtain ⟨w', h1, h2, -⟩ := isr_demultiplexing (simHal 4) isrWorld 0 0b10000010 1 0 0b10010101
    (dev1_inv _ rfl) (by decide) (by decide) (by decide) hlow rfl (by decide)
  exact ⟨⟨dev1_inv _ rfl, by decide, by decide, by decide, hlow, rfl⟩, w', h1, h2⟩

/-! ## `sock_deinit` and `wiznet_deinit` on concrete devices -/

/-- C13. On a device holding channel A (address 1) in slot 1 and channel B
(address 2) in slot 2: after `sock_deinit` of A the device has released slot 1
(count 1, bitmap 0b100, table entry null) but A still has identity 1 and still
refers to the device; a second `sock_deinit` of A returns as well and lowers the
count to 0 while B remains in slot 2. -/
theorem sock_deinit_keeps_identity :
    (sock_deinit (simHal 4) 1 twoWorld).toOption.map
        (fun w => ((w.ram.socket_heap 1)._id, (w.ram.socket_heap 1)._host_wiznet))
      = some (1, some 0)
    ∧ (sock_deinit (simHal 4) 1 twoWorld).toOption.map
        (fun w => ((w.ram.wiznet_heap 0)._sockets_cnt, (w.ram.wiznet_heap 0)._sockets_taken,
                   (w.ram.wiznet_heap 0)._sockets 1, (w.ram.wiznet_heap 0)._sockets 2))
      = some (1, 0b100, none, some 2)
    ∧ ((sock_deinit (simHal 4) 1 twoWorld).bind (sock_deinit (simHal 4) 1)).toOption.map
        (fun w => ((w.ram.socket_heap 1)._id, (w.ram.socket_heap 1)._host_wiznet))
      = some (1, some 0)
    ∧ ((sock_deinit (simHal 4) 1 twoWorld).bind (sock_deinit (simHal 4) 1)).toOption.map
        (fun w => ((w.ram.wiznet_heap 0)._sockets_cnt, (w.ram.wiznet_heap 0)._sockets_taken,
                   (w.ram.wiznet_heap 0)._sockets 1, (w.ram.wiznet_heap 0)._sockets 2))
      = some (0, 0b100, none, some 2) := by
  decide

/-- In `wiznet_deinit` the index of the final store is the identity just
overwritten with -1: the function never completes without undefined behaviour. -/
theorem wiznet_deinit_never_returns (hal : Hal σ) (fuel wiznet : Nat) (w w' : World σ) :
    wiznet_deinit hal fuel wiznet w ≠ .ok w' := by
  unfold wiznet_deinit
  cases wiznet_hw_reset hal fuel wiznet w with
  | error e => simp
  | ok w1 =>
    simp only
    rw [if_neg]
    · simp
    · intro h
      have hid : ∀ v : World σ, (v.ram.wiznet_heap wiznet)._id = -1 →
          ((if v.ram.wiznets_cnt ≠ 0 then
              setWiznetsCnt ((v.ram.wiznets_cnt + 2 ^ 32 - 1) % 2 ^ 32) v
            else v).ram.wiznet_heap wiznet)._id = -1 := by
        intro v hv
        split
        · exact hv
        · exact hv
      rw [hid _ (by simp [setWiz, upd])] at h
      exact absurd h.1 (by decide)

/-- The function `wiznet_deinit` is `wiznet_deinit_head` followed by the store
`wiznets[wiznet->_id] = NULL`. -/
theorem wiznet_deinit_eq (hal : Hal σ) (fuel wiznet : Nat) (w : World σ) :
    wiznet_deinit hal fuel wiznet w =
      match wiznet_deinit_head hal fuel wiznet w with
      | .error e => .error e
      | .ok w =>
        if 0 ≤ (w.ram.wiznet_heap wiznet)._id
            ∧ (w.ram.wiznet_heap wiznet)._id.toNat < NUM_OF_WIZNETS then
          .ok { w with ram := { w.ram with
            wiznets := upd w.ram.wiznets (w.ram.wiznet_heap wiznet)._id.toNat none } }
        else .error Fault.undefined := by
  unfold wiznet_deinit wiznet_deinit_head
  cases wiznet_hw_reset hal fuel wiznet w with
  | error e => rfl
  | ok w1 => rfl

/-- C15. On a fresh registry `wiznet_init` binds the device at address 0 with
identity 0 (return value 0, count 1, registry slot 0 holding the device).
`wiznet_deinit` of that device then ends in undefined behaviour: it stores to
`wiznets[-1]`.  In the state reached just before that store the identity is -1
and the count 0, but registry slot 0 still holds the device; from that state
`wiznet_init`, of the same device or of the device at address 1, is not rejected
(return value 0) yet leaves the identity at -1. -/
theorem wiznet_deinit_out_of_bounds :
    (wiznet_init (simHal 4) 1 0 freshWorld).toOption.map
        (fun r => (r.1, (r.2.ram.wiznet_heap 0)._id, r.2.ram.wiznets_cnt, r.2.ram.wiznets 0))
      = some (0, 0, 1, some 0)
    ∧ faultOf ((wiznet_init (simHal 4) 1 0 freshWorld).bind
        (fun r => wiznet_deinit (simHal 4) 1 0 r.2)) = some Fault.undefined
    ∧ ((wiznet_init (simHal 4) 1 0 freshWorld).bind
        (fun r => wiznet_deinit_head (simHal 4) 1 0 r.2)).toOption.map
        (fun w => ((w.ram.wiznet_heap 0)._id, w.ram.wiznets_cnt, w.ram.wiznets 0))
      = some (-1, 0, some 0)
    ∧ (((wiznet_init (simHal 4) 1 0 freshWorld).bind
        (fun r => wiznet_deinit_head (simHal 4) 1 0 r.2)).bind
        (fun w => wiznet_init (simHal 4) 1 0 w)).toOption.map
        (fun r => (r.1, (r.2.ram.wiznet_heap 0)._id, r.2.ram.wiznets_cnt, r.2.ram.wiznets 0))
      = some (0, -1, 1, some 0)
    ∧ (((wiznet_init (simHal 4) 1 0 freshWorld).bind
        (fun r => wiznet_deinit_head (simHal 4) 1 0 r.2)).bind
        (fun w => wiznet_init (simHal 4) 1 1 w)).toOption.map
        (fun r => (r.1, (r.2.ram.wiznet_heap 1)._id, r.2.ram.wiznets_cnt, r.2.ram.wiznets 0))
      = some (0, -1, 1, some 0) := by
  refine ⟨?_, ?_, ?_, ?_, ?_⟩ <;> decide

/-! ## The polling loops on a clock that steps over the timeout -/

theorem stuck_read (host addr bank : Nat) (w : World Nat) :
    (_read_spi stuckHal host addr bank 1 w).1 = [0x13]
    ∧ (_read_spi stuckHal host addr bank 1 w).2.hw = w.hw
    ∧ (_read_spi stuckHal host addr bank 1 w).2.ram = w.ram := by
  refine ⟨?_, rfl, rfl⟩
  simp only [_read_spi, HAL_SPI_Receive, HAL_SPI_Transmit, HAL_GPIO_WritePin, rxBytes, stuckHal]
  rfl

theorem stuck_millis (w : World Nat) :
    (_millis stuckHal w).1 = w.hw % 2 ^ 32 ∧ (_millis stuckHal w).2.hw = w.hw + 1024
    ∧ (_millis stuckHal w).2.ram = w.ram :=
  ⟨rfl, rfl, rfl⟩

theorem stuck_elapsed (now t0 timeout : Nat) (h : now % 1024 = t0 % 1024) (ht : t0 < 2 ^ 32)
    (hto : timeout % 1024 ≠ 0) : (now % 2 ^ 32 + 2 ^ 32 - t0) % 2 ^ 32 ≠ timeout := by
  norm_num at ht ⊢
  omega

theorem sock_open_loop_stuck (sock host reg t0 : Nat) (ht : t0 < 2 ^ 32) :
    ∀ (fuel : Nat) (w : World Nat), w.hw % 1024 = t0 % 1024 →
      (w.ram.socket_heap sock).type = SOCK_TYPE_UDP →
      sock_open_loop stuckHal sock host reg t0 fuel w = .error Fault.outOfFuel := by
  intro fuel
  induction fuel with
  | zero => intro w _ _; rfl
  | succ fuel ih =>
    intro w hw hty
    obtain ⟨r1, r2, r3⟩ := stuck_read host Sn_SR reg w
    obtain ⟨m1, m2, m3⟩ := stuck_millis (_read_spi stuckHal host Sn_SR reg 1 w).2
    rw [sock_open_loop]
    simp only [r1, r3, hty, List.getD_cons_zero]
    rw [if_neg (by decide), m1, r2, if_neg (stuck_elapsed _ _ _ hw ht (by decide))]
    apply ih
    · rw [m2, r2]; omega
    · rw [m3, r3]; exact hty

theorem sock_connect_loop_stuck (sock host reg t0 : Nat) (ht : t0 < 2 ^ 32) :
    ∀ (fuel : Nat) (w : World Nat), w.hw % 1024 = t0 % 1024 →
      sock_connect_loop stuckHal sock host reg t0 fuel w = .error Fault.outOfFuel := by
  intro fuel
  induction fuel with
  | zero => intro w _; rfl
  | succ fuel ih =>
    intro w hw
    obtain ⟨r1, r2, r3⟩ := stuck_read host Sn_SR reg w
    obtain ⟨m1, m2, m3⟩ := stuck_millis (_read_spi stuckHal host Sn_SR reg 1 w).2
    rw [sock_connect_loop]
    simp only [r1, List.getD_cons_zero]
    rw [if_neg (by decide), m1, r2, if_neg (stuck_elapsed _ _ _ hw ht (by decide))]
    apply ih
    rw [m2, r2]; omega

theorem sock_closed_loop_stuck (sock host reg t0 timeout : Nat) (ht : t0 < 2 ^ 32)
    (hto : timeout % 1024 ≠ 0) :
    ∀ (fuel : Nat) (w : World Nat), w.hw % 1024 = t0 % 1024 →
      sock_closed_loop stuckHal sock host reg t0 timeout fuel w = .error Fault.outOfFuel := by
  intro fuel
  induction fuel with
  | zero => intro w _; rfl
  | succ fuel ih =>
    intro w hw
    obtain ⟨r1, r2, r3⟩ := stuck_read host Sn_SR reg w
    obtain ⟨m1, m2, m3⟩ := stuck_millis (_read_spi stuckHal host Sn_SR reg 1 w).2
    rw [sock_closed_loop]
    simp only [r1, List.getD_cons_zero]
    rw [if_neg (by decide), m1, r2, if_neg (stuck_elapsed _ _ _ hw ht hto)]
    apply ih
    rw [m2, r2]; omega

theorem wiznet_hw_reset_loop_stuck (wiznet t0 : Nat) (ht : t0 < 2 ^ 32) :
    ∀ (fuel : Nat) (w : World Nat), w.hw % 1024 = t0 % 1024 →
      wiznet_hw_reset_loop stuckHal wiznet t0 fuel w = .error Fault.outOfFuel := by
  intro fuel
  induction fuel with
  | zero => intro w _; rfl
  | succ fuel ih =>
    intro w hw
    obtain ⟨r1, r2, r3⟩ := stuck_read wiznet PHYCFGR COMMON_REGISTERS w
    obtain ⟨m1, m2, m3⟩ := stuck_millis (_read_spi stuckHal wiznet PHYCFGR COMMON_REGISTERS 1 w).2
    rw [wiznet_hw_reset_loop]
    simp only [r1, List.getD_cons_zero]
    rw [if_neg (by decide), m1, r2, if_neg (stuck_elapsed _ _ _ hw ht (by decide))]
    apply ih
    rw [m2, r2]; omega

/-- C17. On a platform whose millisecond clock is non-decreasing and advances
by 1024 at each reading, and whose chip never shows the awaited status, none of
the five polling loops ever exits: `sock_open` (timeout 1000), `sock_connect`
(2000), `sock_close` (1000), `sock_discon` (2000) and `wiznet_hw_reset` (8000)
exhaust every amount of fuel (one unit per poll), although the elapsed time
exceeds 1000 ms from the first poll on, 2000 ms from the second and 8000 ms from
the eighth. -/
theorem polling_loops_miss_timeout :
    (∀ fuel, sock_open stuckHal fuel 0 (stuckWorld SOCK_TYPE_UDP) = .error Fault.outOfFuel)
    ∧ (∀ fuel, sock_connect stuckHal fuel 0 (stuckWorld SOCK_TYPE_TCP) = .error Fault.outOfFuel)
    ∧ (∀ fuel, sock_close stuckHal fuel 0 (stuckWorld SOCK_TYPE_UDP) = .error Fault.outOfFuel)
    ∧ (∀ fuel, sock_discon stuckHal fuel 0 (stuckWorld SOCK_TYPE_TCP) = .error Fault.outOfFuel)
    ∧ (∀ fuel, wiznet_hw_reset stuckHal fuel 0 (stuckWorld SOCK_TYPE_UDP)
        = .error Fault.outOfFuel) := by
  refine ⟨fun fuel => ?_, fun fuel => ?_, fun fuel => ?_, fun fuel => ?_, fun fuel => ?_⟩
  · exact sock_open_loop_stuck 0 0 5 0 (by decide) fuel _ rfl rfl
  · exact sock_connect_loop_stuck 0 0 5 0 (by decide) fuel _ rfl
  · exact sock_closed_loop_stuck 0 0 5 0 SOCK_TIMEOUT_CLOSE (by decide) (by decide) fuel _ rfl
  · exact sock_closed_loop_stuck 0 0 5 0 SOCK_TIMEOUT_DISCON (by decide) (by decide) fuel _ rfl
  · exact wiznet_hw_reset_loop_stuck 0 2 (by decide) fuel _ rfl

/-! ## Effect of `socket`, `sock_close` and `sock_deinit` on the driver memory -/

theorem upd_same {α : Type} (f : Nat → α) (i : Nat) (v : α) : upd f i v i = v := by
  simp [upd]

theorem upd_other {α : Type} (f : Nat → α) (i j : Nat) (v : α) (h : j ≠ i) : upd f i v j = f j := by
  simp [upd, h]

theorem upd_upd {α : Type} (f : Nat → α) (i : Nat) (a b : α) : upd (upd f i a) i b = upd f i b := by
  funext j
  by_cases h : j = i <;> simp [upd, h]

theorem ramStatus_ramStatus (r : Ram) (sock : Nat) (a b : Int) :
    ramStatus (ramStatus r sock a) sock b = ramStatus r sock b := by
  simp only [ramStatus, upd_upd, upd_same]

theorem sock_open_loop_ram (hal : Hal σ) (sock host reg t0 : Nat) :
    ∀ (fuel : Nat) (w w' : World σ), sock_open_loop hal sock host reg t0 fuel w = .ok w' →
      ∃ st, w'.ram = ramStatus w.ram sock st := by
  intro fuel
  induction fuel with
  | zero => intro w w' h; simp [sock_open_loop] at h
  | succ fuel ih =>
    intro w w' h
    rw [sock_open_loop] at h
    simp only at h
    split at h
    · injection h with h; subst h; exact ⟨_, rfl⟩
    · split at h
      · injection h with h; subst h; exact ⟨_, rfl⟩
      · obtain ⟨st, hst⟩ := ih _ _ h
        exact ⟨st, hst⟩

theorem sock_connect_loop_ram (hal : Hal σ) (sock host reg t0 : Nat) :
    ∀ (fuel : Nat) (w w' : World σ), sock_connect_loop hal sock host reg t0 fuel w = .ok w' →
      ∃ st, w'.ram = ramStatus w.ram sock st := by
  intro fuel
  induction fuel with
  | zero => intro w w' h; simp [sock_connect_loop] at h
  | succ fuel ih =>
    intro w w' h
    rw [sock_connect_loop] at h
    simp only at h
    split at h
    · injection h with h; subst h; exact ⟨_, rfl⟩
    · split at h
      · injection h with h; subst h; exact ⟨_, rfl⟩
      · obtain ⟨st, hst⟩ := ih _ _ h
        exact ⟨st, hst⟩

theorem sock_closed_loop_ram (hal : Hal σ) (sock host reg t0 timeout : Nat) :
    ∀ (fuel : Nat) (w w' : World σ),
      sock_closed_loop hal sock host reg t0 timeout fuel w = .ok w' →
      ∃ st, w'.ram = ramStatus w.ram sock st := by
  intro fuel
  induction fuel with
  | zero => intro w w' h; simp [sock_closed_loop] at h
  | succ fuel ih =>
    intro w w' h
    rw [sock_closed_loop] at h
    simp only at h
    split at h
    · injection h with h; subst h; exact ⟨_, rfl⟩
    · split at h
      · injection h with h; subst h; exact ⟨_, rfl⟩
      · obtain ⟨st, hst⟩ := ih _ _ h
        exact ⟨st, hst⟩

theorem sock_open_ram (hal : Hal σ) (fuel sock : Nat) (w w' : World σ)
    (h : sock_open hal fuel sock w = .ok w') : ∃ st, w'.ram = ramStatus w.ram sock st := by
  unfold sock_open at h
  simp only [bind, Except.bind] at h
  split at h
  · cases h
  · split at h
    · cases h
    · obtain ⟨st, hst⟩ := sock_open_loop_ram hal sock _ _ _ fuel _ w' h
      exact ⟨st, hst⟩

theorem sock_connect_ram (hal : Hal σ) (fuel sock : Nat) (w w' : World σ)
    (h : sock_connect hal fuel sock w = .ok w') : ∃ st, w'.ram = ramStatus w.ram sock st := by
  unfold sock_connect at h
  simp only [bind, Except.bind] at h
  split at h
  · cases h
  · split at h
    · cases h
    · obtain ⟨st, hst⟩ := sock_connect_loop_ram hal sock _ _ _ fuel _ w' h
      exact ⟨st, hst⟩

theorem sock_close_ram (hal : Hal σ) (fuel sock : Nat) (w w' : World σ)
    (h : sock_close hal fuel sock w = .ok w') : ∃ st, w'.ram = ramStatus w.ram sock st := by
  unfold sock_close at h
  simp only [bind, Except.bind] at h
  split at h
  · cases h
  · split at h
    · cases h
    · obtain ⟨st, hst⟩ := sock_closed_loop_ram hal sock _ _ _ _ fuel _ w' h
      exact ⟨st, hst⟩

theorem index_ok_nat (tbl : List Nat) (id : Int) (reg : Nat) (h : index tbl id = .ok reg) :
    ∃ i : Nat, id = (i : Int) ∧ i < tbl.length := by
  unfold index at h
  split at h
  · rename_i hc
    exact ⟨id.toNat, (Int.toNat_of_nonneg hc.1).symm, hc.2⟩
  · cases h

theorem socket_finish_ram (hal : Hal σ) (wiznet sock reg i : Nat) (r0 : Ram) (stv st : Int)
    (v w' : World σ)
    (hid : (r0.socket_heap sock)._id = (i : Int))
    (hv : v.ram = ramOpened r0 wiznet sock stv)
    (h : socket_finish hal wiznet sock reg v = .ok (st, w')) :
    (0 < st ∧ w'.ram = ramRegistered r0 wiznet sock i st)
      ∨ (¬ 0 < st ∧ w'.ram = ramUndone r0 sock st) := by
  have hs : v.ram.socket_heap sock
      = { r0.socket_heap sock with _host_wiznet := some wiznet, status := stv } := by
    rw [hv]; simp only [ramOpened, upd_same]
  have hz : v.ram.wiznet_heap = r0.wiznet_heap := by rw [hv]; rfl
  unfold socket_finish at h
  simp only [bind, Except.bind, pure, Except.pure] at h
  split at h
  · rename_i hpos
    split at h
    · injection h with h
      injection h with h1 h2
      subst h2
      left
      simp only [read_spi_ram, setWiz] at h1 ⊢
      rw [hs] at hpos h1
      simp only at hpos h1
      subst h1
      refine ⟨hpos, ?_⟩
      rw [hv]
      simp only [ramOpened, ramRegistered, upd_same, hid, Int.toNat_ofNat]
    · cases h
  · rename_i hneg
    injection h with h
    injection h with h1 h2
    subst h2
    right
    simp only [read_spi_ram, setSock, upd_same] at h1 ⊢
    rw [hs] at hneg h1
    simp only at hneg h1
    subst h1
    refine ⟨hneg, ?_⟩
    rw [hv]
    simp only [ramOpened, ramUndone, upd_same, upd_upd]

theorem ramStatus_hosted (w : World σ) (wiznet sock : Nat) (st : Int) :
    ramStatus (setSock w sock { w.ram.socket_heap sock with _host_wiznet := some wiznet }).ram sock st
      = ramOpened w.ram wiznet sock st := by
  simp only [ramStatus, ramOpened, setSock, upd_same, upd_upd]

theorem ramStatus_opened (r : Ram) (wiznet sock : Nat) (a b : Int) :
    ramStatus (ramOpened r wiznet sock a) sock b = ramOpened r wiznet sock b := by
  simp only [ramStatus, ramOpened, upd_same, upd_upd]

theorem socket_setup_ram (hal : Hal σ) (fuel wiznet sock : Nat) (w w' : World σ) (st : Int)
    (h : socket_setup hal fuel wiznet sock w = .ok (st, w')) :
    ∃ i : Nat, (w.ram.socket_heap sock)._id = (i : Int) ∧ i < 8
      ∧ ((0 < st ∧ w'.ram = ramRegistered w.ram wiznet sock i st)
         ∨ (¬ 0 < st ∧ w'.ram = ramUndone w.ram sock st)) := by
  unfold socket_setup at h
  simp only [bind, Except.bind, pure, Except.pure] at h
  cases hidx : index sock_n_registers (w.ram.socket_heap sock)._id with
  | error e => rw [hidx] at h; cases h
  | ok reg =>
    rw [hidx] at h
    simp only at h
    obtain ⟨i, hid, hi⟩ := index_ok_nat _ _ _ hidx
    refine ⟨i, hid, hi, ?_⟩
    have key : ∃ v stv, v.ram = ramOpened w.ram wiznet sock stv
        ∧ socket_finish hal wiznet sock reg v = .ok (st, w') := by
      split at h
      · rename_i hU
        split at h
        · cases h
        · rename_i v ho
          rw [if_neg (by rw [hU]; decide)] at h
          obtain ⟨stv, hv⟩ := sock_open_ram hal fuel sock _ v ho
          refine ⟨v, stv, ?_, ?_⟩
          · rw [hv, ← ramStatus_hosted]
            split <;> rfl
          · unfold socket_finish
            simp only [bind, Except.bind, pure, Except.pure]
            exact h
      · split at h
        · rename_i hT
          split at h
          · cases h
          · rename_i v ho
            split at h
            · cases h
            · rename_i v2 hc
              obtain ⟨st1, hv⟩ := sock_open_ram hal fuel sock _ v ho
              obtain ⟨st2, hv2⟩ := sock_connect_ram hal fuel sock _ v2 hc
              refine ⟨v2, st2, ?_, ?_⟩
              · rw [hv2, hv, ramStatus_ramStatus, ← ramStatus_hosted]
                split <;> rfl
              · unfold socket_finish
                simp only [bind, Except.bind, pure, Except.pure]
                exact h
        · split at h
          · rename_i hM
            split at h
            · cases h
            · rename_i v ho
              obtain ⟨stv, hv⟩ := sock_open_ram hal fuel sock _ v ho
              refine ⟨v, stv, ?_, ?_⟩
              · rw [hv, ← ramStatus_hosted]
                split <;> rfl
              · unfold socket_finish
                simp only [bind, Except.bind, pure, Except.pure]
                exact h
          · cases h
    obtain ⟨v, stv, hv, hfin⟩ := key
    exact socket_finish_ram hal wiznet sock reg i w.ram stv st v w' hid hv hfin

theorem ramRegistered_setId (w : World σ) (wiznet sock i : Nat) (id st : Int) :
    ramRegistered (setSock w sock { w.ram.socket_heap sock with _id := id }).ram wiznet sock i st
      = ramRegistered w.ram wiznet sock i st := by
  simp only [ramRegistered, setSock, upd_same, upd_upd]

theorem ramUndone_setId (w : World σ) (sock : Nat) (id st : Int) :
    ramUndone (setSock w sock { w.ram.socket_heap sock with _id := id }).ram sock st
      = ramUndone w.ram sock st := by
  simp only [ramUndone, setSock, upd_same, upd_upd]

/-- The three ways in which `socket` returns, and the driver memory after each. -/
theorem socket_ram (hal : Hal σ) (fuel wiznet sock : Nat) (w w' : World σ) (st : Int)
    (h : socket hal fuel wiznet sock w = .ok (st, w')) :
    (8 ≤ (w.ram.wiznet_heap wiznet)._sockets_cnt ∧ st = SOCK_STATUS_NUM_EXCEEDED
        ∧ w'.ram = ramStatus w.ram sock st)
    ∨ ((w.ram.wiznet_heap wiznet)._sockets_cnt < 8
        ∧ socket_assign_id (w.ram.wiznet_heap wiznet) (w.ram.socket_heap sock) = none
        ∧ st = SOCK_STATUS_MACRAW_TAKEN ∧ w'.ram = ramStatus w.ram sock st)
    ∨ ((w.ram.wiznet_heap wiznet)._sockets_cnt < 8
        ∧ ∃ i : Nat,
            socket_assign_id (w.ram.wiznet_heap wiznet) (w.ram.socket_heap sock) = some (i : Int)
            ∧ i < 8
            ∧ ((0 < st ∧ w'.ram = ramRegistered w.ram wiznet sock i st)
               ∨ (¬ 0 < st ∧ w'.ram = ramUndone w.ram sock st))) := by
  unfold socket at h
  simp only at h
  split at h
  · rename_i hc
    injection h with h
    injection h with h1 h2
    subst h1 h2
    exact Or.inl ⟨hc, rfl, rfl⟩
  · rename_i hc
    have hc8 : (w.ram.wiznet_heap wiznet)._sockets_cnt < 8 := Nat.lt_of_not_le hc
    split at h
    · rename_i hnone
      injection h with h
      injection h with h1 h2
      subst h1 h2
      exact Or.inr (Or.inl ⟨hc8, hnone, rfl, rfl⟩)
    · rename_i id hsome
      obtain ⟨i, hid, hi, hcase⟩ := socket_setup_ram hal fuel wiznet sock _ w' st h
      have hid2 : id = (i : Int) := by
        simpa only [setSock, upd_same] using hid
      subst hid2
      rw [ramRegistered_setId, ramUndone_setId] at hcase
      exact Or.inr (Or.inr ⟨hc8, i, hsome, hi, hcase⟩)

/-! ## Registration by `socket` -/

theorem testBit_set (t i j : Nat) (hj : j < 8) :
    ((t ||| (1 <<< i)) % 256).testBit j = (t.testBit j || decide (i = j)) := by
  have e : (256 : Nat) = 2 ^ 8 := by decide
  rw [e, Nat.testBit_mod_two_pow, Nat.testBit_or, Nat.one_shiftLeft, Nat.testBit_two_pow]
  simp [hj]

theorem testBit_clear (t i j : Nat) (ht : t < 256) :
    (t &&& (0xFF ^^^ (1 <<< i))).testBit j = (t.testBit j && !decide (i = j)) := by
  have e : (0xFF : Nat) = 2 ^ 8 - 1 := by decide
  rw [Nat.testBit_and, Nat.testBit_xor, e, Nat.testBit_two_pow_sub_one, Nat.one_shiftLeft,
    Nat.testBit_two_pow]
  by_cases hj : j < 8
  · by_cases hij : i = j <;> simp [hj, hij]
  · have hlt : t < 2 ^ j :=
      Nat.lt_of_lt_of_le ht (by
        have : 2 ^ 8 ≤ 2 ^ j := Nat.pow_le_pow_right (by decide : 2 > 0) (Nat.le_of_not_lt hj)
        simpa using this)
    rw [Nat.testBit_lt_two_pow hlt]
    simp

/-- C11. A failed open leaves nothing behind.  For a channel that is unbound
before the call (identity -1, no device reference), whenever `socket` returns
status `st`: if `st > 0` the channel is bound to a slot `i` of 0..7 and
registered in the device (count + 1, bit `i` of the bitmap set, table slot `i`
pointing to the channel, the other slots unchanged); otherwise the channel has
identity -1 and a null device reference, and the device object is unchanged; so
the count has grown by one exactly when `st > 0`. -/
theorem socket_registers_iff_success (hal : Hal σ) (fuel wiznet sock : Nat) (w w' : World σ)
    (st : Int)
    (hid : (w.ram.socket_heap sock)._id = -1)
    (hhost : (w.ram.socket_heap sock)._host_wiznet = none)
    (hret : socket hal fuel wiznet sock w = .ok (st, w')) :
    (0 < st → ∃ i : Nat, i < 8
        ∧ (w'.ram.socket_heap sock)._id = (i : Int)
        ∧ (w'.ram.socket_heap sock)._host_wiznet = some wiznet
        ∧ (w'.ram.wiznet_heap wiznet)._sockets_cnt = (w.ram.wiznet_heap wiznet)._sockets_cnt + 1
        ∧ (w'.ram.wiznet_heap wiznet)._sockets_taken
            = ((w.ram.wiznet_heap wiznet)._sockets_taken ||| (1 <<< i)) % 256
        ∧ (w'.ram.wiznet_heap wiznet)._sockets_taken.testBit i = true
        ∧ (w'.ram.wiznet_heap wiznet)._sockets i = some sock
        ∧ ∀ j, j ≠ i →
            (w'.ram.wiznet_heap wiznet)._sockets j = (w.ram.wiznet_heap wiznet)._sockets j)
    ∧ (¬ 0 < st →
        (w'.ram.socket_heap sock)._id = -1
        ∧ (w'.ram.socket_heap sock)._host_wiznet = none
        ∧ w'.ram.wiznet_heap wiznet = w.ram.wiznet_heap wiznet)
    ∧ ((w'.ram.wiznet_heap wiznet)._sockets_cnt = (w.ram.wiznet_heap wiznet)._sockets_cnt + 1
        ↔ 0 < st)
    ∧ (w'.ram.socket_heap sock).status = st := by
  have hreg : ∀ i : Nat, i < 8 → (w.ram.wiznet_heap wiznet)._sockets_cnt < 8 →
      w'.ram = ramRegistered w.ram wiznet sock i st →
      (w'.ram.socket_heap sock)._id = (i : Int)
        ∧ (w'.ram.socket_heap sock)._host_wiznet = some wiznet
        ∧ (w'.ram.wiznet_heap wiznet)._sockets_cnt = (w.ram.wiznet_heap wiznet)._sockets_cnt + 1
        ∧ (w'.ram.wiznet_heap wiznet)._sockets_taken
            = ((w.ram.wiznet_heap wiznet)._sockets_taken ||| (1 <<< i)) % 256
        ∧ (w'.ram.wiznet_heap wiznet)._sockets_taken.testBit i = true
        ∧ (w'.ram.wiznet_heap wiznet)._sockets i = some sock
        ∧ (∀ j, j ≠ i →
            (w'.ram.wiznet_heap wiznet)._sockets j = (w.ram.wiznet_heap wiznet)._sockets j)
        ∧ (w'.ram.socket_heap sock).status = st := by
    intro i hi hc hr
    rw [hr]
    simp only [ramRegistered, upd_same]
    refine ⟨trivial, trivial, ?_, trivial, ?_, trivial, ?_, trivial⟩
    · omega
    · rw [testBit_set _ _ _ hi]; simp
    · intro j hj
      exact upd_other _ _ _ _ hj
  have hstat : ∀ s : Int, w'.ram = ramStatus w.ram sock s →
      (w'.ram.socket_heap sock)._id = -1
        ∧ (w'.ram.socket_heap sock)._host_wiznet = none
        ∧ w'.ram.wiznet_heap wiznet = w.ram.wiznet_heap wiznet
        ∧ (w'.ram.socket_heap sock).status = s := by
    intro s hr
    rw [hr]
    simp only [ramStatus, upd_same]
    exact ⟨hid, hhost, trivial, trivial⟩
  have hund : w'.ram = ramUndone w.ram sock st →
      (w'.ram.socket_heap sock)._id = -1
        ∧ (w'.ram.socket_heap sock)._host_wiznet = none
        ∧ w'.ram.wiznet_heap wiznet = w.ram.wiznet_heap wiznet
        ∧ (w'.ram.socket_heap sock).status = st := by
    intro hr
    rw [hr]
    simp only [ramUndone, upd_same]
    exact ⟨trivial, trivial, trivial, trivial⟩
  rcases socket_ram hal fuel wiznet sock w w' st hret with
    ⟨_, hst, hr⟩ | ⟨_, _, hst, hr⟩ | ⟨hc, i, _, hi, ⟨hpos, hr⟩ | ⟨hneg, hr⟩⟩
  · obtain ⟨a, b, c, d⟩ := hstat st hr
    have hn : ¬ 0 < st := by rw [hst]; decide
    refine ⟨fun h => absurd h hn, fun _ => ⟨a, b, c⟩, ⟨fun h => ?_, fun h => absurd h hn⟩, d⟩
    rw [c] at h; omega
  · obtain ⟨a, b, c, d⟩ := hstat st hr
    have hn : ¬ 0 < st := by rw [hst]; decide
    refine ⟨fun h => absurd h hn, fun _ => ⟨a, b, c⟩, ⟨fun h => ?_, fun h => absurd h hn⟩, d⟩
    rw [c] at h; omega
  · obtain ⟨a, b, c, d, e, f, g, k⟩ := hreg i hi hc hr
    exact ⟨fun _ => ⟨i, hi, a, b, c, d, e, f, g⟩, fun h => absurd hpos h, ⟨fun _ => hpos, fun _ => c⟩, k⟩
  · obtain ⟨a, b, c, d⟩ := hund hr
    refine ⟨fun h => absurd h hneg, fun _ => ⟨a, b, c⟩, ⟨fun h => ?_, fun h => absurd h hneg⟩, d⟩
    rw [c] at h; omega

/-- C11 on the simulated chip, with an unbound TCP request on an empty device
whose connect poll succeeds: `socket` returns a positive status and the count
is 1; with an unbound UDP request whose open poll times out: `socket` returns a
non-positive status, the channel is unbound and the count is 0. -/
theorem socket_registers_iff_success_witness :
    ((tcpLateWorld.ram.socket_heap 0)._id = -1
      ∧ (tcpLateWorld.ram.socket_heap 0)._host_wiznet = none
      ∧ (udpNoOpenWorld.ram.socket_heap 0)._id = -1
      ∧ (udpNoOpenWorld.ram.socket_heap 0)._host_wiznet = none)
    ∧ (∃ st w', socket (simHal 4) 2 0 0 tcpLateWorld = .ok (st, w') ∧ 0 < st
        ∧ (w'.ram.wiznet_heap 0)._sockets_cnt = 1)
    ∧ (∃ st w', socket (simHal 4) 2 0 0 udpNoOpenWorld = .ok (st, w') ∧ ¬ 0 < st
        ∧ (w'.ram.socket_heap 0)._id = -1 ∧ (w'.ram.wiznet_heap 0)._sockets_cnt = 0) := by
  refine ⟨⟨rfl, rfl, rfl, rfl⟩, ?_, ?_⟩
  · have hs : (socket (simHal 4) 2 0 0 tcpLateWorld).toOption.map (fun r => r.1)
        = some SOCK_STATUS_ESTABLISHED := by decide
    cases h : socket (simHal 4) 2 0 0 tcpLateWorld with
    | error e => rw [h] at hs; cases hs
    | ok r =>
      rw [h] at hs
      have hst : r.1 = SOCK_STATUS_ESTABLISHED := by injection hs
      have hpos : 0 < r.1 := by rw [hst]; decide
      obtain ⟨-, -, h3, -⟩ :=
        socket_registers_iff_success (simHal 4) 2 0 0 tcpLateWorld r.2 r.1 rfl rfl h
      exact ⟨r.1, r.2, rfl, hpos, h3.mpr hpos⟩
  · have hs : (socket (simHal 4) 2 0 0 udpNoOpenWorld).toOption.map (fun r => r.1)
        = some SOCK_STATUS_CANT_OPEN := by decide
    cases h : socket (simHal 4) 2 0 0 udpNoOpenWorld with
    | error e => rw [h] at hs; cases hs
    | ok r =>
      rw [h] at hs
      have hst : r.1 = SOCK_STATUS_CANT_OPEN := by injection hs
      have hneg : ¬ 0 < r.1 := by rw [hst]; decide
      obtain ⟨-, h2, -, -⟩ :=
        socket_registers_iff_success (simHal 4) 2 0 0 udpNoOpenWorld r.2 r.1 rfl rfl h
      obtain ⟨a, -, c⟩ := h2 hneg
      exact ⟨r.1, r.2, rfl, hneg, a, by rw [c]; rfl⟩

/-! ## Release by `sock_deinit` -/

theorem assign_free (z : wiznet_t) (s : socket_t) (i : Nat)
    (ht : z._sockets_taken < 256) (hpop : z._sockets_cnt = popcount8 z._sockets_taken)
    (hcnt : z._sockets_cnt < 8)
    (h : socket_assign_id z s = some (i : Int)) :
    z._sockets_taken.testBit i = false ∧ (s.type = SOCK_TYPE_MACRAW → i = 0) := by
  unfold socket_assign_id at h
  split at h
  · rename_i hraw
    split at h
    · rename_i hfree
      injection h with h
      have hi : i = 0 := by omega
      subst hi
      exact ⟨(bit_free_iff _ 0).mp hfree, fun _ => rfl⟩
    · cases h
  · rename_i hraw
    split at h
    · rename_i hfe
      injection h with h
      have hi : i = 0 := by omega
      subst hi
      rw [hfe]
      exact ⟨rfl, fun _ => rfl⟩
    · rename_i hfe
      have hfind := find_range' (fun i => decide ((1 <<< i) &&& z._sockets_taken = 0)) 7 1
      simp only [NUM_OF_SOCKETS, Nat.add_one_sub_one] at h
      cases hf : (List.range' 1 7).find? (fun i => decide ((1 <<< i) &&& z._sockets_taken = 0)) with
      | none =>
        exfalso
        rw [hf] at hfind
        have hall : ∀ j, 1 ≤ j → j < 8 → z._sockets_taken.testBit j = true := by
          intro j h1 h8
          have := hfind j h1 (by omega)
          simp only [decide_eq_false_iff_not] at this
          by_contra hb
          exact this ((bit_free_iff _ j).mpr (by simpa using hb))
        rcases byte_all_upper_set _ ht hall with h' | h'
        · exact hfe h'
        · rw [h', popcount8_full] at hpop
          omega
      | some k =>
        rw [hf] at h hfind
        simp only at h
        injection h with h
        have hk : k = i := by omega
        subst hk
        obtain ⟨-, -, h3, -⟩ := hfind
        simp only [decide_eq_true_eq] at h3
        exact ⟨(bit_free_iff _ k).mp h3, fun h => absurd h hraw⟩

theorem index_regs (i : Nat) (hi : i < 8) : index sock_n_registers ((i : Nat) : Int) = .ok (4 * i + 1) := by
  interval_cases i <;> rfl

theorem sock_reset_ram (hal : Hal σ) (sock i host : Nat) (w : World σ)
    (hid : (w.ram.socket_heap sock)._id = (i : Int)) (hi : i < 8)
    (hhost : (w.ram.socket_heap sock)._host_wiznet = some host) :
    ∃ w1, sock_reset hal sock w = .ok w1 ∧ w1.ram = w.ram := by
  unfold sock_reset
  simp only [hid, index_regs i hi, hhost, deref, bind, Except.bind, pure, Except.pure]
  exact ⟨_, rfl, rfl⟩

theorem sock_deinit_ram (hal : Hal σ) (sock i host : Nat) (w : World σ)
    (hid : (w.ram.socket_heap sock)._id = (i : Int)) (hi : i < 8)
    (hhost : (w.ram.socket_heap sock)._host_wiznet = some host) :
    ∃ w', sock_deinit hal sock w = .ok w' ∧ w'.ram = ramReleased w.ram host i := by
  obtain ⟨w1, hreset, hram⟩ := sock_reset_ram hal sock i host w hid hi hhost
  unfold sock_deinit
  simp only [hreset, bind, Except.bind, pure, Except.pure, hram, hid, hhost, deref]
  have hc : (0 : Int) ≤ (i : Int) ∧ (i : Int).toNat < NUM_OF_SOCKETS := ⟨by omega, by simpa [NUM_OF_SOCKETS] using hi⟩
  rw [if_pos hc]
  refine ⟨_, rfl, ?_⟩
  simp only [setWiz, write_spi_ram, read_spi_ram, hram, ramReleased, Int.toNat_ofNat]

theorem set_clear (t i : Nat) (ht : t < 256) (hb : t.testBit i = false) :
    ((t ||| (1 <<< i)) % 256) &&& (0xFF ^^^ (1 <<< i)) = t := by
  apply Nat.eq_of_testBit_eq
  intro j
  rw [testBit_clear _ _ _ (Nat.mod_lt _ (by decide))]
  by_cases hj : j < 8
  · rw [testBit_set _ _ _ hj]
    by_cases hij : i = j
    · subst hij; simp [hb]
    · simp [hij]
  · have h256 : (256 : Nat) ≤ 2 ^ j := by
      have : 2 ^ 8 ≤ 2 ^ j := Nat.pow_le_pow_right (by decide : 2 > 0) (Nat.le_of_not_lt hj)
      simpa using this
    rw [Nat.testBit_lt_two_pow (Nat.lt_of_lt_of_le (Nat.mod_lt _ (by decide)) h256),
      Nat.testBit_lt_two_pow (Nat.lt_of_lt_of_le ht h256)]
    simp

theorem upd_restore {α : Type} (f : Nat → α) (i : Nat) (a : α) : upd (upd f i a) i (f i) = f := by
  funext j
  by_cases h : j = i
  · subst h; simp [upd]
  · simp [upd, h]

/-- C14. Open/close round trip.  On a device satisfying the occupancy
invariant, when `socket` returns a positive status (for a UDP request:
`SOCK_STATUS_UDP`) and the following `sock_close` of that channel returns, the
`sock_deinit` that follows returns as well, and the device's occupancy count,
bitmap and channel table (indeed the whole device object) are what they were
before the `socket` call; on a device with no channels these are 0, 0 and null
entries. -/
theorem open_close_round_trip (hal : Hal σ) (fuel fuel2 wiznet sock : Nat) (w w1 w2 : World σ)
    (st : Int)
    (hinv : OccInv w.ram wiznet)
    (hst : 0 < st)
    (hopen : socket hal fuel wiznet sock w = .ok (st, w1))
    (hclose : sock_close hal fuel2 sock w1 = .ok w2) :
    ∃ w3, sock_deinit hal sock w2 = .ok w3
      ∧ (w3.ram.wiznet_heap wiznet)._sockets_cnt = (w.ram.wiznet_heap wiznet)._sockets_cnt
      ∧ (w3.ram.wiznet_heap wiznet)._sockets_taken = (w.ram.wiznet_heap wiznet)._sockets_taken
      ∧ (w3.ram.wiznet_heap wiznet)._sockets = (w.ram.wiznet_heap wiznet)._sockets
      ∧ w3.ram.wiznet_heap wiznet = w.ram.wiznet_heap wiznet := by
  rcases socket_ram hal fuel wiznet sock w w1 st hopen with
    ⟨_, hs, _⟩ | ⟨_, _, hs, _⟩ | ⟨hc, i, hassign, hi, ⟨_, hr⟩ | ⟨hneg, _⟩⟩
  · rw [hs] at hst; exact absurd hst (by decide)
  · rw [hs] at hst; exact absurd hst (by decide)
  · obtain ⟨hfree, -⟩ := assign_free _ _ i hinv.1 hinv.2.1 hc hassign
    have hnull : (w.ram.wiznet_heap wiznet)._sockets i = none := by
      by_contra hne
      have := ((hinv.2.2 i hi).1).mpr hne
      rw [hfree] at this
      cases this
    obtain ⟨st2, hr2⟩ := sock_close_ram hal fuel2 sock w1 w2 hclose
    have hid2 : (w2.ram.socket_heap sock)._id = (i : Int) := by
      rw [hr2, hr]; simp only [ramStatus, ramRegistered, upd_same]
    have hh2 : (w2.ram.socket_heap sock)._host_wiznet = some wiznet := by
      rw [hr2, hr]; simp only [ramStatus, ramRegistered, upd_same]
    obtain ⟨w3, hd, hr3⟩ := sock_deinit_ram hal sock i wiznet w2 hid2 hi hh2
    have e1 : (if ((w.ram.wiznet_heap wiznet)._sockets_cnt + 1) % 256 ≠ 0 then
          ((w.ram.wiznet_heap wiznet)._sockets_cnt + 1) % 256 - 1
        else ((w.ram.wiznet_heap wiznet)._sockets_cnt + 1) % 256)
        = (w.ram.wiznet_heap wiznet)._sockets_cnt := by
      split <;> omega
    have e2 := set_clear _ i hinv.1 hfree
    have e3 : upd (upd (w.ram.wiznet_heap wiznet)._sockets i (some sock)) i none
        = (w.ram.wiznet_heap wiznet)._sockets := by
      have := upd_restore (w.ram.wiznet_heap wiznet)._sockets i (some sock)
      rw [hnull] at this
      exact this
    refine ⟨w3, hd, ?_⟩
    rw [hr3, hr2, hr]
    simp only [ramReleased, ramStatus, ramRegistered, upd_same, e1, e2, e3]
    exact ⟨trivial, trivial, trivial, trivial⟩
  · exact absurd hst hneg

/-- C14 on the simulated chip: a UDP request on an empty device is opened in
slot 1, closed and released; the device ends with count 0, bitmap 0 and a null
entry in slot 1. -/
theorem open_close_round_trip_witness :
    (OccInv udpRoundTripWorld.ram 0 ∧ (0 : Int) < SOCK_STATUS_UDP)
    ∧ ∃ w1 w2 w3, socket (simHal 4) 1 0 0 udpRoundTripWorld = .ok (SOCK_STATUS_UDP, w1)
        ∧ (w1.ram.socket_heap 0)._id = 1
        ∧ sock_close (simHal 4) 1 0 w1 = .ok w2
        ∧ sock_deinit (simHal 4) 0 w2 = .ok w3
        ∧ (w3.ram.wiznet_heap 0)._sockets_cnt = 0
        ∧ (w3.ram.wiznet_heap 0)._sockets_taken = 0
        ∧ (w3.ram.wiznet_heap 0)._sockets 1 = none := by
  refine ⟨⟨emptyWorld_inv SOCK_TYPE_UDP, by decide⟩, ?_⟩
  have hs : (socket (simHal 4) 1 0 0 udpRoundTripWorld).toOption.map
      (fun r => (r.1, (r.2.ram.socket_heap 0)._id)) = some (SOCK_STATUS_UDP, 1) := by decide
  have hc : ((socket (simHal 4) 1 0 0 udpRoundTripWorld).bind
      (fun r => sock_close (simHal 4) 1 0 r.2)).toOption.isSome = true := by decide
  cases h : socket (simHal 4) 1 0 0 udpRoundTripWorld with
  | error e => rw [h] at hs; cases hs
  | ok r =>
    rw [h] at hs hc
    have hst : (r.1, (r.2.ram.socket_heap 0)._id) = (SOCK_STATUS_UDP, 1) := by injection hs
    have hst1 : r.1 = SOCK_STATUS_UDP := congrArg Prod.fst hst
    have hid : (r.2.ram.socket_heap 0)._id = 1 := congrArg Prod.snd hst
    have h' : socket (simHal 4) 1 0 0 udpRoundTripWorld = .ok (SOCK_STATUS_UDP, r.2) := by
      rw [h, ← hst1]
    cases h2 : sock_close (simHal 4) 1 0 r.2 with
    | error e =>
      have : (Except.ok r : Except Fault (Int × World Sim)).bind
          (fun r => sock_close (simHal 4) 1 0 r.2) = sock_close (simHal 4) 1 0 r.2 := rfl
      rw [this, h2] at hc
      cases hc
    | ok w2 =>
      obtain ⟨w3, hd, e1, e2, e3, -⟩ :=
        open_close_round_trip (simHal 4) 1 1 0 0 udpRoundTripWorld r.2 w2 SOCK_STATUS_UDP
          (emptyWorld_inv SOCK_TYPE_UDP) (by decide) h' h2
      refine ⟨r.2, w2, w3, ?_, hid, h2, hd, e1, e2, ?_⟩
      · rw [← hst1]
      · rw [e3]; rfl

/-! ## The occupancy invariant -/

theorem filter_length_update (p q : Nat → Bool) (i : Nat) (hpi : p i = false) (hqi : q i = true) :
    ∀ l : List Nat, l.Nodup → i ∈ l → (∀ j, j ∈ l → j ≠ i → q j = p j) →
      (l.filter q).length = (l.filter p).length + 1 := by
  intro l
  induction l with
  | nil => intro _ h; cases h
  | cons a l ih =>
    intro hnd hmem hq
    have hnd' := List.nodup_cons.mp hnd
    by_cases ha : a = i
    · subst ha
      have hsame : l.filter q = l.filter p := by
        apply List.filter_congr
        intro j hj
        exact hq j (List.mem_cons_of_mem _ hj) (fun e => hnd'.1 (e ▸ hj))
      simp [List.filter_cons, hqi, hpi, hsame]
    · have hmem' : i ∈ l := by
        rcases List.mem_cons.mp hmem with h | h
        · exact absurd h.symm ha
        · exact h
      have ih' := ih hnd'.2 hmem' (fun j hj hji => hq j (List.mem_cons_of_mem _ hj) hji)
      have hqa := hq a (List.mem_cons_self _ _) ha
      cases hpa : p a with
      | true => simp [List.filter_cons, hqa, hpa, ih']
      | false => simp [List.filter_cons, hqa, hpa, ih']

theorem popcount8_le (t : Nat) : popcount8 t ≤ 8 := by
  unfold popcount8
  have := List.length_filter_le (fun i => t.testBit i) (List.range 8)
  simpa using this

theorem popcount8_set (t i : Nat) (hi : i < 8) (hb : t.testBit i = false) :
    popcount8 ((t ||| (1 <<< i)) % 256) = popcount8 t + 1 := by
  unfold popcount8
  apply filter_length_update _ _ i hb _ _ (List.nodup_range 8) (List.mem_range.mpr hi)
  · intro j hj hji
    rw [testBit_set _ _ _ (List.mem_range.mp hj)]
    simp [Ne.symm hji]
  · rw [testBit_set _ _ _ hi]; simp

theorem popcount8_clear (t i : Nat) (ht : t < 256) (hi : i < 8) (hb : t.testBit i = true) :
    popcount8 t = popcount8 (t &&& (0xFF ^^^ (1 <<< i))) + 1 := by
  unfold popcount8
  apply filter_length_update _ _ i _ hb _ (List.nodup_range 8) (List.mem_range.mpr hi)
  · intro j _ hji
    rw [testBit_clear _ _ _ ht]
    simp [Ne.symm hji]
  · rw [testBit_clear _ _ _ ht]; simp

theorem devInv_status (r : Ram) (wiznet sock : Nat) (st : Int) (h : DevInv r wiznet) :
    DevInv (ramStatus r sock st) wiznet := by
  obtain ⟨⟨h1, h2, h3⟩, h4⟩ := h
  have hheap : ∀ p, ((ramStatus r sock st).socket_heap p)._id = (r.socket_heap p)._id
      ∧ ((ramStatus r sock st).socket_heap p)._host_wiznet = (r.socket_heap p)._host_wiznet
      ∧ ((ramStatus r sock st).socket_heap p).type = (r.socket_heap p).type := by
    intro p
    by_cases hp : p = sock
    · subst hp; simp only [ramStatus, upd_same]; exact ⟨trivial, trivial, trivial⟩
    · simp only [ramStatus, upd_other _ _ _ _ hp]; exact ⟨trivial, trivial, trivial⟩
  refine ⟨⟨h1, h2, fun i hi => ⟨(h3 i hi).1, fun p hp => ?_⟩⟩, fun i hi p hp => ?_⟩
  · rw [(hheap p).1]; exact (h3 i hi).2 p hp
  · rw [(hheap p).2.1, (hheap p).2.2]; exact h4 i hi p hp

theorem devInv_undone (r : Ram) (wiznet sock : Nat) (st : Int) (h : DevInv r wiznet)
    (hnot : ∀ i, i < 8 → (r.wiznet_heap wiznet)._sockets i ≠ some sock) :
    DevInv (ramUndone r sock st) wiznet := by
  obtain ⟨⟨h1, h2, h3⟩, h4⟩ := h
  have hheap : ∀ i, i < 8 → ∀ p, (r.wiznet_heap wiznet)._sockets i = some p →
      (ramUndone r sock st).socket_heap p = r.socket_heap p := by
    intro i hi p hp
    have hne : p ≠ sock := fun e => hnot i hi (e ▸ hp)
    simp only [ramUndone, upd_other _ _ _ _ hne]
  refine ⟨⟨h1, h2, fun i hi => ⟨(h3 i hi).1, fun p hp => ?_⟩⟩, fun i hi p hp => ?_⟩
  · rw [hheap i hi p hp]; exact (h3 i hi).2 p hp
  · rw [hheap i hi p hp]; exact h4 i hi p hp

theorem devInv_registered (r : Ram) (wiznet sock i : Nat) (st : Int) (h : DevInv r wiznet)
    (hi : i < 8) (hfree : (r.wiznet_heap wiznet)._sockets_taken.testBit i = false)
    (hraw : (r.socket_heap sock).type = SOCK_TYPE_MACRAW → i = 0)
    (hnot : ∀ j, j < 8 → (r.wiznet_heap wiznet)._sockets j ≠ some sock) :
    DevInv (ramRegistered r wiznet sock i st) wiznet := by
  obtain ⟨⟨h1, h2, h3⟩, h4⟩ := h
  have hz : (ramRegistered r wiznet sock i st).wiznet_heap wiznet
      = { r.wiznet_heap wiznet with
          _sockets_cnt := ((r.wiznet_heap wiznet)._sockets_cnt + 1) % 256,
          _sockets_taken := ((r.wiznet_heap wiznet)._sockets_taken ||| (1 <<< i)) % 256,
          _sockets := upd (r.wiznet_heap wiznet)._sockets i (some sock) } := by
    simp only [ramRegistered, upd_same]
  have hsock : (ramRegistered r wiznet sock i st).socket_heap sock
      = { r.socket_heap sock with _id := (i : Int), _host_wiznet := some wiznet, status := st } := by
    simp only [ramRegistered, upd_same]
  have hother : ∀ p, p ≠ sock →
      (ramRegistered r wiznet sock i st).socket_heap p = r.socket_heap p := by
    intro p hp
    simp only [ramRegistered, upd_other _ _ _ _ hp]
  have hle := popcount8_le (r.wiznet_heap wiznet)._sockets_taken
  refine ⟨⟨?_, ?_, fun j hj => ⟨?_, fun p hp => ?_⟩⟩, fun j hj p hp => ?_⟩
  · rw [hz]; exact Nat.mod_lt _ (by decide)
  · rw [hz]
    simp only
    rw [popcount8_set _ _ hi hfree, h2]
    omega
  · rw [hz]
    simp only
    rw [testBit_set _ _ _ hj]
    by_cases hji : j = i
    · subst hji; simp [upd_same]
    · rw [upd_other _ _ _ _ hji]
      have := (h3 j hj).1
      simp [Ne.symm hji, this]
  · rw [hz] at hp
    simp only at hp
    by_cases hji : j = i
    · subst hji
      rw [upd_same] at hp
      injection hp with hp
      subst hp
      rw [hsock]
    · rw [upd_other _ _ _ _ hji] at hp
      have hne : p ≠ sock := fun e => hnot j hj (e ▸ hp)
      rw [hother p hne]
      exact (h3 j hj).2 p hp
  · rw [hz] at hp
    simp only at hp
    by_cases hji : j = i
    · subst hji
      rw [upd_same] at hp
      injection hp with hp
      subst hp
      rw [hsock]
      exact ⟨rfl, hraw⟩
    · rw [upd_other _ _ _ _ hji] at hp
      have hne : p ≠ sock := fun e => hnot j hj (e ▸ hp)
      rw [hother p hne]
      exact h4 j hj p hp

theorem devInv_released (r : Ram) (wiznet i : Nat) (h : DevInv r wiznet)
    (hi : i < 8) (hocc : (r.wiznet_heap wiznet)._sockets i ≠ none) :
    DevInv (ramReleased r wiznet i) wiznet := by
  obtain ⟨⟨h1, h2, h3⟩, h4⟩ := h
  have hbit : (r.wiznet_heap wiznet)._sockets_taken.testBit i = true := ((h3 i hi).1).mpr hocc
  have hz : (ramReleased r wiznet i).wiznet_heap wiznet
      = { r.wiznet_heap wiznet with
          _sockets_cnt :=
            if (r.wiznet_heap wiznet)._sockets_cnt ≠ 0 then (r.wiznet_heap wiznet)._sockets_cnt - 1
            else (r.wiznet_heap wiznet)._sockets_cnt,
          _sockets_taken := (r.wiznet_heap wiznet)._sockets_taken &&& (0xFF ^^^ (1 <<< i)),
          _sockets := upd (r.wiznet_heap wiznet)._sockets i none } := by
    simp only [ramReleased, upd_same]
  have hheap : (ramReleased r wiznet i).socket_heap = r.socket_heap := rfl
  have hpc := popcount8_clear _ i h1 hi hbit
  refine ⟨⟨?_, ?_, fun j hj => ⟨?_, fun p hp => ?_⟩⟩, fun j hj p hp => ?_⟩
  · rw [hz]
    exact Nat.lt_of_le_of_lt Nat.and_le_left h1
  · rw [hz]
    simp only
    split <;> omega
  · rw [hz]
    simp only
    rw [testBit_clear _ _ _ h1]
    by_cases hji : j = i
    · subst hji; simp [upd_same]
    · rw [upd_other _ _ _ _ hji]
      have := (h3 j hj).1
      simp [Ne.symm hji, this]
  · rw [hz] at hp
    simp only at hp
    by_cases hji : j = i
    · subst hji
      rw [upd_same] at hp
      cases hp
    · rw [upd_other _ _ _ _ hji] at hp
      rw [hheap]
      exact (h3 j hj).2 p hp
  · rw [hz] at hp
    simp only at hp
    by_cases hji : j = i
    · subst hji
      rw [upd_same] at hp
      cases hp
    · rw [upd_other _ _ _ _ hji] at hp
      rw [hheap]
      exact h4 j hj p hp

theorem devInv_start (r : Ram) (wiznet : Nat)
    (hc : (r.wiznet_heap wiznet)._sockets_cnt = wiznet_t_init._sockets_cnt)
    (ht : (r.wiznet_heap wiznet)._sockets_taken = wiznet_t_init._sockets_taken)
    (hs : (r.wiznet_heap wiznet)._sockets = wiznet_t_init._sockets) :
    DevInv r wiznet := by
  have hnone : ∀ i, (r.wiznet_heap wiznet)._sockets i = none := by
    intro i; rw [hs]; rfl
  have ht0 : (r.wiznet_heap wiznet)._sockets_taken = 0 := ht
  have hc0 : (r.wiznet_heap wiznet)._sockets_cnt = 0 := hc
  refine ⟨⟨?_, ?_, fun i _ => ⟨?_, fun p hp => ?_⟩⟩, fun i _ p hp => ?_⟩
  · rw [ht0]; decide
  · rw [ht0, hc0]; decide
  · rw [ht0, hnone i, Nat.zero_testBit]; simp
  · rw [hnone i] at hp; cases hp
  · rw [hnone i] at hp; cases hp

theorem devInv_socket (hal : Hal σ) (fuel wiznet sock : Nat) (w w' : World σ) (st : Int)
    (h : DevInv w.ram wiznet)
    (hnot : ∀ i, i < 8 → (w.ram.wiznet_heap wiznet)._sockets i ≠ some sock)
    (hret : socket hal fuel wiznet sock w = .ok (st, w')) : DevInv w'.ram wiznet := by
  rcases socket_ram hal fuel wiznet sock w w' st hret with
    ⟨_, _, hr⟩ | ⟨_, _, _, hr⟩ | ⟨hc, i, hassign, hi, ⟨_, hr⟩ | ⟨_, hr⟩⟩
  · rw [hr]; exact devInv_status _ _ _ _ h
  · rw [hr]; exact devInv_status _ _ _ _ h
  · obtain ⟨hfree, hraw⟩ := assign_free _ _ i h.1.1 h.1.2.1 hc hassign
    rw [hr]
    exact devInv_registered _ _ _ _ _ h hi hfree hraw hnot
  · rw [hr]; exact devInv_undone _ _ _ _ h hnot

theorem devInv_sock_deinit (hal : Hal σ) (wiznet sock : Nat) (w w' : World σ)
    (h : DevInv w.ram wiznet)
    (hin : ∃ i, i < 8 ∧ (w.ram.wiznet_heap wiznet)._sockets i = some sock)
    (hret : sock_deinit hal sock w = .ok w') : DevInv w'.ram wiznet := by
  obtain ⟨i, hi, hp⟩ := hin
  have hid := (h.1.2.2 i hi).2 sock hp
  have hhost := (h.2 i hi sock hp).1
  obtain ⟨w'', hd, hr⟩ := sock_deinit_ram hal sock i wiznet w hid hi hhost
  rw [hret] at hd
  injection hd with hd
  subst hd
  rw [hr]
  exact devInv_released _ _ _ h hi (by rw [hp]; exact fun e => Option.noConfusion e)

theorem reach_devInv (hal : Hal σ) (wiznet : Nat) (w : World σ) (h : Reach hal wiznet w) :
    DevInv w.ram wiznet := by
  induction h with
  | start w hc ht hs => exact devInv_start _ _ hc ht hs
  | by_socket fuel sock st w w' _ hnot hret ih => exact devInv_socket hal fuel wiznet sock w w' st ih hnot hret
  | by_sock_deinit sock w w' _ hin hret ih => exact devInv_sock_deinit hal wiznet sock w w' ih hin hret

/-- C12. Device occupancy invariant.  In every world reached from a device as
`wiznet_t_init` leaves it by `socket` calls on channels not in the table and
`sock_deinit` calls on channels in the table: for each slot `i` of 0..7, bit `i`
of the bitmap is set iff table slot `i` is non-null, and the channel in slot `i`
has identity `i`; the count is the number of set bits and at most 8; a raw-frame
channel in the table sits in slot 0, so two raw-frame entries of the table are
the same slot and channel. -/
theorem occupancy_invariant (hal : Hal σ) (wiznet : Nat) (w : World σ)
    (h : Reach hal wiznet w) :
    (∀ i, i < 8 →
        (((w.ram.wiznet_heap wiznet)._sockets_taken.testBit i = true ↔
            (w.ram.wiznet_heap wiznet)._sockets i ≠ none)
         ∧ ∀ p, (w.ram.wiznet_heap wiznet)._sockets i = some p →
             (w.ram.socket_heap p)._id = (i : Int)))
    ∧ (w.ram.wiznet_heap wiznet)._sockets_cnt
        = popcount8 (w.ram.wiznet_heap wiznet)._sockets_taken
    ∧ (w.ram.wiznet_heap wiznet)._sockets_cnt ≤ 8
    ∧ (w.ram.wiznet_heap wiznet)._sockets_taken < 256
    ∧ (∀ i p, i < 8 → (w.ram.wiznet_heap wiznet)._sockets i = some p →
        (w.ram.socket_heap p).type = SOCK_TYPE_MACRAW → i = 0)
    ∧ (∀ i j p q, i < 8 → j < 8 →
        (w.ram.wiznet_heap wiznet)._sockets i = some p →
        (w.ram.wiznet_heap wiznet)._sockets j = some q →
        (w.ram.socket_heap p).type = SOCK_TYPE_MACRAW →
        (w.ram.socket_heap q).type = SOCK_TYPE_MACRAW → i = j ∧ p = q) := by
  obtain ⟨⟨h1, h2, h3⟩, h4⟩ := reach_devInv hal wiznet w h
  refine ⟨h3, h2, ?_, h1, fun i p hi hp => (h4 i hi p hp).2, ?_⟩
  · rw [h2]; exact popcount8_le _
  · intro i j p q hi hj hp hq hpt hqt
    have ei := (h4 i hi p hp).2 hpt
    have ej := (h4 j hj q hq).2 hqt
    subst ei
    subst ej
    rw [hp] at hq
    injection hq with hq
    exact ⟨rfl, hq⟩

/-- C12 on the simulated chip: the world after a UDP `socket` call on an empty
device, followed by `sock_deinit` of that channel, is reached, and the invariant
holds in it. -/
theorem occupancy_invariant_witness :
    ∃ w1 w2 : World Sim,
      Reach (simHal 4) 0 w1 ∧ (w1.ram.wiznet_heap 0)._sockets 1 = some 0
      ∧ Reach (simHal 4) 0 w2
      ∧ (w1.ram.wiznet_heap 0)._sockets_cnt = popcount8 (w1.ram.wiznet_heap 0)._sockets_taken
      ∧ (w2.ram.wiznet_heap 0)._sockets_cnt = popcount8 (w2.ram.wiznet_heap 0)._sockets_taken := by
  have hs : (socket (simHal 4) 1 0 0 udpRoundTripWorld).toOption.map
      (fun r => (r.2.ram.wiznet_heap 0)._sockets 1) = some (some 0) := by decide
  have hc : ((socket (simHal 4) 1 0 0 udpRoundTripWorld).bind
      (fun r => sock_deinit (simHal 4) 0 r.2)).toOption.isSome = true := by decide
  cases h : socket (simHal 4) 1 0 0 udpRoundTripWorld with
  | error e => rw [h] at hs; cases hs
  | ok r =>
    rw [h] at hs hc
    have hslot : (r.2.ram.wiznet_heap 0)._sockets 1 = some 0 := by injection hs
    have hr1 : Reach (simHal 4) 0 r.2 :=
      Reach.by_socket 1 0 r.1 udpRoundTripWorld r.2 (Reach.start _ rfl rfl rfl)
        (fun i _ e => Option.noConfusion e) h
    cases h2 : sock_deinit (simHal 4) 0 r.2 with
    | error e =>
      have : (Except.ok r : Except Fault (Int × World Sim)).bind
          (fun r => sock_deinit (simHal 4) 0 r.2) = sock_deinit (simHal 4) 0 r.2 := rfl
      rw [this, h2] at hc
      cases hc
    | ok w2 =>
      have hr2 : Reach (simHal 4) 0 w2 :=
        Reach.by_sock_deinit 0 r.2 w2 hr1 ⟨1, by decide, hslot⟩ h2
      exact ⟨r.2, w2, hr1, hslot, hr2, (occupancy_invariant (simHal 4) 0 r.2 hr1).2.1,
        (occupancy_invariant (simHal 4) 0 w2 hr2).2.1⟩

end Wiznet
